import Mathlib

/-!
Verification development for opengl-ssao-demo.

A shallow embedding of the loader, texture, mesh, shader, camera and manager
code of the SSAO demo, followed by theorems about it.

Conventions of the embedding.

* A call to `std::terminate()` and an operation with undefined behaviour (an
  out-of-range subscript) are results of their own: fallible functions return
  `Except Fault _`.
* C++ `int` values are `Int`; the unsigned 32-bit values stored by the loader
  are `Nat` reduced `% 2 ^ 32` where the source converts.  In `read_ppm` an
  `int` operation whose result does not fit 32 bits is undefined.
* `float` values are idealised: every function that computes with floats is
  generic in a scalar type `F`, and the few library functions it calls
  (`sqrt`, `cos`, `sin`) are passed in a `Libm F` record.  The functions can
  be evaluated at `F = ℚ`; the theorems are stated for every ordered field.
* The sample kernel is embedded a second time as the program computes it, in
  binary32: the values are rationals and every operation is followed by
  rounding to the nearest value of the format, ties to even.
-/

set_option autoImplicit false

namespace SSAO

/-! ## Faults -/

/-- The two ways a function of the program can fail to return: a call to
`std::terminate()`, or an operation whose behaviour the language leaves
undefined. -/
inductive Fault where
  | terminate
  | undefined
  deriving DecidableEq, Repr

/-! ## texture.hpp, texture.cpp -/

/-- The `TextureData::Format` enumeration of `texture.hpp`. -/
inductive Format where
  | Greyscale
  | GreyAlpha
  | Rgb
  | Rgba
  deriving DecidableEq, Repr

/-- The value of `std::ceil(std::log2(n))` for an `int` `n ≥ 1`: the least `k`
with `n ≤ 2 ^ k`.  The double `std::log2 n` is exact when `n` is a power of
two, and for any other `n < 2 ^ 31` it differs from the nearest integer by more
than `2 ^ (-32)`, far above the rounding error of a double below `31`, so the
computed ceiling is the mathematical one. -/
def ceil_log2 (n : Nat) : Nat := Nat.clog 2 n

/-- The `levels` argument that `Texture::Texture(const TextureData&)` passes to
`glTextureStorage2D`:
`std::ceil(std::log2(std::max(width, height))) + 1`.
When the larger dimension is not positive the logarithm is `-inf` or NaN and
its conversion to `GLsizei` is undefined. -/
def Texture.levels (width height : Int) : Except Fault Int :=
  let m := max width height
  if 1 ≤ m then .ok ((ceil_log2 m.toNat : Int) + 1) else .error .undefined

/-! ## loader.cpp: texture formats -/

/-- The function `num_components_to_format` of `loader.cpp`: a `switch` over the
channel count with `std::terminate()` as its default. -/
def num_components_to_format (num_components : Int) : Except Fault Format :=
  if num_components = 1 then .ok Format.Greyscale
  else if num_components = 2 then .ok Format.GreyAlpha
  else if num_components = 3 then .ok Format.Rgb
  else if num_components = 4 then .ok Format.Rgba
  else .error .terminate

/-! ## Scalars and vectors (glm) -/

/-- The `<cmath>` functions the program calls on floats, over a scalar type
`F`. -/
structure Libm (F : Type) where
  sqrt : F → F
  cos : F → F
  sin : F → F

/-- The type `glm::vec2`. -/
structure Vec2 (F : Type) where
  x : F
  y : F
  deriving DecidableEq, Repr

/-- The type `glm::vec3`. -/
structure Vec3 (F : Type) where
  x : F
  y : F
  z : F
  deriving DecidableEq, Repr

section Glm

variable {F : Type} [LinearOrderedField F]

/-- Component-wise difference of two `glm::vec2`. -/
def Vec2.sub (a b : Vec2 F) : Vec2 F := ⟨a.x - b.x, a.y - b.y⟩

/-- Component-wise sum of two `glm::vec3`. -/
def Vec3.add (a b : Vec3 F) : Vec3 F := ⟨a.x + b.x, a.y + b.y, a.z + b.z⟩

/-- Component-wise difference of two `glm::vec3`. -/
def Vec3.sub (a b : Vec3 F) : Vec3 F := ⟨a.x - b.x, a.y - b.y, a.z - b.z⟩

/-- Product of a `glm::vec3` with a scalar (`v * s`, `v *= s`). -/
def Vec3.scale (v : Vec3 F) (s : F) : Vec3 F := ⟨v.x * s, v.y * s, v.z * s⟩

/-- The function `glm::dot` on `vec3`. -/
def Vec3.dot (a b : Vec3 F) : F := a.x * b.x + a.y * b.y + a.z * b.z

/-- The function `glm::cross`. -/
def Vec3.cross (a b : Vec3 F) : Vec3 F :=
  ⟨a.y * b.z - b.y * a.z, a.z * b.x - b.z * a.x, a.x * b.y - b.x * a.y⟩

/-- The function `glm::length`: `sqrt(dot(v, v))`. -/
def Vec3.length (m : Libm F) (v : Vec3 F) : F := m.sqrt (v.dot v)

/-- The function `glm::normalize`: `v * inversesqrt(dot(v, v))`, where
`inversesqrt(x)` is `1 / sqrt(x)`. -/
def Vec3.normalize (m : Libm F) (v : Vec3 F) : Vec3 F := v.scale (1 / m.sqrt (v.dot v))

/-- The function `glm::mix` on floats: `x * (1 - a) + y * a`. -/
def mix (x y a : F) : F := x * (1 - a) + y * a

/-- The function `glm::radians`: degrees times `π / 180`, the constant glm
writes out as a decimal literal. -/
def radians (degrees : F) : F := degrees * (1745329251994329576923690768489 / 10 ^ 32)

/-- The function `std::clamp(v, lo, hi)`: `(v < lo) ? lo : (hi < v) ? hi : v`. -/
def clamp (v lo hi : F) : F := if v < lo then lo else if hi < v then hi else v

end Glm

/-! ## camera.hpp, camera.cpp -/

/-- The data members of `class Camera`. -/
structure Camera (F : Type) where
  _position : Vec3 F
  _view_dir : Vec3 F
  _up_dir : Vec3 F
  _right_dir : Vec3 F
  _pitch : F
  _yaw : F

/-- The calls a client can make on a `Camera` that change it. -/
inductive CameraCall (F : Type) where
  | rotate (pitch yaw : F)
  | move_forward (delta : F)
  | move_backward (delta : F)
  | move_up (delta : F)
  | move_down (delta : F)
  | move_right (delta : F)
  | move_left (delta : F)

section CameraOps

variable {F : Type} [LinearOrderedField F]

/-- The constructor `Camera::Camera()`. -/
def Camera.new : Camera F where
  _position := ⟨0, 0, 0⟩
  _view_dir := ⟨0, 0, -1⟩
  _up_dir := ⟨0, 1, 0⟩
  _right_dir := ⟨1, 0, 0⟩
  _pitch := 0
  _yaw := -90

/-- The method `Camera::rotate(float pitch, float yaw)`. -/
def Camera.rotate (m : Libm F) (c : Camera F) (pitch yaw : F) : Camera F :=
  let _pitch := clamp (c._pitch + pitch) (-89) 89
  let _yaw := c._yaw + yaw
  let look : Vec3 F :=
    ⟨m.cos (radians _yaw) * m.cos (radians _pitch),
     m.sin (radians _pitch),
     m.sin (radians _yaw) * m.cos (radians _pitch)⟩
  let _view_dir := Vec3.normalize m look
  let _right_dir := Vec3.normalize m (_view_dir.cross ⟨0, 1, 0⟩)
  let _up_dir := Vec3.normalize m (_right_dir.cross _view_dir)
  { _position := c._position, _view_dir := _view_dir, _up_dir := _up_dir,
    _right_dir := _right_dir, _pitch := _pitch, _yaw := _yaw }

/-- The method `Camera::move_forward`. -/
def Camera.move_forward (c : Camera F) (delta : F) : Camera F :=
  { c with _position := c._position.add (c._view_dir.scale delta) }

/-- The method `Camera::move_backward`. -/
def Camera.move_backward (c : Camera F) (delta : F) : Camera F := c.move_forward (-delta)

/-- The method `Camera::move_up`. -/
def Camera.move_up (c : Camera F) (delta : F) : Camera F :=
  { c with _position := c._position.add (c._up_dir.scale delta) }

/-- The method `Camera::move_down`. -/
def Camera.move_down (c : Camera F) (delta : F) : Camera F := c.move_up (-delta)

/-- The method `Camera::move_right`. -/
def Camera.move_right (c : Camera F) (delta : F) : Camera F :=
  { c with _position := c._position.add (c._right_dir.scale delta) }

/-- The method `Camera::move_left`. -/
def Camera.move_left (c : Camera F) (delta : F) : Camera F := c.move_right (-delta)

/-- One call on a camera. -/
def Camera.call (m : Libm F) (c : Camera F) : CameraCall F → Camera F
  | .rotate pitch yaw => c.rotate m pitch yaw
  | .move_forward delta => c.move_forward delta
  | .move_backward delta => c.move_backward delta
  | .move_up delta => c.move_up delta
  | .move_down delta => c.move_down delta
  | .move_right delta => c.move_right delta
  | .move_left delta => c.move_left delta

/-- A sequence of calls on a camera, first call first. -/
def Camera.calls (m : Libm F) (c : Camera F) (cs : List (CameraCall F)) : Camera F :=
  cs.foldl (Camera.call m) c

end CameraOps

/-! ## manager.cpp: the sample kernel -/

section Kernel

variable {F : Type} [LinearOrderedField F]

/-- The scale of sample `i` in `generate_sample_kernel`:
`scale = i / 64.0F; scale = glm::mix(0.1F, 1.0F, scale * scale)`, read over
exact arithmetic: the operations are not rounded and the literal `0.1F` is one
tenth.  The value the program computes in binary32 is
`kernel_scale_binary32`. -/
def kernel_scale (i : Nat) : F :=
  let scale : F := (i : F) / 64
  mix (1 / 10) 1 (scale * scale)

/-- The body of the loop of `generate_sample_kernel` at index `i`, with the four
values `d0 .. d3` that `random_float(generator)` yields in that iteration, read
over exact arithmetic (no operation is rounded, `m.sqrt` stands for the square
root).  `d0`, `d1` and `d2` are the draws of the first, second and third
argument of the `glm::vec3` constructor (C++ leaves the order in which the
three arguments are evaluated unspecified), `d3` the draw that follows.  The
vector the program computes in binary32 is `kernel_sample_binary32`. -/
def kernel_sample (m : Libm F) (i : Nat) (d0 d1 d2 d3 : F) : Vec3 F :=
  let sample : Vec3 F := ⟨d0 * 2 - 1, d1 * 2 - 1, d2⟩
  let sample := Vec3.normalize m sample
  let sample := sample.scale d3
  sample.scale (kernel_scale i)

/-- The function `generate_sample_kernel` of `manager.cpp`, read over exact
arithmetic.  The random engine is the stream `draw` of its successive outputs;
iteration `i` consumes `draw (4 * i) .. draw (4 * i + 3)`.  The result is the
`std::array` of 64 vectors, as a list.  The array the program computes in
binary32 is `generate_sample_kernel_binary32`. -/
def generate_sample_kernel (m : Libm F) (draw : Nat → F) : List (Vec3 F) :=
  (List.range 64).map fun i =>
    kernel_sample m i (draw (4 * i)) (draw (4 * i + 1)) (draw (4 * i + 2)) (draw (4 * i + 3))

end Kernel

/-! ## GPU handle wrappers: texture.cpp, shader.cpp, mesh.cpp -/

/-- The data member of `class Texture`: the OpenGL texture name. -/
structure Texture where
  _tex_id : Nat
  deriving DecidableEq, Repr

/-- The function `Texture::_swap`; the pair is the two arguments afterwards. -/
def Texture._swap (t0 t1 : Texture) : Texture × Texture :=
  (⟨t1._tex_id⟩, ⟨t0._tex_id⟩)

/-- The move constructor `Texture::Texture(Texture&& t)`: the new object starts
with `_tex_id{0}` and is swapped with `t`.  The pair is (new object, `t`
afterwards). -/
def Texture.move_construct (t : Texture) : Texture × Texture :=
  Texture._swap ⟨0⟩ t

/-- The move assignment `Texture::operator=(Texture&& t)`.  The pair is
(`*this` afterwards, `t` afterwards). -/
def Texture.move_assign (self t : Texture) : Texture × Texture :=
  Texture._swap self t

/-- The effect of a `glDelete*` call on the set of live object names of one
kind: the name is released, and the name 0 is silently ignored. -/
def gl_delete (live : List Nat) (id : Nat) : List Nat :=
  if id = 0 then live else live.filter (fun n => n ≠ id)

/-- The destructor `Texture::~Texture()`: `glDeleteTextures(1, &_tex_id)`. -/
def Texture.destroy (t : Texture) (live : List Nat) : List Nat :=
  gl_delete live t._tex_id

/-- The data member of `class Shader`: the OpenGL program name. -/
structure Shader where
  _id : Nat
  deriving DecidableEq, Repr

/-- The function `Shader::_swap`. -/
def Shader._swap (a b : Shader) : Shader × Shader :=
  (⟨b._id⟩, ⟨a._id⟩)

/-- The move constructor `Shader::Shader(Shader&& s)`. -/
def Shader.move_construct (s : Shader) : Shader × Shader :=
  Shader._swap ⟨0⟩ s

/-- The move assignment `Shader::operator=(Shader&& s)`. -/
def Shader.move_assign (self s : Shader) : Shader × Shader :=
  Shader._swap self s

/-- The destructor `Shader::~Shader()`: `glDeleteProgram(_id)`. -/
def Shader.destroy (s : Shader) (live : List Nat) : List Nat :=
  gl_delete live s._id

/-- The struct `TextureGroup`: three `const Texture*`, each `none` for
`nullptr` and otherwise the position of the texture in its scene's pool. -/
structure TextureGroup where
  diffuse : Option Nat
  normal : Option Nat
  specular : Option Nat
  deriving DecidableEq, Repr

/-- The data members of `class Mesh`. -/
structure Mesh where
  _texture : TextureGroup
  _vao : Nat
  _vert_count : Int
  deriving DecidableEq, Repr

/-- The function `Mesh::_swap`: the three members are exchanged. -/
def Mesh._swap (a b : Mesh) : Mesh × Mesh :=
  (⟨b._texture, b._vao, b._vert_count⟩, ⟨a._texture, a._vao, a._vert_count⟩)

/-- The move constructor `Mesh::Mesh(Mesh&& m)`: the new object has `_vao{0}`
and the default member initialisers `_texture{}`, `_vert_count{}`, and is
swapped with `m`. -/
def Mesh.move_construct (m : Mesh) : Mesh × Mesh :=
  Mesh._swap ⟨⟨none, none, none⟩, 0, 0⟩ m

/-- The move assignment `Mesh::operator=(Mesh&& m)`. -/
def Mesh.move_assign (self m : Mesh) : Mesh × Mesh :=
  Mesh._swap self m

/-- The destructor `Mesh::~Mesh()`: `glDeleteVertexArrays(1, &_vao)`. -/
def Mesh.destroy (m : Mesh) (live : List Nat) : List Nat :=
  gl_delete live m._vao

/-! ## scene.hpp, manager.hpp, manager.cpp: scenes and events -/

/-- The data members of `class Scene`. -/
structure Scene where
  _textures : List Texture
  _meshes : List Mesh
  deriving DecidableEq, Repr

/-- The fields of `SDL_Event` that `Manager::handle_event` reads: `type` and
`key.keysym.sym`. -/
structure SDL_Event where
  type : Nat
  sym : Int
  deriving DecidableEq, Repr

/-- The SDL event type `SDL_QUIT`. -/
def SDL_QUIT : Nat := 0x100

/-- The SDL event type `SDL_KEYDOWN`. -/
def SDL_KEYDOWN : Nat := 0x300

/-- The SDL keycode `SDLK_q`, the character code of `q`. -/
def SDLK_q : Int := 113

/-- The SDL keycode `SDLK_f`. -/
def SDLK_f : Int := 102

/-- The SDL keycode `SDLK_e`. -/
def SDLK_e : Int := 101

/-- The SDL keycode `SDLK_1`; `SDLK_1 .. SDLK_9` are the character codes of the
digits `1 .. 9`. -/
def SDLK_1 : Int := 49

/-- The SDL keycode `SDLK_9`. -/
def SDLK_9 : Int := 57

/-- The key-down event of the numeric key `k` (`1 ≤ k ≤ 9`): keycode
`SDLK_1 + (k - 1)`. -/
def numeric_key (k : Nat) : SDL_Event := ⟨SDL_KEYDOWN, SDLK_1 + ((k : Int) - 1)⟩

/-- The value of `std::stoi(SDL_GetKeyName(keycode))` for a keycode in
`SDLK_1 .. SDLK_9`: the key's name is the one digit whose character code the
keycode is. -/
def stoi_key_name (keycode : Int) : Int := keycode - 48

/-- The two polygon modes `toggle_wireframe` switches between. -/
inductive PolygonMode where
  | GL_FILL
  | GL_LINE
  deriving DecidableEq, Repr

/-- The data members of `class Manager` that its event handling and rendering
read or write, with the function-local static `mode` of `toggle_wireframe`.
The window, the context and the camera are left out: `handle_event` and
`add_scene` do not touch them. -/
structure Manager where
  _scenes : List Scene
  _scene_idx : Option Nat
  _quad : Nat
  _noise_tex : Nat
  _geometry_shader : Shader
  _gbuffer : Nat
  _gposition : Nat
  _gnormal : Nat
  _gdiffuse : Nat
  _ssao_shader : Shader
  _ssao_buffer : Nat
  _ssao_color_tex : Nat
  _ssao_blur_shader : Shader
  _ssao_blur_buffer : Nat
  _ssao_color_blur_tex : Nat
  _lighting_shader : Shader
  _enable_ssao : Bool
  mode : PolygonMode
  deriving DecidableEq, Repr

/-- The function `toggle_wireframe`. -/
def toggle_wireframe (m : Manager) : Manager :=
  { m with mode := if m.mode = PolygonMode.GL_FILL then PolygonMode.GL_LINE
                   else PolygonMode.GL_FILL }

/-- The method `Manager::toggle_ssao`. -/
def Manager.toggle_ssao (m : Manager) : Manager :=
  { m with _enable_ssao := !m._enable_ssao }

/-- The method `Manager::add_scene`. -/
def Manager.add_scene (m : Manager) (s : Scene) : Manager :=
  let m1 := { m with _scenes := m._scenes ++ [s] }
  if m1._scene_idx.isNone then { m1 with _scene_idx := some 0 } else m1

/-- The method `Manager::handle_event`: the returned flag and the manager
afterwards. -/
def Manager.handle_event (m : Manager) (event : SDL_Event) : Bool × Manager :=
  if event.type = SDL_QUIT then (true, m)
  else if event.type = SDL_KEYDOWN then
    let keycode := event.sym
    if keycode = SDLK_q then (true, m)
    else if keycode = SDLK_f then (false, toggle_wireframe m)
    else if keycode = SDLK_e then (false, m.toggle_ssao)
    else if SDLK_1 ≤ keycode ∧ keycode ≤ SDLK_9 then
      let idx := (stoi_key_name keycode - 1).toNat
      if idx < m._scenes.length then (false, { m with _scene_idx := some idx })
      else (false, m)
    else (false, m)
  else (false, m)

/-! ## loader.cpp: the P3 reader -/

/-- The struct `TextureData`, with the pixel bytes it points to. -/
structure TextureData where
  data : List Nat
  width : Int
  height : Int
  format : Format
  deriving DecidableEq, Repr

/-- The local variables of `read_ppm` that live across iterations of its
loop. -/
structure PpmState where
  data : List Nat
  width : Int
  height : Int
  got_width : Bool
  got_height : Bool
  got_max_val : Bool
  index : Int
  deriving DecidableEq, Repr

/-- The subscript of the store in `read_ppm`:
`(height - 1 - y) * width * 3 + (width * 3 - t * 3 + x % 3)` with
`x = index % (width * 3)`, `y = index / (width * 3)`, `t = x / 3`, in C++
integer arithmetic (division truncates). -/
def ppm_store_index (width height index : Int) : Int :=
  let x := Int.tmod index (width * 3)
  let y := Int.tdiv index (width * 3)
  let t := Int.tdiv x 3
  (height - 1 - y) * width * 3 + (width * 3 - t * 3 + Int.tmod x 3)

/-- The subscript a reader that only flips the rows would use for sample
`index`: row `height - 1 - y`, the same column and channel. -/
def ppm_flip_index (width height index : Int) : Int :=
  let x := Int.tmod index (width * 3)
  let y := Int.tdiv index (width * 3)
  (height - 1 - y) * width * 3 + x

/-- The values of `int`: 32 bits, from `-2 ^ 31` to `2 ^ 31 - 1`.  An `int`
operation whose exact result is not among them is undefined. -/
def int_in_range (v : Int) : Prop := -2147483648 ≤ v ∧ v < 2147483648

instance (v : Int) : Decidable (int_in_range v) :=
  inferInstanceAs (Decidable (-2147483648 ≤ v ∧ v < 2147483648))

/-- Every intermediate result of the subscript expression of `read_ppm` (see
`ppm_store_index`) is a value of `int`. -/
def ppm_store_in_int (width height index : Int) : Prop :=
  let x := Int.tmod index (width * 3)
  let y := Int.tdiv index (width * 3)
  let t := Int.tdiv x 3
  int_in_range (width * 3) ∧ int_in_range (height - 1) ∧ int_in_range (height - 1 - y) ∧
  int_in_range ((height - 1 - y) * width) ∧ int_in_range ((height - 1 - y) * width * 3) ∧
  int_in_range (t * 3) ∧ int_in_range (width * 3 - t * 3) ∧
  int_in_range (width * 3 - t * 3 + Int.tmod x 3) ∧
  int_in_range ((height - 1 - y) * width * 3 + (width * 3 - t * 3 + Int.tmod x 3))

instance (width height index : Int) : Decidable (ppm_store_in_int width height index) :=
  inferInstanceAs (Decidable (
    int_in_range (width * 3) ∧ int_in_range (height - 1) ∧
    int_in_range (height - 1 - Int.tdiv index (width * 3)) ∧
    int_in_range ((height - 1 - Int.tdiv index (width * 3)) * width) ∧
    int_in_range ((height - 1 - Int.tdiv index (width * 3)) * width * 3) ∧
    int_in_range (Int.tdiv (Int.tmod index (width * 3)) 3 * 3) ∧
    int_in_range (width * 3 - Int.tdiv (Int.tmod index (width * 3)) 3 * 3) ∧
    int_in_range (width * 3 - Int.tdiv (Int.tmod index (width * 3)) 3 * 3
      + Int.tmod (Int.tmod index (width * 3)) 3) ∧
    int_in_range ((height - 1 - Int.tdiv index (width * 3)) * width * 3
      + (width * 3 - Int.tdiv (Int.tmod index (width * 3)) 3 * 3
        + Int.tmod (Int.tmod index (width * 3)) 3))))

/-- One iteration of the loop of `read_ppm` in which `file >> n` succeeded with
value `n`.  An overflow of `int` arithmetic, dividing by `width * 3 = 0` and
storing outside `data` are undefined; a negative size makes `resize` throw,
which terminates. -/
def read_ppm_step (s : PpmState) (n : Int) : Except Fault PpmState :=
  if !s.got_width then .ok { s with width := n, got_width := true }
  else if !s.got_height then .ok { s with height := n, got_height := true }
  else if !s.got_max_val then
    if int_in_range (s.width * s.height) ∧ int_in_range (s.width * s.height * 3) then
      if 0 ≤ s.width * s.height * 3 then
        .ok { s with got_max_val := true,
                     data := List.replicate (s.width * s.height * 3).toNat 0 }
      else .error .terminate
    else .error .undefined
  else if s.width * 3 = 0 then .error .undefined
  else
    let i := ppm_store_index s.width s.height s.index
    if ppm_store_in_int s.width s.height s.index ∧ 0 ≤ i ∧ i.toNat < s.data.length then
      .ok { s with data := s.data.set i.toNat (n % 256).toNat, index := s.index + 1 }
    else .error .undefined

/-- The loop of `read_ppm` over the tokens that follow the magic number:
`some n` is a token that `file >> n` reads as `n`, `none` a failed extraction
(a comment, or the end of the file), after which the rest of the line is
skipped and the loop continues. -/
def read_ppm_loop : PpmState → List (Option Int) → Except Fault PpmState
  | s, [] => .ok s
  | s, none :: rest => read_ppm_loop s rest
  | s, some n :: rest =>
    match read_ppm_step s n with
    | .ok s1 => read_ppm_loop s1 rest
    | .error e => .error e

/-- The function `read_ppm` of `loader.cpp`, up to the `TextureData` it builds
(the upload of that data to the GPU is the `Texture` constructor). -/
def read_ppm (tokens : List (Option Int)) : Except Fault TextureData :=
  match read_ppm_loop ⟨[], 0, 0, false, false, false, 0⟩ tokens with
  | .ok s =>
    match num_components_to_format 3 with
    | .ok format => .ok ⟨s.data, s.width, s.height, format⟩
    | .error e => .error e
  | .error e => .error e

/-- The tokens of a P3 file without comments: width, height, maximum value and
the samples in file order. -/
def ppm_tokens (width height max_val : Int) (samples : List Int) : List (Option Int) :=
  (width :: height :: max_val :: samples).map some

/-! ## loader.cpp: meshes -/

/-- The struct `tinyobj::index_t`. -/
structure index_t where
  vertex_index : Int
  normal_index : Int
  texcoord_index : Int
  deriving DecidableEq, Repr

/-- The members of `tinyobj::attrib_t` that the loader reads. -/
structure attrib_t (F : Type) where
  vertices : List F
  normals : List F
  texcoords : List F

/-- The members of `tinyobj::mesh_t` that the loader reads. -/
structure mesh_t where
  indices : List index_t
  num_face_vertices : List Nat
  material_ids : List Int
  deriving DecidableEq, Repr

/-- The struct `Vertex` of `mesh.hpp`. -/
structure Vertex (F : Type) where
  position : Vec3 F
  normal : Vec3 F
  tex_coord : Vec2 F
  tex_tangent : Vec3 F
  deriving DecidableEq, Repr

/-- The type `glm::uvec3`: three unsigned 32-bit components. -/
structure UVec3 where
  x : Nat
  y : Nat
  z : Nat
  deriving DecidableEq, Repr

/-- The assignment `face[v] = value` on a `glm::uvec3`; a component index
above 2 is out of range. -/
def UVec3.set (face : UVec3) (v : Nat) (value : Nat) : Except Fault UVec3 :=
  if v = 0 then .ok { face with x := value }
  else if v = 1 then .ok { face with y := value }
  else if v = 2 then .ok { face with z := value }
  else .error .undefined

/-- The read `face[v]` for `v ≤ 2` (0 beyond). -/
def UVec3.get (face : UVec3) (v : Nat) : Nat :=
  if v = 0 then face.x else if v = 1 then face.y else if v = 2 then face.z else 0

/-- The read `xs[i]` of a `std::vector` with an `int` subscript: outside the
vector it is undefined. -/
def vector_at {α : Type} (xs : List α) (i : Int) : Except Fault α :=
  if 0 ≤ i then
    match xs[i.toNat]? with
    | some a => .ok a
    | none => .error .undefined
  else .error .undefined

section Loader

variable {F : Type} [LinearOrderedField F]

/-- The value-initialised `Vertex{}`. -/
def Vertex.zero : Vertex F := ⟨⟨0, 0, 0⟩, ⟨0, 0, 0⟩, ⟨0, 0⟩, ⟨0, 0, 0⟩⟩

/-- The function `gen_vertex` of `loader.cpp`. -/
def gen_vertex (attrib : attrib_t F) (idx : index_t) : Except Fault (Vertex F) := do
  let vertex : Vertex F := Vertex.zero
  let px ← vector_at attrib.vertices (3 * idx.vertex_index + 0)
  let py ← vector_at attrib.vertices (3 * idx.vertex_index + 1)
  let pz ← vector_at attrib.vertices (3 * idx.vertex_index + 2)
  let vertex := { vertex with position := ⟨px, py, pz⟩ }
  let vertex ←
    if 0 ≤ idx.normal_index then do
      let nx ← vector_at attrib.normals (3 * idx.normal_index + 0)
      let ny ← vector_at attrib.normals (3 * idx.normal_index + 1)
      let nz ← vector_at attrib.normals (3 * idx.normal_index + 2)
      pure { vertex with normal := ⟨nx, ny, nz⟩ }
    else pure vertex
  let vertex ←
    if 0 ≤ idx.texcoord_index then do
      let u ← vector_at attrib.texcoords (2 * idx.texcoord_index + 0)
      let v ← vector_at attrib.texcoords (2 * idx.texcoord_index + 1)
      pure { vertex with tex_coord := ⟨u, v⟩ }
    else pure vertex
  pure vertex

/-- The tangent that `generate_tangents` computes from the three vertices of a
face, over exact arithmetic.  The source divides by the UV determinant
`duv1.x * duv2.y - duv2.x * duv1.y`; when it is zero the source's quotient is
an infinity and the stored components are not finite, which this value (with
`1 / 0 = 0` in a field) does not represent: statements about the value assume a
determinant that is not zero. -/
def face_tangent (v0 v1 v2 : Vertex F) : Vec3 F :=
  let e1 := v1.position.sub v0.position
  let e2 := v2.position.sub v0.position
  let duv1 := v1.tex_coord.sub v0.tex_coord
  let duv2 := v2.tex_coord.sub v0.tex_coord
  let f := 1 / (duv1.x * duv2.y - duv2.x * duv1.y)
  ⟨f * (duv2.y * e1.x - duv1.y * e2.x),
   f * (duv2.y * e1.y - duv1.y * e2.y),
   f * (duv2.y * e1.z - duv1.y * e2.z)⟩

/-- The assignment `vertices[i].tex_tangent = tangent`. -/
def set_tangent (vertices : List (Vertex F)) (i : Nat) (tangent : Vec3 F) :
    List (Vertex F) :=
  vertices.modify (fun v => { v with tex_tangent := tangent }) i

/-- The function `generate_tangents` of `loader.cpp`; a face index outside
`vertices` is undefined. -/
def generate_tangents (vertices : List (Vertex F)) (indices : UVec3) :
    Except Fault (List (Vertex F)) :=
  match vertices[indices.x]?, vertices[indices.y]?, vertices[indices.z]? with
  | some v0, some v1, some v2 =>
    let tangent := face_tangent v0 v1 v2
    .ok (set_tangent (set_tangent (set_tangent vertices indices.x tangent)
      indices.y tangent) indices.z tangent)
  | _, _, _ => .error .undefined

/-- The local variables of `gen_mesh` that live across the iterations of its
loop over the faces; `seen` is the `std::unordered_map` from index triples to
output indices, as an association list. -/
structure GenMeshState (F : Type) where
  offset : Nat
  vertices : List (Vertex F)
  indices : List UVec3
  seen : List (index_t × Nat)

/-- The lookup `seen[ind]` of a key that may be absent. -/
def seen_find (seen : List (index_t × Nat)) (ind : index_t) : Option Nat :=
  (seen.find? (fun e => e.1 = ind)).map Prod.snd

/-- The body of the inner loop of `gen_mesh` for corner `v` of the current
face: the vertex list, the map and the face afterwards.  The size of the
vertex list is converted to `unsigned` when it is stored in the map. -/
def gen_mesh_corner (s : mesh_t) (attrib : attrib_t F) (offset : Nat)
    (acc : List (Vertex F) × List (index_t × Nat) × UVec3) (v : Nat) :
    Except Fault (List (Vertex F) × List (index_t × Nat) × UVec3) :=
  match s.indices[offset + v]? with
  | none => .error .undefined
  | some idx =>
    match seen_find acc.2.1 idx with
    | some i => do
      let face ← acc.2.2.set v i
      pure (acc.1, acc.2.1, face)
    | none => do
      let i := acc.1.length % 2 ^ 32
      let vertex ← gen_vertex attrib idx
      let face ← acc.2.2.set v i
      pure (acc.1 ++ [vertex], acc.2.1 ++ [(idx, i)], face)

/-- The inner loop of `gen_mesh`, `for (auto v = 0; v < fv; v++)`, as a fold
over `v = 0 .. fv - 1`. -/
def gen_mesh_corners (s : mesh_t) (attrib : attrib_t F) (offset : Nat) :
    List Nat → List (Vertex F) × List (index_t × Nat) × UVec3 →
    Except Fault (List (Vertex F) × List (index_t × Nat) × UVec3)
  | [], acc => .ok acc
  | v :: vs, acc =>
    match gen_mesh_corner s attrib offset acc v with
    | .ok acc1 => gen_mesh_corners s attrib offset vs acc1
    | .error e => .error e

/-- The body of the outer loop of `gen_mesh` for a face of `fv` corners. -/
def gen_mesh_face (s : mesh_t) (attrib : attrib_t F) (st : GenMeshState F) (fv : Nat) :
    Except Fault (GenMeshState F) :=
  match gen_mesh_corners s attrib st.offset (List.range fv)
      (st.vertices, st.seen, ⟨0, 0, 0⟩) with
  | .error e => .error e
  | .ok (vertices, seen, face) =>
    match generate_tangents vertices face with
    | .error e => .error e
    | .ok vertices1 =>
      .ok { offset := st.offset + fv, vertices := vertices1,
            indices := st.indices ++ [face], seen := seen }

/-- The outer loop of `gen_mesh`, `for (auto fv : s.mesh.num_face_vertices)`. -/
def gen_mesh_faces (s : mesh_t) (attrib : attrib_t F) :
    List Nat → GenMeshState F → Except Fault (GenMeshState F)
  | [], st => .ok st
  | fv :: fvs, st =>
    match gen_mesh_face s attrib st fv with
    | .ok st1 => gen_mesh_faces s attrib fvs st1
    | .error e => .error e

/-- The vertex and index lists that `gen_mesh` of `loader.cpp` builds (its
lines up to the end of the loop over the faces) and hands to the `Mesh`
constructor. -/
def gen_mesh (s : mesh_t) (attrib : attrib_t F) :
    Except Fault (List (Vertex F) × List UVec3) :=
  match gen_mesh_faces s attrib s.num_face_vertices ⟨0, [], [], []⟩ with
  | .ok st => .ok (st.vertices, st.indices)
  | .error e => .error e

end Loader

/-! ## Vocabulary for statements about `gen_mesh` -/

/-- The element buffer a list of faces is uploaded as: the components of the
`glm::uvec3` values in order. -/
def element_buffer : List UVec3 → List Nat
  | [] => []
  | face :: rest => face.x :: face.y :: face.z :: element_buffer rest

/-- The position, normal and texture coordinate of a vertex, the members that
`gen_vertex` fills in. -/
def Vertex.attributes {F : Type} (v : Vertex F) : Vec3 F × Vec3 F × Vec2 F :=
  (v.position, v.normal, v.tex_coord)

/-- An index triple refers inside the attribute arrays: the position index
always, the normal and texture-coordinate index when present (not negative). -/
def index_in_range {F : Type} (attrib : attrib_t F) (idx : index_t) : Prop :=
  0 ≤ idx.vertex_index ∧ 3 * idx.vertex_index + 2 < attrib.vertices.length ∧
  (0 ≤ idx.normal_index → 3 * idx.normal_index + 2 < attrib.normals.length) ∧
  (0 ≤ idx.texcoord_index → 2 * idx.texcoord_index + 1 < attrib.texcoords.length)

instance {F : Type} (attrib : attrib_t F) (idx : index_t) :
    Decidable (index_in_range attrib idx) := by
  unfold index_in_range
  infer_instance

/-- The loop invariant of `gen_mesh` after the corners `done` have been
processed, with `V` the vertex list, `S` the map and `E` the indices issued so
far: the map sends its `j`-th key to `j`, its keys are the distinct triples
among `done`, vertex `j` carries the attributes `gen_vertex` gives for key `j`,
and each processed corner was issued the value of its triple in the map. -/
structure DedupInv {F : Type} [LinearOrderedField F] (attrib : attrib_t F)
    (done : List index_t) (V : List (Vertex F)) (S : List (index_t × Nat))
    (E : List Nat) : Prop where
  snd : S.map Prod.snd = List.range S.length
  nodup : (S.map Prod.fst).Nodup
  mem : ∀ k, k ∈ S.map Prod.fst ↔ k ∈ done
  built : V.map (fun v => (Except.ok v.attributes : Except Fault _)) =
    S.map (fun e => (gen_vertex attrib e.1).map Vertex.attributes)
  issued : List.Forall₂ (fun idx e => seen_find S idx = some e) done E
  bound : S.length ≤ done.length

/-! ## OpenGL commands issued by drawing: mesh.cpp, scene.cpp, manager.cpp -/

/-- The primitive modes the program draws with. -/
inductive DrawMode where
  | GL_TRIANGLES
  | GL_TRIANGLE_STRIP
  deriving DecidableEq, Repr

/-- The uniforms `Manager::render` uploads every frame. -/
inductive UniformName where
  | u_model
  | u_view
  deriving DecidableEq, Repr

/-- The OpenGL and SDL calls that `Manager::render`, `Scene::render` and
`Mesh::draw` issue, with the arguments the program chooses.  `Clear` records
whether the colour and the depth bit are in the mask; `UniformMatrix4fv`
records the program whose location was queried and the uniform, not the matrix
value. -/
inductive GLCommand where
  | ClearColor (r g b a : Nat)
  | Clear (color depth : Bool)
  | UseProgram (id : Nat)
  | UniformMatrix4fv (program : Nat) (name : UniformName)
  | BindFramebuffer (id : Nat)
  | BindTextureUnit (unit id : Nat)
  | BindVertexArray (id : Nat)
  | DrawArrays (mode : DrawMode) (first count : Int)
  | DrawElements (mode : DrawMode) (count : Int)
  | SwapWindow
  deriving DecidableEq, Repr

/-- The conversion `static_cast<GLsizei>(n)` of a `size_t` to a signed 32-bit
integer. -/
def to_GLsizei (n : Nat) : Int := (((n + 2 ^ 31) % 2 ^ 32 : Nat) : Int) - 2 ^ 31

/-- The value of `sizeof(glm::uvec3)`: three 4-byte components. -/
def sizeof_uvec3 : Nat := 12

/-- The value of `indices.size_bytes()` for a `std::span<glm::uvec3>`. -/
def size_bytes (indices : List UVec3) : Nat := indices.length * sizeof_uvec3

/-- The constructor `Mesh::Mesh(vertices, indices, texture)`: the members it
initialises, with `vao` the name `glCreateVertexArrays` returns.  The vertex
and index data go to GPU buffers and are not kept in the object. -/
def Mesh.new {V : Type} (_vertices : List V) (indices : List UVec3) (texture : TextureGroup)
    (vao : Nat) : Mesh :=
  { _texture := texture, _vao := vao, _vert_count := to_GLsizei (size_bytes indices) }

/-- The expression `p != nullptr ? p->id() : 0` of `Mesh::draw`, for a pointer
into the texture pool `pool`; a pointer outside the pool is dangling. -/
def texture_id_or_zero (pool : List Texture) : Option Nat → Except Fault Nat
  | none => .ok 0
  | some p =>
    match pool[p]? with
    | some t => .ok t._tex_id
    | none => .error .undefined

/-- The method `Mesh::draw`, with the texture pool its pointers refer to. -/
def Mesh.draw (pool : List Texture) (m : Mesh) : Except Fault (List GLCommand) := do
  let diffuse ← texture_id_or_zero pool m._texture.diffuse
  let normal ← texture_id_or_zero pool m._texture.normal
  let specular ← texture_id_or_zero pool m._texture.specular
  pure [GLCommand.BindTextureUnit 0 diffuse,
        GLCommand.BindTextureUnit 1 normal,
        GLCommand.BindTextureUnit 2 specular,
        GLCommand.BindVertexArray m._vao,
        GLCommand.DrawElements DrawMode.GL_TRIANGLES m._vert_count,
        GLCommand.BindVertexArray 0]

/-- The loop of `Scene::render` over a list of meshes. -/
def draw_meshes (pool : List Texture) : List Mesh → Except Fault (List GLCommand)
  | [] => .ok []
  | mesh :: rest =>
    match Mesh.draw pool mesh with
    | .error e => .error e
    | .ok cs =>
      match draw_meshes pool rest with
      | .error e => .error e
      | .ok ds => .ok (cs ++ ds)

/-- The method `Scene::render`; the meshes point into the scene's own texture
pool. -/
def Scene.render (s : Scene) : Except Fault (List GLCommand) :=
  draw_meshes s._textures s._meshes

/-- The method `Manager::draw_quad`. -/
def Manager.draw_quad (m : Manager) : List GLCommand :=
  [GLCommand.BindVertexArray m._quad,
   GLCommand.DrawArrays DrawMode.GL_TRIANGLE_STRIP 0 4,
   GLCommand.BindVertexArray 0]

/-- The commands of `Manager::render` before the test of `_scene_idx`. -/
def Manager.render_clear : List GLCommand :=
  [GLCommand.ClearColor 0 0 0 1, GLCommand.Clear true true]

/-- The commands of pass 1 of `Manager::render` before the scene is drawn. -/
def Manager.render_geometry_setup (m : Manager) : List GLCommand :=
  [GLCommand.UseProgram m._geometry_shader._id,
   GLCommand.UniformMatrix4fv m._geometry_shader._id UniformName.u_model,
   GLCommand.UniformMatrix4fv m._geometry_shader._id UniformName.u_view,
   GLCommand.BindFramebuffer m._gbuffer,
   GLCommand.Clear true true]

/-- The commands of `Manager::render` after the scene is drawn: the end of pass
1, then passes 2, 3 and 4. -/
def Manager.render_screen_passes (m : Manager) : List GLCommand :=
  [GLCommand.BindFramebuffer 0,
   GLCommand.BindFramebuffer m._ssao_buffer,
   GLCommand.Clear true false,
   GLCommand.UseProgram m._ssao_shader._id,
   GLCommand.BindTextureUnit 0 m._gposition,
   GLCommand.BindTextureUnit 1 m._gnormal,
   GLCommand.BindTextureUnit 2 m._noise_tex]
  ++ m.draw_quad ++
  [GLCommand.BindFramebuffer 0,
   GLCommand.BindFramebuffer m._ssao_blur_buffer,
   GLCommand.Clear true false,
   GLCommand.UseProgram m._ssao_blur_shader._id,
   GLCommand.BindTextureUnit 0 m._ssao_color_tex]
  ++ m.draw_quad ++
  [GLCommand.BindFramebuffer 0,
   GLCommand.Clear true true,
   GLCommand.UseProgram m._lighting_shader._id,
   GLCommand.BindTextureUnit 0 m._gdiffuse,
   GLCommand.BindTextureUnit 1 m._ssao_color_blur_tex]
  ++ m.draw_quad

/-- The method `Manager::render`: the commands of one frame.  The subscript
`_scenes[*_scene_idx]` outside the scene list is undefined. -/
def Manager.render (m : Manager) : Except Fault (List GLCommand) :=
  match m._scene_idx with
  | none => .ok (Manager.render_clear ++ [GLCommand.SwapWindow])
  | some i =>
    match m._scenes[i]? with
    | none => .error .undefined
    | some scene =>
      match scene.render with
      | .error e => .error e
      | .ok draws =>
        .ok (Manager.render_clear ++ m.render_geometry_setup ++ draws
          ++ m.render_screen_passes ++ [GLCommand.SwapWindow])

/-- The attachment points the framebuffers of the pipeline use. -/
inductive AttachmentPoint where
  | GL_COLOR_ATTACHMENT0
  | GL_COLOR_ATTACHMENT1
  | GL_COLOR_ATTACHMENT2
  | GL_DEPTH_ATTACHMENT
  deriving DecidableEq, Repr

/-- One `glNamedFramebufferTexture` or `glNamedFramebufferRenderbuffer` call:
the object attached to a point of a framebuffer. -/
structure Attachment where
  framebuffer : Nat
  point : AttachmentPoint
  object : Nat
  deriving DecidableEq, Repr

/-- The method `Manager::construct_gbuffer`, with the names `glCreate*` returns
for the framebuffer, the three textures and the renderbuffer: the manager
afterwards and the attachments made. -/
def Manager.construct_gbuffer (m : Manager) (framebuffer position normal diffuse
    render_buffer : Nat) : Manager × List Attachment :=
  ({ m with _gbuffer := framebuffer, _gposition := position, _gnormal := normal,
            _gdiffuse := diffuse },
   [⟨framebuffer, AttachmentPoint.GL_COLOR_ATTACHMENT0, position⟩,
    ⟨framebuffer, AttachmentPoint.GL_COLOR_ATTACHMENT1, normal⟩,
    ⟨framebuffer, AttachmentPoint.GL_COLOR_ATTACHMENT2, diffuse⟩,
    ⟨framebuffer, AttachmentPoint.GL_DEPTH_ATTACHMENT, render_buffer⟩])

/-- The method `Manager::construct_ssao_buffers`, with the names `glCreate*`
returns for the two framebuffers and their textures. -/
def Manager.construct_ssao_buffers (m : Manager) (ssao_framebuffer ssao_texture
    blur_framebuffer blur_texture : Nat) : Manager × List Attachment :=
  ({ m with _ssao_buffer := ssao_framebuffer, _ssao_color_tex := ssao_texture,
            _ssao_blur_buffer := blur_framebuffer, _ssao_color_blur_tex := blur_texture },
   [⟨ssao_framebuffer, AttachmentPoint.GL_COLOR_ATTACHMENT0, ssao_texture⟩,
    ⟨blur_framebuffer, AttachmentPoint.GL_COLOR_ATTACHMENT0, blur_texture⟩])

/-- The object attached to a point of a framebuffer, if any. -/
def attached (attachments : List Attachment) (framebuffer : Nat) (point : AttachmentPoint) :
    Option Nat :=
  (attachments.find? (fun a => a.framebuffer = framebuffer ∧ a.point = point)).map
    Attachment.object

/-! ## Vocabulary for statements about command sequences -/

/-- The OpenGL bindings a draw call depends on. -/
structure GLBinding where
  framebuffer : Nat
  program : Nat
  units : Nat → Nat
  vertex_array : Nat

/-- The effect of one command on the bindings. -/
def GLBinding.step (b : GLBinding) : GLCommand → GLBinding
  | .UseProgram id => { b with program := id }
  | .BindFramebuffer id => { b with framebuffer := id }
  | .BindTextureUnit unit id => { b with units := fun u => if u = unit then id else b.units u }
  | .BindVertexArray id => { b with vertex_array := id }
  | _ => b

/-- Whether a command is a draw call. -/
def GLCommand.is_draw : GLCommand → Bool
  | .DrawArrays _ _ _ => true
  | .DrawElements _ _ => true
  | _ => false

/-- The bindings in force at each draw call of a command sequence run from the
bindings `b`, in order. -/
def draw_bindings : GLBinding → List GLCommand → List GLBinding
  | _, [] => []
  | b, c :: rest =>
    if c.is_draw then b :: draw_bindings (b.step c) rest
    else draw_bindings (b.step c) rest

/-- The bindings after a command sequence run from the bindings `b`. -/
def final_binding : GLBinding → List GLCommand → GLBinding
  | b, [] => b
  | b, c :: rest => final_binding (b.step c) rest

/-! ## loader.cpp: textures of a scene -/

/-- The members of `tinyobj::material_t` that the loader reads. -/
structure material_t where
  diffuse_texname : String
  normal_texname : String
  specular_texname : String
  deriving DecidableEq, Repr

/-- The function `fix_path`: every backslash (character 92) is replaced by a
slash. -/
def fix_path (path : String) : String :=
  path.map (fun c => if c = Char.ofNat 92 then '/' else c)

/-- The struct `TextureMap`: the textures and the map from paths to positions
in that list, as an association list.  `P` is the type of
`std::filesystem::path` values with their equality. -/
structure TextureMap (P : Type) where
  textures : List Texture
  map : List (P × Nat)

/-- The lookup `map.at(path)` of a key that may be absent; `map.contains(path)`
is whether it is `some`. -/
def path_find {P : Type} [DecidableEq P] (map : List (P × Nat)) (path : P) : Option Nat :=
  (map.find? (fun e => e.1 = path)).map Prod.snd

/-- The function `load_texture`, with `read_texture` the result of reading and
uploading the file at a path. -/
def load_texture {P : Type} [DecidableEq P] (read_texture : P → Except Fault Texture)
    (data : TextureMap P) (path : P) : Except Fault (TextureMap P) :=
  match path_find data.map path with
  | some _ => .ok data
  | none =>
    match read_texture path with
    | .error e => .error e
    | .ok texture =>
      .ok { textures := data.textures ++ [texture],
            map := data.map ++ [(path, data.textures.length)] }

/-- One of the three `if (!name.empty())` blocks in the loop of
`load_textures`, with `join name` the path `directory / name`. -/
def load_named {P : Type} [DecidableEq P] (join : String → P)
    (read_texture : P → Except Fault Texture) (data : TextureMap P) (name : String) :
    Except Fault (TextureMap P) :=
  if name ≠ "" then load_texture read_texture data (join (fix_path name)) else .ok data

/-- The body of the loop of `load_textures` for one material. -/
def load_material {P : Type} [DecidableEq P] (join : String → P)
    (read_texture : P → Except Fault Texture) (data : TextureMap P) (material : material_t) :
    Except Fault (TextureMap P) :=
  match load_named join read_texture data material.diffuse_texname with
  | .error e => .error e
  | .ok data1 =>
    match load_named join read_texture data1 material.normal_texname with
    | .error e => .error e
    | .ok data2 => load_named join read_texture data2 material.specular_texname

/-- The loop of `load_textures` over the materials. -/
def load_materials {P : Type} [DecidableEq P] (join : String → P)
    (read_texture : P → Except Fault Texture) :
    List material_t → TextureMap P → Except Fault (TextureMap P)
  | [], data => .ok data
  | material :: rest, data =>
    match load_material join read_texture data material with
    | .error e => .error e
    | .ok data1 => load_materials join read_texture rest data1

/-- The function `load_textures` of `loader.cpp`. -/
def load_textures {P : Type} [DecidableEq P] (join : String → P)
    (read_texture : P → Except Fault Texture) (materials : List material_t) :
    Except Fault (TextureMap P) :=
  load_materials join read_texture materials ⟨[], []⟩

/-- One of the three texture slots that `gen_mesh` resolves for a material
name: a pointer to `texture_map.textures[texture_map.map.at(path)]` when the
name is not empty and the map contains the path, `nullptr` otherwise. -/
def resolve_texture {P : Type} [DecidableEq P] (join : String → P)
    (texture_map : TextureMap P) (name : String) : Except Fault (Option Nat) :=
  if name ≠ "" then
    match path_find texture_map.map (join (fix_path name)) with
    | some i => if i < texture_map.textures.length then .ok (some i) else .error .undefined
    | none => .ok none
  else .ok none

/-- The texture group that `gen_mesh` builds after its loop over the faces:
the material of the first face decides, and a negative material id leaves the
three pointers null. -/
def gen_mesh_textures {P : Type} [DecidableEq P] (join : String → P) (s : mesh_t)
    (materials : List material_t) (texture_map : TextureMap P) : Except Fault TextureGroup :=
  match vector_at s.material_ids 0 with
  | .error e => .error e
  | .ok midx =>
    if 0 ≤ midx then
      match vector_at materials midx with
      | .error e => .error e
      | .ok mat => do
        let diffuse ← resolve_texture join texture_map mat.diffuse_texname
        let normal ← resolve_texture join texture_map mat.normal_texname
        let specular ← resolve_texture join texture_map mat.specular_texname
        pure { diffuse := diffuse, normal := normal, specular := specular }
    else .ok { diffuse := none, normal := none, specular := none }

/-- The `Mesh` that `gen_mesh` returns: the constructor applied to the vertex
and index lists of the loop and to the texture group, with `vao` the name the
constructor obtains. -/
def gen_mesh_result {F P : Type} [LinearOrderedField F] [DecidableEq P] (join : String → P)
    (s : mesh_t) (attrib : attrib_t F) (materials : List material_t)
    (texture_map : TextureMap P) (vao : Nat) : Except Fault Mesh :=
  match gen_mesh s attrib with
  | .error e => .error e
  | .ok (vertices, indices) =>
    match gen_mesh_textures join s materials texture_map with
    | .error e => .error e
    | .ok group => .ok (Mesh.new vertices indices group vao)

/-! ## Vocabulary for statements about `load_textures` -/

/-- The texture paths a material refers to, in the order `load_textures`
visits them: the non-empty names among diffuse, normal, specular, normalised
and joined to the directory. -/
def material_paths {P : Type} (join : String → P) (material : material_t) : List P :=
  ([material.diffuse_texname, material.normal_texname, material.specular_texname].filter
    (fun name => name ≠ "")).map (fun name => join (fix_path name))

/-- The texture paths a list of materials refers to, in order of reference. -/
def referenced_paths {P : Type} (join : String → P) : List material_t → List P
  | [] => []
  | material :: rest => material_paths join material ++ referenced_paths join rest

/-- The non-empty texture names of a material, in the order `load_textures`
visits them: diffuse, normal, specular. -/
def material_names (material : material_t) : List String :=
  [material.diffuse_texname, material.normal_texname, material.specular_texname].filter
    (fun name => name ≠ "")

/-- The non-empty texture names of a list of materials, in order of reference,
as they are written in the material file. -/
def texture_names : List material_t → List String
  | [] => []
  | material :: rest => material_names material ++ texture_names rest

/-- Backslash-to-slash normalisation of one character: the backslash
(character 92) becomes a slash, every other character is kept. -/
def slash_of_backslash (c : Char) : Char :=
  if c = Char.ofNat 92 then '/' else c

/-- The loop invariant of `load_textures` after the paths `done` have been
passed to `load_texture`: the map sends its `j`-th key to `j`, its keys are the
distinct paths among `done` in order of first reference, and texture `j` is the
one read from key `j`. -/
structure LoadInv {P : Type} [DecidableEq P] (read_texture : P → Except Fault Texture)
    (done : List P) (data : TextureMap P) : Prop where
  snd : data.map.map Prod.snd = List.range data.map.length
  nodup : (data.map.map Prod.fst).Nodup
  mem : ∀ k, k ∈ data.map.map Prod.fst ↔ k ∈ done
  read : data.textures.map (fun t => (Except.ok t : Except Fault Texture)) =
    data.map.map (fun e => read_texture e.1)
  order : (data.map.map Prod.fst).Pairwise (fun p q => done.indexOf p < done.indexOf q)

/-! ## Vocabulary for statements about the camera basis -/

/-- The view, right and up vectors of a camera form an orthonormal basis: each
has length 1 and they are pairwise orthogonal. -/
def Camera.orthonormal {F : Type} [LinearOrderedField F] (m : Libm F) (c : Camera F) : Prop :=
  Vec3.length m c._view_dir = 1 ∧ Vec3.length m c._right_dir = 1 ∧
  Vec3.length m c._up_dir = 1 ∧ c._view_dir.dot c._right_dir = 0 ∧
  c._view_dir.dot c._up_dir = 0 ∧ c._right_dir.dot c._up_dir = 0

/-! ## Vocabulary for statements about the tangents of a mesh -/

/-- Every vertex of `V` carries the tangent of the last face of `I` that refers
to it: there is a face among `I` with the vertex as a corner, no later face has
it as a corner, and the stored tangent is `face_tangent` of that face's three
vertices (the value of the embedding; it is the source's value when the UV
determinant of that face is not zero). -/
def last_face_tangent {F : Type} [LinearOrderedField F] (V : List (Vertex F))
    (I : List UVec3) : Prop :=
  ∀ (j : Nat) (vert : Vertex F), V[j]? = some vert →
    ∃ (k : Nat) (face : UVec3) (v0 v1 v2 : Vertex F),
      I[k]? = some face ∧ (face.x = j ∨ face.y = j ∨ face.z = j) ∧
      (∀ (k1 : Nat) (face1 : UVec3), k < k1 → I[k1]? = some face1 →
        ¬ (face1.x = j ∨ face1.y = j ∨ face1.z = j)) ∧
      V[face.x]? = some v0 ∧ V[face.y]? = some v1 ∧ V[face.z]? = some v2 ∧
      vert.tex_tangent = face_tangent v0 v1 v2

/-! ## manager.cpp: construction and the calls on a manager -/

/-- The members of a `Manager` when its constructor returns, with the shader
programs and the names `glCreate*` returns as parameters: no scene, no active
index, `_enable_ssao` at its default `true`, the polygon mode at `GL_FILL`, the
framebuffers set up by `construct_gbuffer` and `construct_ssao_buffers`. -/
def Manager.new (geometry ssao blur lighting : Shader)
    (framebuffer position normal diffuse render_buffer ssao_framebuffer ssao_texture
      blur_framebuffer blur_texture quad noise : Nat) : Manager :=
  let m0 : Manager :=
    { _scenes := [], _scene_idx := none, _quad := 0, _noise_tex := 0,
      _geometry_shader := geometry, _gbuffer := 0, _gposition := 0, _gnormal := 0,
      _gdiffuse := 0, _ssao_shader := ssao, _ssao_buffer := 0, _ssao_color_tex := 0,
      _ssao_blur_shader := blur, _ssao_blur_buffer := 0, _ssao_color_blur_tex := 0,
      _lighting_shader := lighting, _enable_ssao := true, mode := PolygonMode.GL_FILL }
  let m1 := (m0.construct_gbuffer framebuffer position normal diffuse render_buffer).1
  let m2 := (m1.construct_ssao_buffers ssao_framebuffer ssao_texture blur_framebuffer
    blur_texture).1
  { m2 with _quad := quad, _noise_tex := noise }

/-- The calls that change the scene list or the active index of a manager. -/
inductive ManagerCall where
  | add_scene (s : Scene)
  | handle_event (event : SDL_Event)
  deriving DecidableEq, Repr

/-- One call on a manager: the manager afterwards. -/
def Manager.call (m : Manager) : ManagerCall → Manager
  | .add_scene s => m.add_scene s
  | .handle_event event => (m.handle_event event).2

/-- A sequence of calls on a manager, first call first. -/
def Manager.calls (m : Manager) (cs : List ManagerCall) : Manager :=
  cs.foldl Manager.call m

/-- The scenes passed to `add_scene` in a sequence of calls, in order. -/
def added_scenes : List ManagerCall → List Scene
  | [] => []
  | .add_scene s :: rest => s :: added_scenes rest
  | .handle_event _ :: rest => added_scenes rest

/-! ## manager.cpp: the noise texture -/

/-- The pixel formats of `glTextureSubImage2D` that the program names. -/
inductive PixelFormat where
  | GL_RED
  | GL_RG
  | GL_RGB
  | GL_RGBA
  deriving DecidableEq, Repr

/-- The number of components per pixel that OpenGL reads for a pixel format. -/
def PixelFormat.components : PixelFormat → Nat
  | .GL_RED => 1
  | .GL_RG => 2
  | .GL_RGB => 3
  | .GL_RGBA => 4

/-- The arguments of a `glTextureSubImage2D` call with type `GL_FLOAT`: the
region, the pixel format and the floats that the data pointer refers to. -/
structure FloatUpload (F : Type) where
  width : Nat
  height : Nat
  format : PixelFormat
  data : List F

/-- The number of floats OpenGL reads from the data pointer of an upload: one
per component of each pixel of the region (rows of floats need no padding). -/
def FloatUpload.floats_read {F : Type} (u : FloatUpload F) : Nat :=
  u.width * u.height * u.format.components

/-- The floats of a `std::vector<glm::vec3>` as `data()` exposes them. -/
def vec3_floats {F : Type} : List (Vec3 F) → List F
  | [] => []
  | v :: rest => v.x :: v.y :: v.z :: vec3_floats rest

/-- The sample that iteration `i` of the loop of `generate_noise` appends, with
`draw (2 * i)` and `draw (2 * i + 1)` the two values of
`random_float(generator)`. -/
def noise_sample {F : Type} [LinearOrderedField F] (draw : Nat → F) (i : Nat) : Vec3 F :=
  ⟨draw (2 * i) * 2 - 1, draw (2 * i + 1) * 2 - 1, 0⟩

/-- The function `generate_noise` of `manager.cpp`, up to the upload it issues:
16 samples, handed to `glTextureSubImage2D(tex, 0, 0, 0, 4, 4, GL_RGBA,
GL_FLOAT, noise.data())`. -/
def generate_noise {F : Type} [LinearOrderedField F] (draw : Nat → F) : FloatUpload F :=
  let noise := (List.range 16).map (noise_sample draw)
  { width := 4, height := 4, format := PixelFormat.GL_RGBA, data := vec3_floats noise }

/-! ## binary32 arithmetic: the sample kernel as the program computes it

The values of a binary floating-point format are rationals; an operation is the
exact operation followed by rounding to the nearest value of the format, ties
to even (IEEE 754, the default rounding mode).  A result that is not finite (an
overflow, a division by zero, the square root of a negative number) is `none`.
-/

/-- The power `2 ^ e` for an integer exponent. -/
def pow2 (e : Int) : ℚ :=
  if 0 ≤ e then 2 ^ e.toNat else 1 / 2 ^ (-e).toNat

/-- The loop of `log2_floor`: halve `n` until it is below 2, at most `fuel`
times. -/
def log2_loop : Nat → Nat → Nat
  | 0, _ => 0
  | fuel + 1, n => if n < 2 then 0 else log2_loop fuel (n / 2) + 1

/-- The number of times `n` can be halved before it is below 2: the floor of
the binary logarithm of `n ≥ 1`. -/
def log2_floor (n : Nat) : Nat := log2_loop n n

/-- The binary exponent of a positive rational `q`: the `e` with
`2 ^ e ≤ q < 2 ^ (e + 1)`. -/
def exponent_of (q : ℚ) : Int :=
  let e : Int := (log2_floor q.num.natAbs : Int) - (log2_floor q.den : Int)
  if pow2 e ≤ q then e else e - 1

/-- The integer nearest to a non-negative rational, a tie going to the even
one. -/
def round_half_even (q : ℚ) : Nat :=
  let n := q.num.natAbs
  let d := q.den
  let f := n / d
  let r := n % d
  if 2 * r < d then f else if d < 2 * r then f + 1 else if f % 2 = 0 then f else f + 1

/-- A binary floating-point format: the number of significand bits and the
least and greatest exponent of a normal number. -/
structure FloatFormat where
  precision : Nat
  emin : Int
  emax : Int

/-- The format of `float` and `GLfloat`. -/
def binary32 : FloatFormat := ⟨24, -126, 127⟩

/-- The format of `double`. -/
def binary64 : FloatFormat := ⟨53, -1022, 1023⟩

/-- Rounding of an exact result to the format: the nearest multiple of the unit
in the last place of its binade (of the least binade for a subnormal result),
ties to even; `none` when the rounded magnitude is beyond the largest finite
value. -/
def FloatFormat.round (fmt : FloatFormat) (q : ℚ) : Option ℚ :=
  if q = 0 then some 0
  else
    let a := |q|
    let e := max (exponent_of a) fmt.emin
    let ulp := pow2 (e - ((fmt.precision : Int) - 1))
    let r := (round_half_even (a / ulp) : ℚ) * ulp
    if pow2 (fmt.emax + 1) ≤ r then none
    else if q < 0 then some (-r) else some r

/-- The loop of `isqrt`: the bits of the root from bit `b - 1` down. -/
def isqrt_loop : Nat → Nat → Nat → Nat
  | 0, _, r => r
  | b + 1, n, r =>
    if (r + 2 ^ b) * (r + 2 ^ b) ≤ n then isqrt_loop b n (r + 2 ^ b) else isqrt_loop b n r

/-- The floor of the square root of a natural number. -/
def isqrt (n : Nat) : Nat := isqrt_loop (log2_floor n / 2 + 1) n 0

/-- The correctly rounded square root of the format (`std::sqrt`): the value
of the format nearest to the exact root. -/
def FloatFormat.sqrt (fmt : FloatFormat) (q : ℚ) : Option ℚ :=
  if q < 0 then none
  else if q = 0 then some 0
  else
    let e := max (Int.fdiv (exponent_of q) 2) fmt.emin
    let ulp := pow2 (e - ((fmt.precision : Int) - 1))
    let x := q / (ulp * ulp)
    let f := isqrt (x.num.natAbs / x.den)
    let k :=
      if 4 * x < ((2 * f + 1 : Nat) : ℚ) ^ 2 then f
      else if ((2 * f + 1 : Nat) : ℚ) ^ 2 < 4 * x then f + 1
      else if f % 2 = 0 then f else f + 1
    some ((k : ℚ) * ulp)

/-- The sum of two `float` values. -/
def f32_add (a b : ℚ) : Option ℚ := binary32.round (a + b)

/-- The difference of two `float` values. -/
def f32_sub (a b : ℚ) : Option ℚ := binary32.round (a - b)

/-- The product of two `float` values. -/
def f32_mul (a b : ℚ) : Option ℚ := binary32.round (a * b)

/-- The quotient of two `float` values; a zero divisor gives an infinity or a
NaN. -/
def f32_div (a b : ℚ) : Option ℚ := if b = 0 then none else binary32.round (a / b)

/-- The literal `0.1F`: the `float` nearest to one tenth. -/
def f32_tenth : ℚ := 13421773 / 134217728

/-- The function `glm::dot` on `vec3` of `float`: the three products, then
`tmp.x + tmp.y + tmp.z`. -/
def f32_dot (a b : Vec3 ℚ) : Option ℚ := do
  let x ← f32_mul a.x b.x
  let y ← f32_mul a.y b.y
  let z ← f32_mul a.z b.z
  let s ← f32_add x y
  f32_add s z

/-- The product of a `vec3` of `float` and a `float`, one component at a
time. -/
def f32_scale (v : Vec3 ℚ) (s : ℚ) : Option (Vec3 ℚ) := do
  let x ← f32_mul v.x s
  let y ← f32_mul v.y s
  let z ← f32_mul v.z s
  pure ⟨x, y, z⟩

/-- The function `glm::inversesqrt` on `float`: `1 / sqrt(x)`. -/
def f32_inversesqrt (x : ℚ) : Option ℚ := do
  let s ← binary32.sqrt x
  f32_div 1 s

/-- The function `glm::normalize` on `vec3` of `float`:
`v * inversesqrt(dot(v, v))`. -/
def f32_normalize (v : Vec3 ℚ) : Option (Vec3 ℚ) := do
  let d ← f32_dot v v
  let s ← f32_inversesqrt d
  f32_scale v s

/-- The function `glm::mix` on `float`: `x * (1 - a) + y * a`. -/
def f32_mix (x y a : ℚ) : Option ℚ := do
  let b ← f32_sub 1 a
  let p ← f32_mul x b
  let q ← f32_mul y a
  f32_add p q

/-- The expression `random_float(generator) * 2.0 - 1.0` as a constructor
argument of `glm::vec3`: the `float` draw `d` is promoted to `double`, the
product and the difference are `double` operations, and the constructor
converts the result to `float`. -/
def kernel_axis_binary32 (d : ℚ) : Option ℚ := do
  let a ← binary64.round (d * 2)
  let b ← binary64.round (a - 1)
  binary32.round b

/-- The scale of sample `i` as the program computes it:
`scale = i / 64.0F; scale = glm::mix(0.1F, 1.0F, scale * scale)`, with `i`
converted to `float`. -/
def kernel_scale_binary32 (i : Nat) : Option ℚ := do
  let n ← binary32.round (i : ℚ)
  let scale ← f32_div n 64
  let a ← f32_mul scale scale
  f32_mix f32_tenth 1 a

/-- The body of the loop of `generate_sample_kernel` at index `i` as the
program computes it, with the four `float` values `d0 .. d3` that
`random_float(generator)` yields in that iteration: `d0`, `d1` and `d2` are the
draws of the first, second and third argument of the `glm::vec3` constructor
(C++ leaves the order in which the three arguments are evaluated unspecified),
`d3` the draw that follows. -/
def kernel_sample_binary32 (i : Nat) (d0 d1 d2 d3 : ℚ) : Option (Vec3 ℚ) := do
  let x ← kernel_axis_binary32 d0
  let y ← kernel_axis_binary32 d1
  let sample ← f32_normalize ⟨x, y, d2⟩
  let sample ← f32_scale sample d3
  let scale ← kernel_scale_binary32 i
  f32_scale sample scale

/-- The function `generate_sample_kernel` of `manager.cpp` as the program
computes it, in binary32.  The random engine is the stream `draw` of its
successive outputs; iteration `i` consumes `draw (4 * i) .. draw (4 * i + 3)`.
An entry is `none` when its computation leaves the finite values. -/
def generate_sample_kernel_binary32 (draw : Nat → ℚ) : List (Option (Vec3 ℚ)) :=
  (List.range 64).map fun i =>
    kernel_sample_binary32 i (draw (4 * i)) (draw (4 * i + 1)) (draw (4 * i + 2))
      (draw (4 * i + 3))

/-! # Theorems -/

/-! ## Texture formats and mipmap levels -/

/-- C1: `num_components_to_format` returns Greyscale, GreyAlpha, Rgb, Rgba on the
channel counts 1, 2, 3, 4, and on every other integer (0, negatives, 5 and
above) it terminates the process instead of returning a format. -/
theorem num_components_to_format_spec :
    num_components_to_format 1 = .ok Format.Greyscale ∧
    num_components_to_format 2 = .ok Format.GreyAlpha ∧
    num_components_to_format 3 = .ok Format.Rgb ∧
    num_components_to_format 4 = .ok Format.Rgba ∧
    ∀ n : Int, (n < 1 ∨ 4 < n) → num_components_to_format n = .error .terminate := by
  refine ⟨rfl, rfl, rfl, rfl, ?_⟩
  intro n hn
  unfold num_components_to_format
  have h1 : n ≠ 1 := by omega
  have h2 : n ≠ 2 := by omega
  have h3 : n ≠ 3 := by omega
  have h4 : n ≠ 4 := by omega
  simp [h1, h2, h3, h4]

theorem num_components_to_format_spec_witness :
    num_components_to_format 0 = .error .terminate ∧
    num_components_to_format (-1) = .error .terminate ∧
    num_components_to_format 5 = .error .terminate :=
  ⟨num_components_to_format_spec.2.2.2.2 0 (by decide),
   num_components_to_format_spec.2.2.2.2 (-1) (by decide),
   num_components_to_format_spec.2.2.2.2 5 (by decide)⟩

theorem clog_two_of_pow (n : Nat) (h : ∃ k, n = 2 ^ k) :
    Nat.clog 2 n = Nat.log 2 n := by
  obtain ⟨k, rfl⟩ := h
  rw [Nat.clog_pow 2 k (by norm_num), Nat.log_pow (by norm_num)]

theorem clog_two_of_not_pow (n : Nat) (hn : 1 ≤ n) (h : ¬ ∃ k, n = 2 ^ k) :
    Nat.clog 2 n = Nat.log 2 n + 1 := by
  have hlo : 2 ^ Nat.log 2 n ≤ n := Nat.pow_log_le_self 2 (by omega)
  have hhi : n < 2 ^ (Nat.log 2 n + 1) := Nat.lt_pow_succ_log_self (by norm_num) n
  have hne : n ≠ 2 ^ Nat.log 2 n := fun e => h ⟨_, e⟩
  apply le_antisymm
  · exact (Nat.le_pow_iff_clog_le (by norm_num)).1 hhi.le
  · by_contra hc
    push_neg at hc
    have : Nat.clog 2 n ≤ Nat.log 2 n := by omega
    have := (Nat.le_pow_iff_clog_le (by norm_num : 1 < 2)).2 this
    omega

theorem levels_eq_clog (W H : Int) (hW : 1 ≤ W) :
    Texture.levels W H = .ok ((Nat.clog 2 (max W H).toNat : Int) + 1) := by
  have hm : 1 ≤ max W H := le_max_of_le_left hW
  unfold Texture.levels ceil_log2
  simp only [hm, if_true]

theorem ceil_logb_two (n : Nat) : ⌈Real.logb 2 (n : ℝ)⌉ = (Nat.clog 2 n : Int) := by
  have := @Real.ceil_logb_natCast 2 (n : ℝ) (by positivity)
  simp only [Nat.cast_ofNat] at this
  rw [this, Int.clog_natCast]

theorem floor_logb_two (n : Nat) : ⌊Real.logb 2 (n : ℝ)⌋ = (Nat.log 2 n : Int) := by
  have := @Real.floor_logb_natCast 2 (n : ℝ) (by positivity)
  simp only [Nat.cast_ofNat] at this
  rw [this, Int.log_natCast]

theorem int_cast_toNat (m : Int) (hm : 1 ≤ m) : ((m : Int) : ℝ) = ((m.toNat : Nat) : ℝ) := by
  obtain ⟨n, rfl⟩ : ∃ n : Nat, m = (n : Int) := ⟨m.toNat, by omega⟩
  simp

/-- C5: for every texture of width `W ≥ 1` and height `H ≥ 1` the level count
the `Texture` constructor allocates is `ceil(log2(max(W, H))) + 1`. -/
theorem levels_eq_ceil (W H : Int) (hW : 1 ≤ W) (_hH : 1 ≤ H) :
    Texture.levels W H = .ok (⌈Real.logb 2 ((max W H : Int) : ℝ)⌉ + 1) := by
  have hm : 1 ≤ max W H := le_max_of_le_left hW
  rw [levels_eq_clog W H hW, int_cast_toNat _ hm, ceil_logb_two]

theorem levels_eq_ceil_witness :
    Texture.levels 3 5 = .ok (⌈Real.logb 2 ((max 3 5 : Int) : ℝ)⌉ + 1) :=
  levels_eq_ceil 3 5 (by decide) (by decide)

/-- C4 at the failing input: for a 3 x 3 texture the `Texture` constructor
allocates 3 levels, while the claimed count `floor(log2(max(3, 3))) + 1`, which
is also the largest count `glTextureStorage2D` accepts for that size, is 2. -/
theorem levels_ne_floor :
    Texture.levels 3 3 = .ok 3 ∧
    Texture.levels 3 3 ≠ .ok (⌊Real.logb 2 ((max 3 3 : Int) : ℝ)⌋ + 1) := by
  have h3 : Texture.levels 3 3 = .ok 3 := by
    rw [levels_eq_clog 3 3 (by decide)]
    simp [Nat.clog]
  refine ⟨h3, ?_⟩
  rw [h3, int_cast_toNat _ (by decide), floor_logb_two]
  simp [Nat.log]

/-- The allocated level count against `floor(log2(max(W, H))) + 1`: for `W ≥ 1`
and `H ≥ 1` the two agree exactly when `max(W, H)` is a power of two, and the
allocated count is one more otherwise; a 512 x 512 texture gets 10 levels and a
1 x 1 texture 1. -/
theorem levels_against_floor (W H : Int) (hW : 1 ≤ W) (_hH : 1 ≤ H) :
    ((∃ k : Nat, max W H = 2 ^ k) →
      Texture.levels W H = .ok (⌊Real.logb 2 ((max W H : Int) : ℝ)⌋ + 1)) ∧
    ((¬ ∃ k : Nat, max W H = 2 ^ k) →
      Texture.levels W H = .ok (⌊Real.logb 2 ((max W H : Int) : ℝ)⌋ + 2)) ∧
    Texture.levels 512 512 = .ok 10 ∧ Texture.levels 1 1 = .ok 1 := by
  have hm : 1 ≤ max W H := le_max_of_le_left hW
  have hcast : max W H = ((max W H).toNat : Int) := by omega
  refine ⟨?_, ?_, ?_, ?_⟩
  · rintro ⟨k, hk⟩
    rw [levels_eq_clog W H hW, int_cast_toNat _ hm, floor_logb_two,
      clog_two_of_pow _ ⟨k, by zify; rw [← hcast]; exact_mod_cast hk⟩]
  · intro hk
    rw [levels_eq_clog W H hW, int_cast_toNat _ hm, floor_logb_two,
      clog_two_of_not_pow _ (by omega) ?_]
    · push_cast; ring_nf
    · rintro ⟨k, hk2⟩
      exact hk ⟨k, by rw [hcast, hk2]; simp⟩
  · rw [levels_eq_clog 512 512 (by decide)]
    simp [Nat.clog]
  · rw [levels_eq_clog 1 1 (by decide)]
    simp [Nat.clog]

theorem levels_against_floor_witness :
    Texture.levels 4 3 = .ok (⌊Real.logb 2 ((max 4 3 : Int) : ℝ)⌋ + 1) :=
  (levels_against_floor 4 3 (by decide) (by decide)).1 ⟨2, by decide⟩


/-! ## Camera: the pitch stays clamped -/

theorem clamp_mem {F : Type} [LinearOrderedField F] (v lo hi : F) (h : lo ≤ hi) :
    lo ≤ clamp v lo hi ∧ clamp v lo hi ≤ hi := by
  unfold clamp
  split_ifs with h1 h2
  · exact ⟨le_refl _, h⟩
  · exact ⟨h, le_refl _⟩
  · exact ⟨not_lt.1 h1, not_lt.1 h2⟩

theorem Camera.call_pitch {F : Type} [LinearOrderedField F] (m : Libm F) (c : Camera F)
    (op : CameraCall F) (h : -89 ≤ c._pitch ∧ c._pitch ≤ 89) :
    -89 ≤ (c.call m op)._pitch ∧ (c.call m op)._pitch ≤ 89 := by
  cases op with
  | rotate pitch yaw => exact clamp_mem _ _ _ (by norm_num)
  | move_forward delta => exact h
  | move_backward delta => exact h
  | move_up delta => exact h
  | move_down delta => exact h
  | move_right delta => exact h
  | move_left delta => exact h

theorem Camera.calls_pitch {F : Type} [LinearOrderedField F] (m : Libm F)
    (cs : List (CameraCall F)) (c : Camera F) (h : -89 ≤ c._pitch ∧ c._pitch ≤ 89) :
    -89 ≤ (c.calls m cs)._pitch ∧ (c.calls m cs)._pitch ≤ 89 := by
  induction cs generalizing c with
  | nil => exact h
  | cons op rest ih => exact ih (c.call m op) (Camera.call_pitch m c op h)

/-- C6: starting from a freshly constructed camera, after any finite sequence of
`rotate` and `move_*` calls, with any arguments, the stored pitch lies in
`[-89, 89]`. -/
theorem camera_pitch_clamped {F : Type} [LinearOrderedField F] (m : Libm F)
    (cs : List (CameraCall F)) :
    -89 ≤ (Camera.calls m Camera.new cs)._pitch ∧
      (Camera.calls m Camera.new cs)._pitch ≤ 89 :=
  Camera.calls_pitch m cs Camera.new ⟨by simp [Camera.new], by simp [Camera.new]⟩

/-! ## Manager: numeric keys -/

theorem numeric_key_branch (m : Manager) (k : Nat) (hk1 : 1 ≤ k) (hk9 : k ≤ 9) :
    m.handle_event (numeric_key k) =
      if k - 1 < m._scenes.length then (false, { m with _scene_idx := some (k - 1) })
      else (false, m) := by
  have hidx : ((49 : Int) + ((k : Int) - 1) - 48 - 1).toNat = k - 1 := by omega
  have h1 : ¬ ((49 : Int) + ((k : Int) - 1) = 113) := by omega
  have h2 : ¬ ((49 : Int) + ((k : Int) - 1) = 102) := by omega
  have h3 : ¬ ((49 : Int) + ((k : Int) - 1) = 101) := by omega
  have h4 : (49 : Int) ≤ 49 + ((k : Int) - 1) ∧ (49 : Int) + ((k : Int) - 1) ≤ 57 := by omega
  simp only [Manager.handle_event, numeric_key, SDL_KEYDOWN, SDL_QUIT, SDLK_q, SDLK_f,
    SDLK_e, SDLK_1, SDLK_9, stoi_key_name]
  rw [if_pos True.intro, if_neg h1, if_neg h2, if_neg h3, if_pos h4, hidx]
  rw [if_neg (by decide)]

theorem add_scenes_scenes (ss : List Scene) (m0 : Manager) :
    (ss.foldl Manager.add_scene m0)._scenes = m0._scenes ++ ss := by
  induction ss generalizing m0 with
  | nil => simp
  | cons s rest ih =>
    rw [List.foldl_cons, ih]
    have : (m0.add_scene s)._scenes = m0._scenes ++ [s] := by
      unfold Manager.add_scene
      simp only
      split_ifs <;> rfl
    rw [this, List.append_assoc]
    rfl

/-- C7: a numeric key `k` in `1 .. 9` whose index `k - 1` is at least the number
of loaded scenes leaves the active scene index and the scene list (indeed the
whole manager) unchanged, and `handle_event` returns false. -/
theorem handle_event_out_of_range (m : Manager) (k : Nat) (hk1 : 1 ≤ k) (hk9 : k ≤ 9)
    (hk : m._scenes.length ≤ k - 1) :
    (m.handle_event (numeric_key k)).1 = false ∧
    (m.handle_event (numeric_key k)).2._scene_idx = m._scene_idx ∧
    (m.handle_event (numeric_key k)).2._scenes = m._scenes ∧
    (m.handle_event (numeric_key k)).2 = m := by
  rw [numeric_key_branch m k hk1 hk9, if_neg (by omega)]
  exact ⟨rfl, rfl, rfl, rfl⟩

theorem handle_event_out_of_range_witness :
    (({ _scenes := [⟨[], []⟩], _scene_idx := some 0, _quad := 1, _noise_tex := 1,
        _geometry_shader := ⟨1⟩, _gbuffer := 1, _gposition := 2, _gnormal := 3,
        _gdiffuse := 4, _ssao_shader := ⟨2⟩, _ssao_buffer := 2, _ssao_color_tex := 5,
        _ssao_blur_shader := ⟨3⟩, _ssao_blur_buffer := 3, _ssao_color_blur_tex := 6,
        _lighting_shader := ⟨4⟩, _enable_ssao := true,
        mode := PolygonMode.GL_FILL } : Manager).handle_event (numeric_key 2)).2._scene_idx
      = some 0 :=
  (handle_event_out_of_range _ 2 (by decide) (by decide) (by decide)).2.1

/-- C8: a numeric key `k` in `1 .. 9` with `k` at most the number of loaded
scenes makes `k - 1` the active scene index and changes nothing else about the
scenes; when the scenes were added by `add_scene` to a manager without scenes,
the scene at that index is the `k`-th one added. -/
theorem handle_event_selects_scene (m : Manager) (k : Nat) (hk1 : 1 ≤ k) (hk9 : k ≤ 9)
    (hk : k ≤ m._scenes.length) :
    (m.handle_event (numeric_key k)).1 = false ∧
    (m.handle_event (numeric_key k)).2._scene_idx = some (k - 1) ∧
    (m.handle_event (numeric_key k)).2._scenes = m._scenes ∧
    ∀ (m0 : Manager) (ss : List Scene), m0._scenes = [] →
      m = ss.foldl Manager.add_scene m0 →
      (m.handle_event (numeric_key k)).2._scenes[k - 1]? = ss[k - 1]? ∧
      k - 1 < ss.length := by
  rw [numeric_key_branch m k hk1 hk9, if_pos (by omega)]
  refine ⟨rfl, rfl, rfl, ?_⟩
  intro m0 ss h0 hm
  have hs : m._scenes = ss := by rw [hm, add_scenes_scenes, h0, List.nil_append]
  constructor
  · show m._scenes[k - 1]? = ss[k - 1]?
    rw [hs]
  · rw [← hs]; omega

theorem handle_event_selects_scene_witness :
    (({ _scenes := [⟨[], []⟩, ⟨[⟨7⟩], []⟩], _scene_idx := some 0, _quad := 1,
        _noise_tex := 1, _geometry_shader := ⟨1⟩, _gbuffer := 1, _gposition := 2,
        _gnormal := 3, _gdiffuse := 4, _ssao_shader := ⟨2⟩, _ssao_buffer := 2,
        _ssao_color_tex := 5, _ssao_blur_shader := ⟨3⟩, _ssao_blur_buffer := 3,
        _ssao_color_blur_tex := 6, _lighting_shader := ⟨4⟩, _enable_ssao := true,
        mode := PolygonMode.GL_FILL } : Manager).handle_event (numeric_key 2)).2._scene_idx
      = some 1 :=
  (handle_event_selects_scene _ 2 (by decide) (by decide) (by decide)).2.1

/-! ## GPU handle wrappers: what a move leaves in its source -/

/-- C10, as stated, fails for move assignment: assigning a wrapper that holds id
7 to one that holds id 5 leaves id 5, not 0, in the moved-from wrapper, and
destroying that wrapper releases the live object 5.  The same holds for
`Shader` and `Mesh`. -/
theorem move_assign_source_not_null :
    (Texture.move_assign ⟨5⟩ ⟨7⟩).2._tex_id = 5 ∧
    (Texture.move_assign ⟨5⟩ ⟨7⟩).2._tex_id ≠ 0 ∧
    (Texture.move_assign ⟨5⟩ ⟨7⟩).2.destroy [5, 7] = [7] ∧
    (Shader.move_assign ⟨5⟩ ⟨7⟩).2._id ≠ 0 ∧
    (Mesh.move_assign ⟨⟨none, none, none⟩, 5, 3⟩ ⟨⟨none, none, none⟩, 7, 6⟩).2._vao ≠ 0 := by
  decide

/-- C10, amended: for `Texture`, `Shader` and `Mesh`, after move construction
the moved-from wrapper holds the null id 0 and its destructor releases no live
object; after move assignment the moved-from wrapper holds the id the
destination held before, so it is null exactly when the destination was. -/
theorem move_source_id (t t0 : Texture) (s s0 : Shader) (m m0 : Mesh) (live : List Nat) :
    ((Texture.move_construct t).2._tex_id = 0 ∧
      (Texture.move_construct t).2.destroy live = live ∧
      (Texture.move_assign t0 t).2._tex_id = t0._tex_id) ∧
    ((Shader.move_construct s).2._id = 0 ∧
      (Shader.move_construct s).2.destroy live = live ∧
      (Shader.move_assign s0 s).2._id = s0._id) ∧
    ((Mesh.move_construct m).2._vao = 0 ∧
      (Mesh.move_construct m).2.destroy live = live ∧
      (Mesh.move_assign m0 m).2._vao = m0._vao) := by
  refine ⟨⟨rfl, ?_, rfl⟩, ⟨rfl, ?_, rfl⟩, ⟨rfl, ?_, rfl⟩⟩
  · simp [Texture.move_construct, Texture._swap, Texture.destroy, gl_delete]
  · simp [Shader.move_construct, Shader._swap, Shader.destroy, gl_delete]
  · simp [Mesh.move_construct, Mesh._swap, Mesh.destroy, gl_delete]

/-! ## The P3 reader -/

/-- C3 fails on the code: on the 2 x 2 image with samples `1 .. 12` the reader
stores sample `i` at the subscripts `12, 13, 14, 9, ...` where a row flip stores
at `6, 7, 8, 9, ...`; the first store is one past the 12-byte buffer, which is
undefined behaviour, and so is the first store for the 1 x 1 image. -/
theorem read_ppm_stores_out_of_range :
    (List.range 12).map (fun i => ppm_store_index 2 2 i)
      = [12, 13, 14, 9, 10, 11, 6, 7, 8, 3, 4, 5] ∧
    (List.range 12).map (fun i => ppm_flip_index 2 2 i)
      = [6, 7, 8, 9, 10, 11, 0, 1, 2, 3, 4, 5] ∧
    read_ppm (ppm_tokens 2 2 255 [1, 2, 3, 4, 5, 6, 7, 8, 9, 10, 11, 12])
      = .error .undefined ∧
    ppm_store_index 1 1 0 = 3 ∧
    read_ppm (ppm_tokens 1 1 255 [10, 20, 30]) = .error .undefined := by
  exact ⟨by decide, by decide, rfl, by decide, rfl⟩

/-! ## The sample kernel -/

theorem kernel_scale_eq {F : Type} [LinearOrderedField F] (i : Nat) :
    (kernel_scale i : F) = 1 / 10 + 9 / 10 * ((i : F) / 64) ^ 2 := by
  unfold kernel_scale mix
  ring

theorem kernel_scale_lt {F : Type} [LinearOrderedField F] (i j : Nat) (h : i < j) :
    (kernel_scale i : F) < kernel_scale j := by
  rw [kernel_scale_eq, kernel_scale_eq]
  have hi : (0 : F) ≤ (i : F) := Nat.cast_nonneg i
  have hij : (i : F) < (j : F) := Nat.cast_lt.2 h
  have h1 : (i : F) / 64 < (j : F) / 64 := by
    apply div_lt_div_of_pos_right hij
    norm_num
  have h0 : (0 : F) ≤ (i : F) / 64 := by positivity
  have h2 : ((i : F) / 64) ^ 2 < ((j : F) / 64) ^ 2 := pow_lt_pow_left₀ h1 h0 (by norm_num)
  linarith

theorem kernel_scale_pos {F : Type} [LinearOrderedField F] (i : Nat) :
    (0 : F) < kernel_scale i := by
  rw [kernel_scale_eq]
  positivity

theorem kernel_scale_lt_one {F : Type} [LinearOrderedField F] (i : Nat) (h : i < 64) :
    (kernel_scale i : F) < 1 := by
  rw [kernel_scale_eq]
  have hi : (0 : F) ≤ (i : F) := Nat.cast_nonneg i
  have h63 : (i : F) ≤ 63 := by
    have : i ≤ 63 := by omega
    exact_mod_cast this
  have h0 : (0 : F) ≤ (i : F) / 64 := by positivity
  have h1 : (i : F) / 64 ≤ 63 / 64 := by
    apply div_le_div_of_nonneg_right h63
    norm_num
  have h2 : ((i : F) / 64) ^ 2 ≤ (63 / 64 : F) ^ 2 := pow_le_pow_left₀ h0 h1 2
  have h3 : (63 / 64 : F) ^ 2 < 1 := by norm_num
  linarith

theorem sqrt_mul_self {F : Type} [LinearOrderedField F] (m : Libm F)
    (hsqrt : ∀ x : F, 0 ≤ x → 0 ≤ m.sqrt x ∧ m.sqrt x * m.sqrt x = x)
    (a : F) (ha : 0 ≤ a) : m.sqrt (a * a) = a := by
  obtain ⟨h0, h1⟩ := hsqrt (a * a) (mul_self_nonneg a)
  exact (mul_self_inj h0 ha).1 h1

theorem kernel_sample_length {F : Type} [LinearOrderedField F] (m : Libm F)
    (hsqrt : ∀ x : F, 0 ≤ x → 0 ≤ m.sqrt x ∧ m.sqrt x * m.sqrt x = x)
    (i : Nat) (d0 d1 d2 d3 : F) (hd3 : 0 ≤ d3)
    (hdir : ¬ (d0 * 2 - 1 = 0 ∧ d1 * 2 - 1 = 0 ∧ d2 = 0)) :
    Vec3.length m (kernel_sample m i d0 d1 d2 d3) = d3 * kernel_scale i := by
  set q : F := (d0 * 2 - 1) * (d0 * 2 - 1) + (d1 * 2 - 1) * (d1 * 2 - 1) + d2 * d2 with hq
  have hq0 : 0 ≤ q :=
    add_nonneg (add_nonneg (mul_self_nonneg _) (mul_self_nonneg _)) (mul_self_nonneg _)
  have hqne : q ≠ 0 := by
    intro h
    apply hdir
    have ha := mul_self_nonneg (d0 * 2 - 1)
    have hb := mul_self_nonneg (d1 * 2 - 1)
    have hc := mul_self_nonneg d2
    refine ⟨?_, ?_, ?_⟩
    · exact mul_self_eq_zero.1 (by linarith)
    · exact mul_self_eq_zero.1 (by linarith)
    · exact mul_self_eq_zero.1 (by linarith)
  obtain ⟨hs0, hs1⟩ := hsqrt q hq0
  have hsne : m.sqrt q ≠ 0 := by
    intro h
    rw [h, mul_zero] at hs1
    exact hqne hs1.symm
  have hc : (0 : F) ≤ d3 * kernel_scale i := mul_nonneg hd3 (kernel_scale_pos i).le
  have hdot : (kernel_sample m i d0 d1 d2 d3).dot (kernel_sample m i d0 d1 d2 d3)
      = (d3 * kernel_scale i) * (d3 * kernel_scale i) := by
    simp only [kernel_sample, Vec3.normalize, Vec3.scale, Vec3.dot]
    rw [← hq]
    have : q = m.sqrt q * m.sqrt q := hs1.symm
    field_simp
    rw [hq] at this ⊢
    nlinarith [this]
  unfold Vec3.length
  rw [hdot]
  exact sqrt_mul_self m hsqrt _ hc

/-- C9, amended: over exact arithmetic (no operation rounded, `sqrt` the exact
square root, the literal `0.1F` read as one tenth), for every outcome of the
random draws, each in `[0, 1]` and with a non-zero direction vector in every
iteration, `generate_sample_kernel` returns exactly 64 vectors; the `i`-th has
length at most `scale_i = mix(0.1, 1.0, t²) = 0.1 + 0.9 t²` with `t = i / 64`;
`scale_i` is strictly increasing in `i` and below 1, so every vector has length
at most 1.  The count of 64 vectors also holds for the array as the program
computes it in binary32. -/
theorem generate_sample_kernel_bounds {F : Type} [LinearOrderedField F] (m : Libm F)
    (draw : Nat → F)
    (hsqrt : ∀ x : F, 0 ≤ x → 0 ≤ m.sqrt x ∧ m.sqrt x * m.sqrt x = x)
    (hdraw : ∀ n, 0 ≤ draw n ∧ draw n ≤ 1)
    (hdir : ∀ i, i < 64 →
      ¬ (draw (4 * i) * 2 - 1 = 0 ∧ draw (4 * i + 1) * 2 - 1 = 0 ∧ draw (4 * i + 2) = 0)) :
    (generate_sample_kernel m draw).length = 64 ∧
    (∀ i (h : i < (generate_sample_kernel m draw).length),
      Vec3.length m ((generate_sample_kernel m draw)[i]) ≤ kernel_scale i ∧
      Vec3.length m ((generate_sample_kernel m draw)[i]) ≤ 1) ∧
    (∀ i : Nat, (kernel_scale i : F) = 1 / 10 + 9 / 10 * ((i : F) / 64) ^ 2) ∧
    (∀ i j : Nat, i < j → (kernel_scale i : F) < kernel_scale j) ∧
    (∀ i : Nat, i < 64 → (kernel_scale i : F) ≤ 1) ∧
    (∀ d : Nat → ℚ, (generate_sample_kernel_binary32 d).length = 64) := by
  have hlen : (generate_sample_kernel m draw).length = 64 := by
    simp [generate_sample_kernel]
  refine ⟨hlen, ?_, kernel_scale_eq, kernel_scale_lt,
    fun i hi => (kernel_scale_lt_one i hi).le,
    fun d => by simp [generate_sample_kernel_binary32]⟩
  intro i h
  have hi : i < 64 := by rw [hlen] at h; exact h
  have hget : (generate_sample_kernel m draw)[i] =
      kernel_sample m i (draw (4 * i)) (draw (4 * i + 1)) (draw (4 * i + 2))
        (draw (4 * i + 3)) := by
    simp [generate_sample_kernel]
  rw [hget, kernel_sample_length m hsqrt i _ _ _ _ (hdraw _).1 (hdir i hi)]
  have h3 := hdraw (4 * i + 3)
  have hs : (0 : F) < kernel_scale i := kernel_scale_pos i
  have hle : draw (4 * i + 3) * kernel_scale i ≤ kernel_scale i := by
    have := mul_le_mul_of_nonneg_right h3.2 hs.le
    rwa [one_mul] at this
  exact ⟨hle, hle.trans (kernel_scale_lt_one i hi).le⟩

theorem generate_sample_kernel_bounds_witness :
    (generate_sample_kernel (⟨Real.sqrt, Real.cos, Real.sin⟩ : Libm ℝ) (fun _ => 1)).length
      = 64 :=
  (generate_sample_kernel_bounds (⟨Real.sqrt, Real.cos, Real.sin⟩ : Libm ℝ) (fun _ => 1)
    (fun x hx => ⟨Real.sqrt_nonneg x, Real.mul_self_sqrt hx⟩)
    (fun _ => ⟨zero_le_one, le_refl _⟩)
    (fun _ _ h => by norm_num at h)).1

/-- C9 fails in binary32, as the program computes: with the draws `3/16`,
`3/16`, `3/16` and `1 - 2⁻²⁴` in every iteration (values of `float` in
`[0, 1)`; the three direction draws are equal, so the order in which the
constructor arguments are evaluated does not matter), `generate_sample_kernel`
returns 64 vectors and the length of the one at index 39 is greater than
`scale_39`.  The steps of that iteration: the direction is
`(-5/8, -5/8, 3/16)`, not zero; its `dot` is `209/256`; `sqrt` gives
`15159087 / 2²⁴` and `1 / sqrt` gives `9284035 / 2²³`; the normalised vector
`(-2901261 / 2²², -2901261 / 2²², 3481513 / 2²⁴)` is longer than 1; the product
with the draw gives `(-11605043 / 2²⁴, -11605043 / 2²⁴, 13926051 / 2²⁶)`; the
scale the program computes is `3557 / 8192`, which is `0.1 + 0.9 t²` for
`t = 39 / 64`; the stored vector is
`(-10077915 / 2²⁵, -10077915 / 2²⁵, 12093497 / 2²⁷)`, and its length is greater
than `3557 / 8192`. -/
theorem generate_sample_kernel_binary32_exceeds_scale :
    (∀ n : Nat,
      0 ≤ (if n % 4 = 3 then (16777215 / 16777216 : ℚ) else 3 / 16) ∧
      (if n % 4 = 3 then (16777215 / 16777216 : ℚ) else 3 / 16) < 1 ∧
      binary32.round (if n % 4 = 3 then (16777215 / 16777216 : ℚ) else 3 / 16)
        = some (if n % 4 = 3 then (16777215 / 16777216 : ℚ) else 3 / 16)) ∧
    (generate_sample_kernel_binary32
      (fun n => if n % 4 = 3 then 16777215 / 16777216 else 3 / 16)).length = 64 ∧
    (generate_sample_kernel_binary32
      (fun n => if n % 4 = 3 then 16777215 / 16777216 else 3 / 16))[39]?
      = some (some ⟨-10077915 / 33554432, -10077915 / 33554432, 12093497 / 134217728⟩) ∧
    kernel_scale_binary32 39 = some (3557 / 8192) ∧
    (3557 / 8192 : ℝ) = 1 / 10 + 9 / 10 * (39 / 64) ^ 2 ∧
    (3557 / 8192 : ℝ) <
      Vec3.length (⟨Real.sqrt, Real.cos, Real.sin⟩ : Libm ℝ)
        ⟨-10077915 / 33554432, -10077915 / 33554432, 12093497 / 134217728⟩ ∧
    kernel_axis_binary32 (3 / 16) = some (-5 / 8) ∧
    f32_dot ⟨-5 / 8, -5 / 8, 3 / 16⟩ ⟨-5 / 8, -5 / 8, 3 / 16⟩ = some (209 / 256) ∧
    binary32.sqrt (209 / 256) = some (15159087 / 16777216) ∧
    f32_inversesqrt (209 / 256) = some (9284035 / 8388608) ∧
    f32_normalize ⟨-5 / 8, -5 / 8, 3 / 16⟩
      = some ⟨-2901261 / 4194304, -2901261 / 4194304, 3481513 / 16777216⟩ ∧
    (1 : ℝ) < Vec3.length (⟨Real.sqrt, Real.cos, Real.sin⟩ : Libm ℝ)
      ⟨-2901261 / 4194304, -2901261 / 4194304, 3481513 / 16777216⟩ ∧
    f32_scale ⟨-2901261 / 4194304, -2901261 / 4194304, 3481513 / 16777216⟩
        (16777215 / 16777216)
      = some ⟨-11605043 / 16777216, -11605043 / 16777216, 13926051 / 67108864⟩ ∧
    f32_scale ⟨-11605043 / 16777216, -11605043 / 16777216, 13926051 / 67108864⟩ (3557 / 8192)
      = some ⟨-10077915 / 33554432, -10077915 / 33554432, 12093497 / 134217728⟩ := by
  refine ⟨?_, by decide!, by decide!, by decide!, by norm_num, ?_, by decide!, by decide!,
    by decide!, by decide!, by decide!, ?_, by decide!, by decide!⟩
  · intro n
    split_ifs
    · exact ⟨by norm_num, by norm_num, by decide!⟩
    · exact ⟨by norm_num, by norm_num, by decide!⟩
  · unfold Vec3.length Vec3.dot
    apply Real.lt_sqrt_of_sq_lt
    norm_num
  · unfold Vec3.length Vec3.dot
    apply Real.lt_sqrt_of_sq_lt
    norm_num

/-! ## Mesh generation: vertices are deduplicated by index triple -/

theorem vector_at_ok {α : Type} (xs : List α) (i : Int) (h0 : 0 ≤ i)
    (h1 : i < xs.length) : ∃ a, vector_at xs i = .ok a := by
  have hlt : i.toNat < xs.length := by omega
  refine ⟨xs[i.toNat], ?_⟩
  unfold vector_at
  rw [if_pos h0, List.getElem?_eq_getElem hlt]

theorem gen_vertex_ok {F : Type} [LinearOrderedField F] (attrib : attrib_t F) (idx : index_t)
    (h : index_in_range attrib idx) : ∃ g, gen_vertex attrib idx = .ok g := by
  obtain ⟨hv0, hv2, hn, ht⟩ := h
  obtain ⟨px, hpx⟩ := vector_at_ok attrib.vertices (3 * idx.vertex_index + 0) (by omega) (by omega)
  obtain ⟨py, hpy⟩ := vector_at_ok attrib.vertices (3 * idx.vertex_index + 1) (by omega) (by omega)
  obtain ⟨pz, hpz⟩ := vector_at_ok attrib.vertices (3 * idx.vertex_index + 2) (by omega) (by omega)
  unfold gen_vertex
  simp only [hpx, hpy, hpz, bind, Except.bind, pure, Except.pure]
  by_cases hn0 : 0 ≤ idx.normal_index
  · have hn2 := hn hn0
    obtain ⟨nx, hnx⟩ := vector_at_ok attrib.normals (3 * idx.normal_index + 0) (by omega) (by omega)
    obtain ⟨ny, hny⟩ := vector_at_ok attrib.normals (3 * idx.normal_index + 1) (by omega) (by omega)
    obtain ⟨nz, hnz⟩ := vector_at_ok attrib.normals (3 * idx.normal_index + 2) (by omega) (by omega)
    simp only [hn0, if_true, hnx, hny, hnz]
    by_cases ht0 : 0 ≤ idx.texcoord_index
    · have ht2 := ht ht0
      obtain ⟨u, hu⟩ := vector_at_ok attrib.texcoords (2 * idx.texcoord_index + 0) (by omega) (by omega)
      obtain ⟨v, hv⟩ := vector_at_ok attrib.texcoords (2 * idx.texcoord_index + 1) (by omega) (by omega)
      simp only [ht0, if_true, hu, hv]
      exact ⟨_, rfl⟩
    · simp only [ht0, if_false]
      exact ⟨_, rfl⟩
  · simp only [hn0, if_false]
    by_cases ht0 : 0 ≤ idx.texcoord_index
    · have ht2 := ht ht0
      obtain ⟨u, hu⟩ := vector_at_ok attrib.texcoords (2 * idx.texcoord_index + 0) (by omega) (by omega)
      obtain ⟨v, hv⟩ := vector_at_ok attrib.texcoords (2 * idx.texcoord_index + 1) (by omega) (by omega)
      simp only [ht0, if_true, hu, hv]
      exact ⟨_, rfl⟩
    · simp only [ht0, if_false]
      exact ⟨_, rfl⟩

theorem seen_find_eq_none (S : List (index_t × Nat)) (k : index_t) :
    seen_find S k = none ↔ k ∉ S.map Prod.fst := by
  unfold seen_find
  rw [Option.map_eq_none', List.find?_eq_none]
  simp only [decide_eq_true_eq, List.mem_map, not_exists, not_and]

theorem seen_find_mem (S : List (index_t × Nat)) (k : index_t) (e : Nat)
    (h : seen_find S k = some e) : (k, e) ∈ S := by
  unfold seen_find at h
  rw [Option.map_eq_some'] at h
  obtain ⟨a, ha, hae⟩ := h
  have h1 := List.find?_some ha
  have h2 := List.mem_of_find?_eq_some ha
  simp only [decide_eq_true_eq] at h1
  have : a = (k, e) := Prod.ext h1 hae
  rw [← this]
  exact h2

theorem seen_find_append (S T : List (index_t × Nat)) (k : index_t) (e : Nat)
    (h : seen_find S k = some e) : seen_find (S ++ T) k = some e := by
  unfold seen_find at h ⊢
  rw [Option.map_eq_some'] at h
  obtain ⟨a, ha, hae⟩ := h
  rw [List.find?_append, ha]
  simpa using hae

theorem seen_find_append_new (S : List (index_t × Nat)) (k : index_t) (i : Nat)
    (h : seen_find S k = none) : seen_find (S ++ [(k, i)]) k = some i := by
  unfold seen_find at h ⊢
  rw [Option.map_eq_none'] at h
  rw [List.find?_append, h]
  simp

theorem seen_position (S : List (index_t × Nat)) (hs : S.map Prod.snd = List.range S.length)
    (k : index_t) (e : Nat) (h : (k, e) ∈ S) : S[e]? = some (k, e) := by
  obtain ⟨p, hp, hpe⟩ := List.mem_iff_getElem.1 h
  have h1 : (S.map Prod.snd)[p]? = (List.range S.length)[p]? := by rw [hs]
  rw [List.getElem?_map, List.getElem?_eq_getElem hp, hpe,
    List.getElem?_eq_getElem (by simpa using hp), List.getElem_range] at h1
  simp only [Option.map_some', Option.some.injEq] at h1
  subst h1
  rw [List.getElem?_eq_getElem hp, hpe]

theorem set_tangent_attributes {F : Type} (V : List (Vertex F)) (i : Nat) (t : Vec3 F) :
    (set_tangent V i t).map (fun v => (Except.ok v.attributes : Except Fault _)) =
      V.map (fun v => (Except.ok v.attributes : Except Fault _)) := by
  unfold set_tangent
  induction V generalizing i with
  | nil => cases i <;> rfl
  | cons a rest ih =>
    cases i with
    | zero => rfl
    | succ n =>
      show _ :: (List.modify _ n rest).map _ = _ :: rest.map _
      rw [ih n]

theorem set_tangent_length {F : Type} (V : List (Vertex F)) (i : Nat) (t : Vec3 F) :
    (set_tangent V i t).length = V.length :=
  List.length_modify _ _ _

theorem generate_tangents_ok {F : Type} [LinearOrderedField F] (V : List (Vertex F)) (face : UVec3)
    (hx : face.x < V.length) (hy : face.y < V.length) (hz : face.z < V.length) :
    ∃ V1, generate_tangents V face = .ok V1 ∧
      V1.map (fun v => (Except.ok v.attributes : Except Fault _)) =
        V.map (fun v => (Except.ok v.attributes : Except Fault _)) := by
  unfold generate_tangents
  rw [List.getElem?_eq_getElem hx, List.getElem?_eq_getElem hy, List.getElem?_eq_getElem hz]
  refine ⟨_, rfl, ?_⟩
  rw [set_tangent_attributes, set_tangent_attributes, set_tangent_attributes]

theorem DedupInv.len {F : Type} [LinearOrderedField F] {attrib : attrib_t F} {done : List index_t} {V : List (Vertex F)}
    {S : List (index_t × Nat)} {E : List Nat} (inv : DedupInv attrib done V S E) :
    V.length = S.length := by
  have := congrArg List.length inv.built
  simpa using this

theorem DedupInv.issued_lt {F : Type} [LinearOrderedField F] {attrib : attrib_t F} {done : List index_t}
    {V : List (Vertex F)} {S : List (index_t × Nat)} {E : List Nat}
    (inv : DedupInv attrib done V S E) (k : index_t) (e : Nat)
    (h : seen_find S k = some e) : e < V.length := by
  have h1 := seen_position S inv.snd k e (seen_find_mem S k e h)
  rw [inv.len]
  exact (List.getElem?_eq_some.1 h1).1

theorem gen_mesh_corner_ok {F : Type} [LinearOrderedField F] (s : mesh_t)
    (attrib : attrib_t F) (offset v : Nat) (idx : index_t) (done : List index_t)
    (V : List (Vertex F)) (S : List (index_t × Nat)) (E : List Nat)
    (inv : DedupInv attrib done V S E) (hidx : s.indices[offset + v]? = some idx)
    (hr : index_in_range attrib idx) (hsize : done.length < 2 ^ 32) :
    ∃ V1 S1 e,
      (∀ face face1 : UVec3, face.set v e = .ok face1 →
        gen_mesh_corner s attrib offset (V, S, face) v = .ok (V1, S1, face1)) ∧
      DedupInv attrib (done ++ [idx]) V1 S1 (E ++ [e]) ∧
      seen_find S1 idx = some e ∧
      (∀ k j, seen_find S k = some j → seen_find S1 k = some j) := by
  cases hfind : seen_find S idx with
  | some e =>
    refine ⟨V, S, e, ?_, ?_, hfind, fun _ _ h => h⟩
    · intro face face1 hset
      simp only [gen_mesh_corner, hidx, hfind, hset, bind, Except.bind, pure, Except.pure]
    · have hmem : idx ∈ S.map Prod.fst :=
        List.mem_map.2 ⟨(idx, e), seen_find_mem S idx e hfind, rfl⟩
      refine ⟨inv.snd, inv.nodup, ?_, inv.built, ?_, ?_⟩
      · intro k
        rw [List.mem_append, List.mem_singleton, inv.mem]
        constructor
        · exact fun h => Or.inl h
        · rintro (h | h)
          · exact h
          · rw [h]; exact (inv.mem idx).1 hmem
      · exact List.rel_append inv.issued (List.Forall₂.cons hfind List.Forall₂.nil)
      · rw [List.length_append]
        exact Nat.le_succ_of_le inv.bound
  | none =>
    obtain ⟨g, hg⟩ := gen_vertex_ok attrib idx hr
    have hVS : V.length = S.length := inv.len
    have hmod : V.length % 2 ^ 32 = V.length :=
      Nat.mod_eq_of_lt (by have := inv.bound; omega)
    have hnot : idx ∉ S.map Prod.fst := (seen_find_eq_none S idx).1 hfind
    refine ⟨V ++ [g], S ++ [(idx, V.length)], V.length, ?_, ?_, ?_, ?_⟩
    · intro face face1 hset
      simp only [gen_mesh_corner, hidx, hfind, hmod, hg, hset, bind, Except.bind, pure,
        Except.pure]
    · refine ⟨?_, ?_, ?_, ?_, ?_, ?_⟩
      · rw [List.map_append, inv.snd, List.length_append, List.length_singleton,
          List.range_succ, hVS]
        rfl
      · rw [List.map_append]
        refine List.Nodup.append inv.nodup (List.nodup_singleton _) ?_
        intro k hk hk1
        rw [List.map_singleton, List.mem_singleton] at hk1
        rw [hk1] at hk
        exact hnot hk
      · intro k
        rw [List.map_append, List.mem_append, List.mem_append, inv.mem]
        simp
      · rw [List.map_append, List.map_append, inv.built]
        simp only [List.map_singleton, hg]
        rfl
      · refine List.rel_append ?_ (List.Forall₂.cons ?_ List.Forall₂.nil)
        · exact inv.issued.imp (fun _ _ h => seen_find_append S _ _ _ h)
        · exact seen_find_append_new S idx V.length hfind
      · rw [List.length_append, List.length_append]
        exact Nat.succ_le_succ inv.bound
    · exact seen_find_append_new S idx V.length hfind
    · exact fun k j h => seen_find_append S _ k j h

theorem element_buffer_append (indices : List UVec3) (face : UVec3) :
    element_buffer (indices ++ [face]) = element_buffer indices ++ [face.x, face.y, face.z] := by
  induction indices with
  | nil => rfl
  | cons a rest ih =>
    show a.x :: a.y :: a.z :: element_buffer (rest ++ [face]) = _
    rw [ih]
    rfl

theorem mem_of_getElem?_eq_some {α : Type} (l : List α) (n : Nat) (a : α)
    (h : l[n]? = some a) : a ∈ l := by
  obtain ⟨hn, ha⟩ := List.getElem?_eq_some.1 h
  exact List.mem_iff_getElem.2 ⟨n, hn, ha⟩

theorem take_succ_of_getElem? {α : Type} (l : List α) (n : Nat) (a : α)
    (h : l[n]? = some a) : l.take (n + 1) = l.take n ++ [a] := by
  rw [List.take_succ, h]
  rfl

theorem gen_mesh_face_ok {F : Type} [LinearOrderedField F] (s : mesh_t)
    (attrib : attrib_t F) (st : GenMeshState F) (f : Nat) (hoff : st.offset = 3 * f)
    (inv : DedupInv attrib (s.indices.take (3 * f)) st.vertices st.seen
      (element_buffer st.indices))
    (hlen : 3 * f + 3 ≤ s.indices.length)
    (hrange : ∀ idx ∈ s.indices, index_in_range attrib idx)
    (hsize : s.indices.length < 2 ^ 31) :
    ∃ st1, gen_mesh_face s attrib st 3 = .ok st1 ∧ st1.offset = 3 * (f + 1) ∧
      DedupInv attrib (s.indices.take (3 * (f + 1))) st1.vertices st1.seen
        (element_buffer st1.indices) ∧
      st1.indices.length = st.indices.length + 1 := by
  obtain ⟨idx0, h0⟩ : ∃ a, s.indices[3 * f + 0]? = some a :=
    ⟨_, List.getElem?_eq_getElem (by omega)⟩
  obtain ⟨idx1, h1⟩ : ∃ a, s.indices[3 * f + 1]? = some a :=
    ⟨_, List.getElem?_eq_getElem (by omega)⟩
  obtain ⟨idx2, h2⟩ : ∃ a, s.indices[3 * f + 2]? = some a :=
    ⟨_, List.getElem?_eq_getElem (by omega)⟩
  have hr0 := hrange idx0 (mem_of_getElem?_eq_some _ _ _ h0)
  have hr1 := hrange idx1 (mem_of_getElem?_eq_some _ _ _ h1)
  have hr2 := hrange idx2 (mem_of_getElem?_eq_some _ _ _ h2)
  have hdone : (s.indices.take (3 * f)).length = 3 * f := by
    rw [List.length_take]; omega
  obtain ⟨V1, S1, e0, hc0, inv1, hf0, hm0⟩ :=
    gen_mesh_corner_ok s attrib (3 * f) 0 idx0 _ _ _ _ inv h0 hr0 (by rw [hdone]; omega)
  obtain ⟨V2, S2, e1, hc1, inv2, hf1, hm1⟩ :=
    gen_mesh_corner_ok s attrib (3 * f) 1 idx1 _ _ _ _ inv1 h1 hr1
      (by rw [List.length_append, hdone]; simp; omega)
  obtain ⟨V3, S3, e2, hc2, inv3, hf2, hm2⟩ :=
    gen_mesh_corner_ok s attrib (3 * f) 2 idx2 _ _ _ _ inv2 h2 hr2
      (by rw [List.length_append, List.length_append, hdone]; simp; omega)
  have hx : e0 < V3.length := inv3.issued_lt idx0 e0 (hm2 _ _ (hm1 _ _ hf0))
  have hy : e1 < V3.length := inv3.issued_lt idx1 e1 (hm2 _ _ hf1)
  have hz : e2 < V3.length := inv3.issued_lt idx2 e2 hf2
  obtain ⟨V4, htan, hattr⟩ := generate_tangents_ok V3 ⟨e0, e1, e2⟩ hx hy hz
  have hk0 := hc0 ⟨0, 0, 0⟩ ⟨e0, 0, 0⟩ rfl
  have hk1 := hc1 ⟨e0, 0, 0⟩ ⟨e0, e1, 0⟩ rfl
  have hk2 := hc2 ⟨e0, e1, 0⟩ ⟨e0, e1, e2⟩ rfl
  have htake : s.indices.take (3 * (f + 1)) =
      s.indices.take (3 * f) ++ [idx0] ++ [idx1] ++ [idx2] := by
    have e3 : 3 * (f + 1) = 3 * f + 2 + 1 := by ring
    rw [e3, take_succ_of_getElem? _ _ _ h2, take_succ_of_getElem? _ (3 * f + 1) _ h1,
      take_succ_of_getElem? _ (3 * f) _ h0]
  refine ⟨⟨st.offset + 3, V4, st.indices ++ [⟨e0, e1, e2⟩], S3⟩, ?_, ?_, ?_, ?_⟩
  · have hrange3 : List.range 3 = [0, 1, 2] := rfl
    simp only [gen_mesh_face, hrange3, gen_mesh_corners, hoff, hk0, hk1, hk2, htan]
  · show st.offset + 3 = 3 * (f + 1)
    rw [hoff]; ring
  · show DedupInv attrib _ V4 S3 (element_buffer (st.indices ++ [⟨e0, e1, e2⟩]))
    rw [htake, element_buffer_append]
    have hE : element_buffer st.indices ++ [e0, e1, e2] =
        element_buffer st.indices ++ [e0] ++ [e1] ++ [e2] := by simp
    rw [hE]
    exact ⟨inv3.snd, inv3.nodup, inv3.mem, by rw [hattr]; exact inv3.built, inv3.issued,
      inv3.bound⟩
  · simp

theorem gen_mesh_faces_ok {F : Type} [LinearOrderedField F] (s : mesh_t)
    (attrib : attrib_t F) (hrange : ∀ idx ∈ s.indices, index_in_range attrib idx)
    (hsize : s.indices.length < 2 ^ 31) (fvs : List Nat) :
    ∀ (st : GenMeshState F) (f : Nat), (∀ fv ∈ fvs, fv = 3) →
      3 * (f + fvs.length) ≤ s.indices.length → st.offset = 3 * f →
      DedupInv attrib (s.indices.take (3 * f)) st.vertices st.seen
        (element_buffer st.indices) →
      ∃ st1, gen_mesh_faces s attrib fvs st = .ok st1 ∧
        DedupInv attrib (s.indices.take (3 * (f + fvs.length))) st1.vertices st1.seen
          (element_buffer st1.indices) := by
  induction fvs with
  | nil =>
    intro st f _ _ _ inv
    exact ⟨st, rfl, inv⟩
  | cons fv rest ih =>
    intro st f htri hlen hoff inv
    have hfv : fv = 3 := htri fv (List.mem_cons_self _ _)
    subst hfv
    rw [List.length_cons] at hlen
    obtain ⟨st1, hface, hoff1, inv1, _⟩ :=
      gen_mesh_face_ok s attrib st f hoff inv (by omega) hrange hsize
    obtain ⟨st2, hrest, inv2⟩ := ih st1 (f + 1)
      (fun x hx => htri x (List.mem_cons_of_mem _ hx)) (by omega) hoff1 inv1
    refine ⟨st2, ?_, ?_⟩
    · simp only [gen_mesh_faces, hface, hrest]
    · have : f + (rest.length + 1) = f + 1 + rest.length := by ring
      rw [List.length_cons, this]
      exact inv2

theorem DedupInv.vertex_of_issued {F : Type} [LinearOrderedField F] {attrib : attrib_t F}
    {done : List index_t} {V : List (Vertex F)} {S : List (index_t × Nat)} {E : List Nat}
    (inv : DedupInv attrib done V S E) (idx : index_t) (e : Nat)
    (h : seen_find S idx = some e) (g : Vertex F) (hg : gen_vertex attrib idx = .ok g) :
    ∃ vert, V[e]? = some vert ∧ vert.position = g.position ∧ vert.normal = g.normal ∧
      vert.tex_coord = g.tex_coord := by
  have hpos := seen_position S inv.snd idx e (seen_find_mem S idx e h)
  have he : e < V.length := inv.issued_lt idx e h
  refine ⟨V[e], List.getElem?_eq_getElem he, ?_⟩
  have hb := congrArg (fun l => l[e]?) inv.built
  simp only [List.getElem?_map, hpos, List.getElem?_eq_getElem he, Option.map_some', hg,
    Option.some.injEq] at hb
  have hattr : (V[e]).attributes = g.attributes := by
    injection hb
  simp only [Vertex.attributes, Prod.mk.injEq] at hattr
  exact hattr

/-- C11: for `Texture`, `Shader` and `Mesh`, the multiset of ids held by the
destination and the source of a move construction (the destination counting as
holding 0 before) or of a move assignment is the same after the move as before
it; so an id other than 0 with exactly one owner before has exactly one owner
after, and is no longer live once both wrappers are destroyed. -/
theorem move_preserves_ids (t t0 : Texture) (s s0 : Shader) (m m0 : Mesh) :
    ((({(Texture.move_construct t).1._tex_id, (Texture.move_construct t).2._tex_id} :
        Multiset Nat) = {0, t._tex_id}) ∧
      (({(Texture.move_assign t0 t).1._tex_id, (Texture.move_assign t0 t).2._tex_id} :
        Multiset Nat) = {t0._tex_id, t._tex_id}) ∧
      ∀ (id : Nat) (live : List Nat), id ≠ 0 →
        Multiset.count id ({t0._tex_id, t._tex_id} : Multiset Nat) = 1 →
        Multiset.count id ({(Texture.move_assign t0 t).1._tex_id,
          (Texture.move_assign t0 t).2._tex_id} : Multiset Nat) = 1 ∧
        id ∉ (Texture.move_assign t0 t).2.destroy
          ((Texture.move_assign t0 t).1.destroy live)) ∧
    ((({(Shader.move_construct s).1._id, (Shader.move_construct s).2._id} :
        Multiset Nat) = {0, s._id}) ∧
      (({(Shader.move_assign s0 s).1._id, (Shader.move_assign s0 s).2._id} :
        Multiset Nat) = {s0._id, s._id}) ∧
      ∀ (id : Nat) (live : List Nat), id ≠ 0 →
        Multiset.count id ({s0._id, s._id} : Multiset Nat) = 1 →
        Multiset.count id ({(Shader.move_assign s0 s).1._id,
          (Shader.move_assign s0 s).2._id} : Multiset Nat) = 1 ∧
        id ∉ (Shader.move_assign s0 s).2.destroy
          ((Shader.move_assign s0 s).1.destroy live)) ∧
    ((({(Mesh.move_construct m).1._vao, (Mesh.move_construct m).2._vao} :
        Multiset Nat) = {0, m._vao}) ∧
      (({(Mesh.move_assign m0 m).1._vao, (Mesh.move_assign m0 m).2._vao} :
        Multiset Nat) = {m0._vao, m._vao}) ∧
      ∀ (id : Nat) (live : List Nat), id ≠ 0 →
        Multiset.count id ({m0._vao, m._vao} : Multiset Nat) = 1 →
        Multiset.count id ({(Mesh.move_assign m0 m).1._vao,
          (Mesh.move_assign m0 m).2._vao} : Multiset Nat) = 1 ∧
        id ∉ (Mesh.move_assign m0 m).2.destroy ((Mesh.move_assign m0 m).1.destroy live)) := by
  have key : ∀ (a b id : Nat) (live : List Nat), id ≠ 0 →
      Multiset.count id ({a, b} : Multiset Nat) = 1 →
      Multiset.count id ({b, a} : Multiset Nat) = 1 ∧
        id ∉ gl_delete (gl_delete live b) a := by
    intro a b id live hid hcount
    refine ⟨by rw [Multiset.pair_comm]; exact hcount, ?_⟩
    have hab : id = a ∨ id = b := by
      by_contra hne
      push_neg at hne
      have : Multiset.count id ({a, b} : Multiset Nat) = 0 := by
        rw [Multiset.count_eq_zero]
        simp [hne.1, hne.2]
      omega
    intro hmem
    unfold gl_delete at hmem
    rcases hab with h | h
    · subst h
      simp [hid] at hmem
    · subst h
      by_cases ha : a = 0
      · simp [hid, ha] at hmem
      · simp [hid, ha] at hmem
  refine ⟨⟨?_, ?_, ?_⟩, ⟨?_, ?_, ?_⟩, ⟨?_, ?_, ?_⟩⟩
  · exact Multiset.pair_comm _ _
  · exact Multiset.pair_comm _ _
  · exact fun id live hid hc => key t0._tex_id t._tex_id id live hid hc
  · exact Multiset.pair_comm _ _
  · exact Multiset.pair_comm _ _
  · exact fun id live hid hc => key s0._id s._id id live hid hc
  · exact Multiset.pair_comm _ _
  · exact Multiset.pair_comm _ _
  · exact fun id live hid hc => key m0._vao m._vao id live hid hc

theorem move_preserves_ids_witness :
    Multiset.count 7 ({(Texture.move_assign ⟨5⟩ ⟨7⟩).1._tex_id,
        (Texture.move_assign ⟨5⟩ ⟨7⟩).2._tex_id} : Multiset Nat) = 1 ∧
      7 ∉ (Texture.move_assign ⟨5⟩ ⟨7⟩).2.destroy
        ((Texture.move_assign ⟨5⟩ ⟨7⟩).1.destroy [5, 7, 9]) :=
  (move_preserves_ids ⟨7⟩ ⟨5⟩ ⟨7⟩ ⟨5⟩ ⟨⟨none, none, none⟩, 7, 0⟩
    ⟨⟨none, none, none⟩, 5, 0⟩).1.2.2 7 [5, 7, 9] (by decide) (by decide)

/-! ## Camera: `rotate(0, 0)` is idempotent -/

theorem clamp_of_mem {F : Type} [LinearOrderedField F] (v lo hi : F) (h1 : lo ≤ v)
    (h2 : v ≤ hi) : clamp v lo hi = v := by
  unfold clamp
  rw [if_neg (not_lt.2 h1), if_neg (not_lt.2 h2)]

theorem Camera.rotate_pitch {F : Type} [LinearOrderedField F] (m : Libm F) (c : Camera F)
    (pitch yaw : F) : (c.rotate m pitch yaw)._pitch = clamp (c._pitch + pitch) (-89) 89 :=
  rfl

theorem Camera.rotate_yaw {F : Type} [LinearOrderedField F] (m : Libm F) (c : Camera F)
    (pitch yaw : F) : (c.rotate m pitch yaw)._yaw = c._yaw + yaw :=
  rfl

theorem Camera.rotate_congr {F : Type} [LinearOrderedField F] (m : Libm F) (c d : Camera F)
    (pitch yaw : F) (hpos : c._position = d._position) (hp : c._pitch = d._pitch)
    (hy : c._yaw = d._yaw) : c.rotate m pitch yaw = d.rotate m pitch yaw := by
  unfold Camera.rotate
  rw [hpos, hp, hy]

/-- C16: for a camera whose pitch lies in `[-89, 89]`, `rotate(0, 0)` keeps the
pitch and the yaw, and a second `rotate(0, 0)` changes nothing: position, view,
right and up vectors, pitch and yaw after two calls equal those after one
(over exact arithmetic). -/
theorem rotate_zero_idempotent {F : Type} [LinearOrderedField F] (m : Libm F)
    (c : Camera F) (hlo : -89 ≤ c._pitch) (hhi : c._pitch ≤ 89) :
    (c.rotate m 0 0).rotate m 0 0 = c.rotate m 0 0 ∧
    ((c.rotate m 0 0).rotate m 0 0)._view_dir = (c.rotate m 0 0)._view_dir ∧
    ((c.rotate m 0 0).rotate m 0 0)._right_dir = (c.rotate m 0 0)._right_dir ∧
    ((c.rotate m 0 0).rotate m 0 0)._up_dir = (c.rotate m 0 0)._up_dir ∧
    (c.rotate m 0 0)._pitch = c._pitch ∧ (c.rotate m 0 0)._yaw = c._yaw := by
  have hp : (c.rotate m 0 0)._pitch = c._pitch := by
    rw [Camera.rotate_pitch, add_zero, clamp_of_mem _ _ _ hlo hhi]
  have hy : (c.rotate m 0 0)._yaw = c._yaw := by
    rw [Camera.rotate_yaw, add_zero]
  have h : (c.rotate m 0 0).rotate m 0 0 = c.rotate m 0 0 :=
    Camera.rotate_congr m _ _ 0 0 rfl hp hy
  exact ⟨h, by rw [h], by rw [h], by rw [h], hp, hy⟩

theorem rotate_zero_idempotent_witness :
    ((Camera.new : Camera ℚ).rotate ⟨fun x => x, fun x => x, fun x => x⟩ 0 0).rotate
        ⟨fun x => x, fun x => x, fun x => x⟩ 0 0 =
      (Camera.new : Camera ℚ).rotate ⟨fun x => x, fun x => x, fun x => x⟩ 0 0 :=
  (rotate_zero_idempotent ⟨fun x => x, fun x => x, fun x => x⟩ (Camera.new : Camera ℚ)
    (by simp [Camera.new]) (by simp [Camera.new])).1

/-! ## Mesh: the element count -/

/-- C19 fails on the code: a mesh constructed with one index triple stores
`indices.size_bytes()`, 12, as its element count and passes 12 to
`glDrawElements`, where the number of indices is 3; with two triples it stores
24, not 6. -/
theorem mesh_vert_count_is_byte_size :
    (Mesh.new ([] : List Nat) [⟨0, 1, 2⟩] ⟨none, none, none⟩ 1)._vert_count = 12 ∧
    (element_buffer [⟨0, 1, 2⟩]).length = 3 ∧
    Mesh.draw [] (Mesh.new ([] : List Nat) [⟨0, 1, 2⟩] ⟨none, none, none⟩ 1) =
      .ok [GLCommand.BindTextureUnit 0 0, GLCommand.BindTextureUnit 1 0,
        GLCommand.BindTextureUnit 2 0, GLCommand.BindVertexArray 1,
        GLCommand.DrawElements DrawMode.GL_TRIANGLES 12, GLCommand.BindVertexArray 0] ∧
    (Mesh.new ([] : List Nat) [⟨0, 1, 2⟩, ⟨2, 1, 3⟩] ⟨none, none, none⟩ 1)._vert_count = 24 := by
  exact ⟨by decide, by decide, rfl, by decide⟩

/-! ## Manager::render: the frame without a scene, and the order of the passes -/

theorem Manager.render_some (m : Manager) (i : Nat) (scene : Scene) (draws : List GLCommand)
    (hidx : m._scene_idx = some i) (hscene : m._scenes[i]? = some scene)
    (hdraws : scene.render = .ok draws) :
    m.render = .ok (Manager.render_clear ++ m.render_geometry_setup ++ draws
      ++ m.render_screen_passes ++ [GLCommand.SwapWindow]) := by
  unfold Manager.render
  simp only [hidx, hscene, hdraws]

/-- C12: when the active scene index is empty, `Manager::render` issues only the
clear of the default framebuffer and the buffer swap (no framebuffer bind, no
shader use, no texture bind, no draw call); that is the frame it issues exactly
when the index is empty, and with any active index, 0 included, a frame that
is issued runs the four passes. -/
theorem render_without_scene (m : Manager) :
    (m._scene_idx = none →
      m.render = .ok [GLCommand.ClearColor 0 0 0 1, GLCommand.Clear true true,
        GLCommand.SwapWindow]) ∧
    (m.render = .ok [GLCommand.ClearColor 0 0 0 1, GLCommand.Clear true true,
        GLCommand.SwapWindow] ↔ m._scene_idx = none) ∧
    (∀ (i : Nat) (cs : List GLCommand), m._scene_idx = some i → m.render = .ok cs →
      ∃ draws, cs = Manager.render_clear ++ m.render_geometry_setup ++ draws
        ++ m.render_screen_passes ++ [GLCommand.SwapWindow]) := by
  have hnone : m._scene_idx = none →
      m.render = .ok [GLCommand.ClearColor 0 0 0 1, GLCommand.Clear true true,
        GLCommand.SwapWindow] := by
    intro h
    unfold Manager.render
    rw [h]
    rfl
  have hsome : ∀ (i : Nat) (cs : List GLCommand), m._scene_idx = some i → m.render = .ok cs →
      ∃ draws, cs = Manager.render_clear ++ m.render_geometry_setup ++ draws
        ++ m.render_screen_passes ++ [GLCommand.SwapWindow] := by
    intro i cs hi hr
    unfold Manager.render at hr
    rw [hi] at hr
    cases hs : m._scenes[i]? with
    | none => simp [hs] at hr
    | some scene =>
      cases hd : scene.render with
      | error e => simp [hs, hd] at hr
      | ok draws =>
        simp only [hs, hd, Except.ok.injEq] at hr
        exact ⟨draws, hr.symm⟩
  refine ⟨hnone, ⟨?_, hnone⟩, hsome⟩
  intro hr
  cases hi : m._scene_idx with
  | none => rfl
  | some i =>
    exfalso
    obtain ⟨draws, hcs⟩ := hsome i _ hi hr
    have := congrArg List.length hcs
    simp [Manager.render_clear, Manager.render_geometry_setup, Manager.render_screen_passes,
      Manager.draw_quad] at this

theorem render_without_scene_witness :
    ({ _scenes := [⟨[], []⟩], _scene_idx := none, _quad := 1, _noise_tex := 1,
       _geometry_shader := ⟨1⟩, _gbuffer := 1, _gposition := 2, _gnormal := 3,
       _gdiffuse := 4, _ssao_shader := ⟨2⟩, _ssao_buffer := 2, _ssao_color_tex := 5,
       _ssao_blur_shader := ⟨3⟩, _ssao_blur_buffer := 3, _ssao_color_blur_tex := 6,
       _lighting_shader := ⟨4⟩, _enable_ssao := true,
       mode := PolygonMode.GL_FILL } : Manager).render =
      .ok [GLCommand.ClearColor 0 0 0 1, GLCommand.Clear true true, GLCommand.SwapWindow] :=
  (render_without_scene _).1 rfl

theorem draw_bindings_append (b : GLBinding) (l1 l2 : List GLCommand) :
    draw_bindings b (l1 ++ l2) = draw_bindings b l1 ++ draw_bindings (final_binding b l1) l2 := by
  induction l1 generalizing b with
  | nil => rfl
  | cons c rest ih =>
    show draw_bindings b (c :: (rest ++ l2)) = _
    simp only [draw_bindings, final_binding]
    split_ifs
    · rw [ih]; rfl
    · rw [ih]

theorem final_binding_append (b : GLBinding) (l1 l2 : List GLCommand) :
    final_binding b (l1 ++ l2) = final_binding (final_binding b l1) l2 := by
  induction l1 generalizing b with
  | nil => rfl
  | cons c rest ih => exact ih _

theorem Mesh.draw_keeps_target (pool : List Texture) (mesh : Mesh) (cs : List GLCommand)
    (h : Mesh.draw pool mesh = .ok cs) :
    ∀ c ∈ cs, ∀ b : GLBinding,
      (b.step c).framebuffer = b.framebuffer ∧ (b.step c).program = b.program := by
  unfold Mesh.draw at h
  cases hd : texture_id_or_zero pool mesh._texture.diffuse with
  | error e => simp [hd, bind, Except.bind] at h
  | ok d =>
    cases hn : texture_id_or_zero pool mesh._texture.normal with
    | error e => simp [hd, hn, bind, Except.bind] at h
    | ok n =>
      cases hs : texture_id_or_zero pool mesh._texture.specular with
      | error e => simp [hd, hn, hs, bind, Except.bind] at h
      | ok s =>
        simp only [hd, hn, hs, bind, Except.bind, pure, Except.pure, Except.ok.injEq] at h
        subst h
        intro c hc b
        simp only [List.mem_cons, List.mem_singleton, List.not_mem_nil, or_false] at hc
        rcases hc with rfl | rfl | rfl | rfl | rfl | rfl <;> exact ⟨rfl, rfl⟩

theorem draw_meshes_keeps_target (pool : List Texture) (meshes : List Mesh) :
    ∀ cs : List GLCommand, draw_meshes pool meshes = .ok cs →
      ∀ c ∈ cs, ∀ b : GLBinding,
        (b.step c).framebuffer = b.framebuffer ∧ (b.step c).program = b.program := by
  induction meshes with
  | nil =>
    intro cs h c hc
    simp only [draw_meshes, Except.ok.injEq] at h
    subst h
    simp at hc
  | cons mesh rest ih =>
    intro cs h c hc
    unfold draw_meshes at h
    cases hd : Mesh.draw pool mesh with
    | error e => simp [hd] at h
    | ok ds =>
      cases hr : draw_meshes pool rest with
      | error e => simp [hd, hr] at h
      | ok rs =>
        simp only [hd, hr, Except.ok.injEq] at h
        subst h
        rcases List.mem_append.1 hc with h1 | h1
        · exact Mesh.draw_keeps_target pool mesh ds hd c h1
        · exact ih rs hr c h1

theorem bindings_of_keeps_target (cs : List GLCommand)
    (h : ∀ c ∈ cs, ∀ b : GLBinding,
      (b.step c).framebuffer = b.framebuffer ∧ (b.step c).program = b.program) :
    ∀ b : GLBinding,
      ((final_binding b cs).framebuffer = b.framebuffer ∧
        (final_binding b cs).program = b.program) ∧
      ∀ d ∈ draw_bindings b cs, d.framebuffer = b.framebuffer ∧ d.program = b.program := by
  induction cs with
  | nil =>
    intro b
    exact ⟨⟨rfl, rfl⟩, fun d hd => by simp [draw_bindings] at hd⟩
  | cons c rest ih =>
    intro b
    have hc := h c (List.mem_cons_self _ _) b
    have hrest := ih (fun c1 h1 => h c1 (List.mem_cons_of_mem _ h1)) (b.step c)
    refine ⟨⟨?_, ?_⟩, ?_⟩
    · show (final_binding (b.step c) rest).framebuffer = _
      rw [hrest.1.1, hc.1]
    · show (final_binding (b.step c) rest).program = _
      rw [hrest.1.2, hc.2]
    · intro d hd
      unfold draw_bindings at hd
      split_ifs at hd
      · rcases List.mem_cons.1 hd with h1 | h1
        · rw [h1]; exact ⟨rfl, rfl⟩
        · have := hrest.2 d h1
          exact ⟨this.1.trans hc.1, this.2.trans hc.2⟩
      · have := hrest.2 d hd
        exact ⟨this.1.trans hc.1, this.2.trans hc.2⟩

theorem screen_passes_bindings (m : Manager) (b : GLBinding) :
    ∃ occlusion blur composite : GLBinding,
      draw_bindings b (m.render_screen_passes ++ [GLCommand.SwapWindow])
        = [occlusion, blur, composite] ∧
      (occlusion.framebuffer = m._ssao_buffer ∧ occlusion.program = m._ssao_shader._id ∧
        occlusion.units 0 = m._gposition ∧ occlusion.units 1 = m._gnormal ∧
        occlusion.units 2 = m._noise_tex) ∧
      (blur.framebuffer = m._ssao_blur_buffer ∧ blur.program = m._ssao_blur_shader._id ∧
        blur.units 0 = m._ssao_color_tex) ∧
      (composite.framebuffer = 0 ∧ composite.program = m._lighting_shader._id ∧
        composite.units 0 = m._gdiffuse ∧ composite.units 1 = m._ssao_color_blur_tex) :=
  ⟨_, _, _, rfl, ⟨rfl, rfl, rfl, rfl, rfl⟩, ⟨rfl, rfl, rfl⟩, ⟨rfl, rfl, rfl, rfl⟩⟩

theorem render_draw_bindings (m : Manager) (draws : List GLCommand) (b : GLBinding)
    (hkeep : ∀ c ∈ draws, ∀ b : GLBinding,
      (b.step c).framebuffer = b.framebuffer ∧ (b.step c).program = b.program) :
    ∃ (mesh_draws : List GLBinding) (occlusion blur composite : GLBinding),
      draw_bindings b (Manager.render_clear ++ m.render_geometry_setup ++ draws
        ++ m.render_screen_passes ++ [GLCommand.SwapWindow])
        = mesh_draws ++ [occlusion, blur, composite] ∧
      (∀ d ∈ mesh_draws, d.framebuffer = m._gbuffer ∧ d.program = m._geometry_shader._id) ∧
      (occlusion.framebuffer = m._ssao_buffer ∧ occlusion.program = m._ssao_shader._id ∧
        occlusion.units 0 = m._gposition ∧ occlusion.units 1 = m._gnormal ∧
        occlusion.units 2 = m._noise_tex) ∧
      (blur.framebuffer = m._ssao_blur_buffer ∧ blur.program = m._ssao_blur_shader._id ∧
        blur.units 0 = m._ssao_color_tex) ∧
      (composite.framebuffer = 0 ∧ composite.program = m._lighting_shader._id ∧
        composite.units 0 = m._gdiffuse ∧ composite.units 1 = m._ssao_color_blur_tex) := by
  have hmesh := bindings_of_keeps_target draws hkeep
    (final_binding b (Manager.render_clear ++ m.render_geometry_setup))
  obtain ⟨occlusion, blur, composite, hrun, hocc, hblur, hcomp⟩ :=
    screen_passes_bindings m
      (final_binding (final_binding b (Manager.render_clear ++ m.render_geometry_setup)) draws)
  refine ⟨draw_bindings (final_binding b (Manager.render_clear ++ m.render_geometry_setup))
    draws, occlusion, blur, composite, ?_, ?_, hocc, hblur, hcomp⟩
  · rw [List.append_assoc, draw_bindings_append, draw_bindings_append,
      final_binding_append b (Manager.render_clear ++ m.render_geometry_setup) draws, hrun]
    rfl
  · intro d hd
    have := hmesh.2 d hd
    exact ⟨this.1, this.2⟩

/-- C13: for a manager whose framebuffers were set up by `construct_gbuffer` and
`construct_ssao_buffers` and that has an active scene, `Manager::render` issues
the geometry set-up, the scene's draws and the three screen passes in that
order; the scene is drawn into the G-buffer with the geometry shader, the
occlusion quad into the occlusion framebuffer with the G-buffer's position and
normal attachments and the noise texture on units 0, 1, 2, the blur quad into
the blur framebuffer with the occlusion framebuffer's colour attachment on unit
0, and the composite quad into framebuffer 0 with the G-buffer's diffuse
attachment on unit 0 and the blur framebuffer's colour attachment on unit 1. -/
theorem render_pass_order (m0 : Manager)
    (fb pos norm diff rb sfb stex bfb btex : Nat) (scenes : List Scene) (i : Nat)
    (scene : Scene) (draws : List GLCommand) (b : GLBinding)
    (hne : sfb ≠ bfb) (hscene : scenes[i]? = some scene)
    (hdraws : scene.render = .ok draws) :
    ∃ (m : Manager) (g a : List Attachment),
      g = (m0.construct_gbuffer fb pos norm diff rb).2 ∧
      a = ((m0.construct_gbuffer fb pos norm diff rb).1.construct_ssao_buffers
        sfb stex bfb btex).2 ∧
      m = { ((m0.construct_gbuffer fb pos norm diff rb).1.construct_ssao_buffers
        sfb stex bfb btex).1 with _scenes := scenes, _scene_idx := some i } ∧
      m.render = .ok (Manager.render_clear ++ m.render_geometry_setup ++ draws
        ++ m.render_screen_passes ++ [GLCommand.SwapWindow]) ∧
      ∃ (mesh_draws : List GLBinding) (occlusion blur composite : GLBinding),
        draw_bindings b (Manager.render_clear ++ m.render_geometry_setup ++ draws
          ++ m.render_screen_passes ++ [GLCommand.SwapWindow])
          = mesh_draws ++ [occlusion, blur, composite] ∧
        (∀ d ∈ mesh_draws, d.framebuffer = fb ∧ d.program = m0._geometry_shader._id) ∧
        (occlusion.framebuffer = sfb ∧ occlusion.program = m0._ssao_shader._id ∧
          attached g fb AttachmentPoint.GL_COLOR_ATTACHMENT0 = some (occlusion.units 0) ∧
          attached g fb AttachmentPoint.GL_COLOR_ATTACHMENT1 = some (occlusion.units 1) ∧
          occlusion.units 2 = m0._noise_tex) ∧
        (blur.framebuffer = bfb ∧ blur.program = m0._ssao_blur_shader._id ∧
          attached a sfb AttachmentPoint.GL_COLOR_ATTACHMENT0 = some (blur.units 0)) ∧
        (composite.framebuffer = 0 ∧ composite.program = m0._lighting_shader._id ∧
          attached g fb AttachmentPoint.GL_COLOR_ATTACHMENT2 = some (composite.units 0) ∧
          attached a bfb AttachmentPoint.GL_COLOR_ATTACHMENT0 = some (composite.units 1)) := by
  refine ⟨_, _, _, rfl, rfl, rfl, ?_, ?_⟩
  · exact Manager.render_some _ i scene draws rfl hscene hdraws
  · have hkeep := draw_meshes_keeps_target scene._textures scene._meshes draws hdraws
    obtain ⟨mesh_draws, occlusion, blur, composite, hrun, hmesh, hocc, hblur, hcomp⟩ :=
      render_draw_bindings
        { ((m0.construct_gbuffer fb pos norm diff rb).1.construct_ssao_buffers
          sfb stex bfb btex).1 with _scenes := scenes, _scene_idx := some i } draws b hkeep
    refine ⟨mesh_draws, occlusion, blur, composite, hrun, hmesh, ?_, ?_, ?_⟩
    · obtain ⟨h1, h2, h3, h4, h5⟩ := hocc
      refine ⟨h1, h2, ?_, ?_, h5⟩
      · rw [h3]; simp [attached, Manager.construct_gbuffer, Manager.construct_ssao_buffers]
      · rw [h4]; simp [attached, Manager.construct_gbuffer, Manager.construct_ssao_buffers]
    · obtain ⟨h1, h2, h3⟩ := hblur
      refine ⟨h1, h2, ?_⟩
      rw [h3]; simp [attached, Manager.construct_ssao_buffers]
    · obtain ⟨h1, h2, h3, h4⟩ := hcomp
      refine ⟨h1, h2, ?_, ?_⟩
      · rw [h3]; simp [attached, Manager.construct_gbuffer, Manager.construct_ssao_buffers]
      · rw [h4]; simp [attached, Manager.construct_ssao_buffers, hne]

theorem render_pass_order_witness :
    ∃ (m : Manager) (g a : List Attachment),
      g = ((⟨[], none, 1, 1, ⟨1⟩, 0, 0, 0, 0, ⟨2⟩, 0, 0, ⟨3⟩, 0, 0, ⟨4⟩, true,
        PolygonMode.GL_FILL⟩ : Manager).construct_gbuffer 1 2 3 4 1).2 ∧
      a = (((⟨[], none, 1, 1, ⟨1⟩, 0, 0, 0, 0, ⟨2⟩, 0, 0, ⟨3⟩, 0, 0, ⟨4⟩, true,
        PolygonMode.GL_FILL⟩ : Manager).construct_gbuffer 1 2 3 4 1).1.construct_ssao_buffers
        2 5 3 6).2 ∧
      m = { (((⟨[], none, 1, 1, ⟨1⟩, 0, 0, 0, 0, ⟨2⟩, 0, 0, ⟨3⟩, 0, 0, ⟨4⟩, true,
        PolygonMode.GL_FILL⟩ : Manager).construct_gbuffer 1 2 3 4 1).1.construct_ssao_buffers
        2 5 3 6).1 with _scenes := [⟨[], []⟩], _scene_idx := some 0 } ∧
      m.render = .ok (Manager.render_clear ++ m.render_geometry_setup ++ []
        ++ m.render_screen_passes ++ [GLCommand.SwapWindow]) := by
  obtain ⟨m, g, a, hg, ha, hm, hr, _⟩ :=
    render_pass_order ⟨[], none, 1, 1, ⟨1⟩, 0, 0, 0, 0, ⟨2⟩, 0, 0, ⟨3⟩, 0, 0, ⟨4⟩, true,
      PolygonMode.GL_FILL⟩ 1 2 3 4 1 2 5 3 6 [⟨[], []⟩] 0 ⟨[], []⟩ [] ⟨0, 0, fun _ => 0, 0⟩
      (by decide) rfl rfl
  exact ⟨m, g, a, hg, ha, hm, hr⟩

/-! ## Mesh::draw: texture units -/

theorem texture_id_or_zero_eq (pool : List Texture) (ptr : Option Nat)
    (h : ∀ p, ptr = some p → p < pool.length) :
    texture_id_or_zero pool ptr =
      .ok (((ptr.bind (fun p => pool[p]?)).map Texture._tex_id).getD 0) := by
  cases ptr with
  | none => rfl
  | some p =>
    have hp := h p rfl
    simp only [texture_id_or_zero, List.getElem?_eq_getElem hp, Option.some_bind,
      Option.map_some', Option.getD_some]

theorem gen_mesh_textures_no_material {P : Type} [DecidableEq P] (join : String → P)
    (s : mesh_t) (materials : List material_t) (texture_map : TextureMap P) (midx : Int)
    (h0 : s.material_ids[0]? = some midx) (hneg : midx < 0) :
    gen_mesh_textures join s materials texture_map = .ok ⟨none, none, none⟩ := by
  have hv : vector_at s.material_ids 0 = .ok midx := by
    unfold vector_at
    simp [h0]
  unfold gen_mesh_textures
  simp only [hv, not_le.2 hneg, if_false]

/-- C14: for a mesh whose texture pointers refer into the pool, `draw` binds
unit 0 to the id of the diffuse texture, unit 1 to that of the normal texture
and unit 2 to that of the specular texture, with id 0 for each that is absent,
then draws the vertex array; a mesh that `gen_mesh` builds from a shape whose
first material id is negative binds 0 on all three units. -/
theorem mesh_draw_binds_textures (pool : List Texture) (m : Mesh)
    (hd : ∀ p, m._texture.diffuse = some p → p < pool.length)
    (hn : ∀ p, m._texture.normal = some p → p < pool.length)
    (hs : ∀ p, m._texture.specular = some p → p < pool.length) :
    Mesh.draw pool m = .ok
      [GLCommand.BindTextureUnit 0
         (((m._texture.diffuse.bind (fun p => pool[p]?)).map Texture._tex_id).getD 0),
       GLCommand.BindTextureUnit 1
         (((m._texture.normal.bind (fun p => pool[p]?)).map Texture._tex_id).getD 0),
       GLCommand.BindTextureUnit 2
         (((m._texture.specular.bind (fun p => pool[p]?)).map Texture._tex_id).getD 0),
       GLCommand.BindVertexArray m._vao,
       GLCommand.DrawElements DrawMode.GL_TRIANGLES m._vert_count,
       GLCommand.BindVertexArray 0] ∧
    (m._texture = ⟨none, none, none⟩ → Mesh.draw pool m = .ok
      [GLCommand.BindTextureUnit 0 0, GLCommand.BindTextureUnit 1 0,
       GLCommand.BindTextureUnit 2 0, GLCommand.BindVertexArray m._vao,
       GLCommand.DrawElements DrawMode.GL_TRIANGLES m._vert_count,
       GLCommand.BindVertexArray 0]) ∧
    (∀ (F P : Type) [LinearOrderedField F] [DecidableEq P] (join : String → P) (s : mesh_t)
      (attrib : attrib_t F) (materials : List material_t) (texture_map : TextureMap P)
      (vao : Nat) (midx : Int) (mesh : Mesh) (pool1 : List Texture),
      s.material_ids[0]? = some midx → midx < 0 →
      gen_mesh_result join s attrib materials texture_map vao = .ok mesh →
      Mesh.draw pool1 mesh = .ok
        [GLCommand.BindTextureUnit 0 0, GLCommand.BindTextureUnit 1 0,
         GLCommand.BindTextureUnit 2 0, GLCommand.BindVertexArray mesh._vao,
         GLCommand.DrawElements DrawMode.GL_TRIANGLES mesh._vert_count,
         GLCommand.BindVertexArray 0]) := by
  have hdraw : Mesh.draw pool m = .ok
      [GLCommand.BindTextureUnit 0
         (((m._texture.diffuse.bind (fun p => pool[p]?)).map Texture._tex_id).getD 0),
       GLCommand.BindTextureUnit 1
         (((m._texture.normal.bind (fun p => pool[p]?)).map Texture._tex_id).getD 0),
       GLCommand.BindTextureUnit 2
         (((m._texture.specular.bind (fun p => pool[p]?)).map Texture._tex_id).getD 0),
       GLCommand.BindVertexArray m._vao,
       GLCommand.DrawElements DrawMode.GL_TRIANGLES m._vert_count,
       GLCommand.BindVertexArray 0] := by
    unfold Mesh.draw
    rw [texture_id_or_zero_eq pool _ hd, texture_id_or_zero_eq pool _ hn,
      texture_id_or_zero_eq pool _ hs]
    rfl
  refine ⟨hdraw, ?_, ?_⟩
  · intro hnone
    rw [hdraw, hnone]
    rfl
  · intro F P _ _ join s attrib materials texture_map vao midx mesh pool1 h0 hneg hres
    unfold gen_mesh_result at hres
    cases hg : gen_mesh s attrib with
    | error e => simp [hg] at hres
    | ok vi =>
      obtain ⟨vertices, indices⟩ := vi
      simp only [hg, gen_mesh_textures_no_material join s materials texture_map midx h0 hneg,
        Except.ok.injEq] at hres
      subst hres
      rfl

theorem mesh_draw_binds_textures_witness :
    Mesh.draw [⟨7⟩, ⟨8⟩] ⟨⟨some 1, none, some 0⟩, 3, 6⟩ = .ok
      [GLCommand.BindTextureUnit 0 8, GLCommand.BindTextureUnit 1 0,
       GLCommand.BindTextureUnit 2 7, GLCommand.BindVertexArray 3,
       GLCommand.DrawElements DrawMode.GL_TRIANGLES 6, GLCommand.BindVertexArray 0] :=
  (mesh_draw_binds_textures [⟨7⟩, ⟨8⟩] ⟨⟨some 1, none, some 0⟩, 3, 6⟩
    (by decide) (by decide) (by decide)).1

/-! ## Texture loading: each path is loaded once -/

theorem path_find_eq_none {P : Type} [DecidableEq P] (S : List (P × Nat)) (k : P) :
    path_find S k = none ↔ k ∉ S.map Prod.fst := by
  unfold path_find
  rw [Option.map_eq_none', List.find?_eq_none]
  simp only [decide_eq_true_eq, List.mem_map, not_exists, not_and]

theorem path_find_mem {P : Type} [DecidableEq P] (S : List (P × Nat)) (k : P) (e : Nat)
    (h : path_find S k = some e) : (k, e) ∈ S := by
  unfold path_find at h
  rw [Option.map_eq_some'] at h
  obtain ⟨a, ha, hae⟩ := h
  have h1 := List.find?_some ha
  have h2 := List.mem_of_find?_eq_some ha
  simp only [decide_eq_true_eq] at h1
  have : a = (k, e) := Prod.ext h1 hae
  rw [← this]
  exact h2

theorem path_position {P : Type} (S : List (P × Nat))
    (hs : S.map Prod.snd = List.range S.length) (k : P) (e : Nat) (h : (k, e) ∈ S) :
    S[e]? = some (k, e) := by
  obtain ⟨p, hp, hpe⟩ := List.mem_iff_getElem.1 h
  have h1 : (S.map Prod.snd)[p]? = (List.range S.length)[p]? := by rw [hs]
  rw [List.getElem?_map, List.getElem?_eq_getElem hp, hpe,
    List.getElem?_eq_getElem (by simpa using hp), List.getElem_range] at h1
  simp only [Option.map_some', Option.some.injEq] at h1
  subst h1
  rw [List.getElem?_eq_getElem hp, hpe]

theorem LoadInv.textures_length {P : Type} [DecidableEq P] {read_texture : P → Except Fault Texture}
    {done : List P} {data : TextureMap P} (inv : LoadInv read_texture done data) :
    data.textures.length = data.map.length := by
  have := congrArg List.length inv.read
  simpa using this

theorem load_texture_ok {P : Type} [DecidableEq P] (read_texture : P → Except Fault Texture)
    (done : List P) (data : TextureMap P) (path : P) (t : Texture)
    (inv : LoadInv read_texture done data) (hread : read_texture path = .ok t) :
    ∃ data1, load_texture read_texture data path = .ok data1 ∧
      LoadInv read_texture (done ++ [path]) data1 := by
  have horder : (data.map.map Prod.fst).Pairwise
      (fun p q => (done ++ [path]).indexOf p < (done ++ [path]).indexOf q) := by
    refine List.Pairwise.imp_of_mem ?_ inv.order
    intro a b ha hb hab
    rw [List.indexOf_append_of_mem ((inv.mem a).1 ha),
      List.indexOf_append_of_mem ((inv.mem b).1 hb)]
    exact hab
  cases hfind : path_find data.map path with
  | some e =>
    refine ⟨data, ?_, ?_⟩
    · simp only [load_texture, hfind]
    · have hmem : path ∈ data.map.map Prod.fst :=
        List.mem_map.2 ⟨(path, e), path_find_mem _ _ _ hfind, rfl⟩
      refine ⟨inv.snd, inv.nodup, ?_, inv.read, horder⟩
      intro k
      rw [List.mem_append, List.mem_singleton, inv.mem]
      constructor
      · exact fun h => Or.inl h
      · rintro (h | h)
        · exact h
        · rw [h]; exact (inv.mem path).1 hmem
  | none =>
    have hnot : path ∉ data.map.map Prod.fst := (path_find_eq_none _ _).1 hfind
    have hnot1 : path ∉ done := fun h => hnot ((inv.mem path).2 h)
    refine ⟨⟨data.textures ++ [t], data.map ++ [(path, data.textures.length)]⟩, ?_, ?_⟩
    · simp only [load_texture, hfind, hread]
    · refine ⟨?_, ?_, ?_, ?_, ?_⟩
      · show (data.map ++ [(path, data.textures.length)]).map Prod.snd = _
        rw [List.map_append, inv.snd, List.length_append, List.length_singleton,
          List.range_succ, inv.textures_length]
        rfl
      · show ((data.map ++ [(path, data.textures.length)]).map Prod.fst).Nodup
        rw [List.map_append]
        refine List.Nodup.append inv.nodup (List.nodup_singleton _) ?_
        intro k hk hk1
        rw [List.map_singleton, List.mem_singleton] at hk1
        rw [hk1] at hk
        exact hnot hk
      · intro k
        show k ∈ (data.map ++ [(path, data.textures.length)]).map Prod.fst ↔ _
        rw [List.map_append, List.mem_append, List.mem_append, inv.mem]
        simp
      · show (data.textures ++ [t]).map _ = (data.map ++ [(path, data.textures.length)]).map _
        rw [List.map_append, List.map_append, inv.read]
        simp only [List.map_singleton, hread]
      · show ((data.map ++ [(path, data.textures.length)]).map Prod.fst).Pairwise _
        rw [List.map_append, List.pairwise_append]
        refine ⟨horder, List.pairwise_singleton _ _, ?_⟩
        intro a ha b hb
        rw [List.map_singleton, List.mem_singleton] at hb
        subst hb
        have ha1 : a ∈ done := (inv.mem a).1 ha
        rw [List.indexOf_append_of_mem ha1, List.indexOf_append_of_not_mem hnot1]
        have := List.indexOf_lt_length.2 ha1
        omega

theorem load_named_ok {P : Type} [DecidableEq P] (join : String → P)
    (read_texture : P → Except Fault Texture) (done : List P) (data : TextureMap P)
    (name : String) (inv : LoadInv read_texture done data)
    (hread : name ≠ "" → ∃ t, read_texture (join (fix_path name)) = .ok t) :
    ∃ data1, load_named join read_texture data name = .ok data1 ∧
      LoadInv read_texture
        (done ++ ([name].filter (fun n => n ≠ "")).map (fun n => join (fix_path n))) data1 := by
  unfold load_named
  by_cases h : name ≠ ""
  · obtain ⟨t, ht⟩ := hread h
    obtain ⟨data1, h1, inv1⟩ := load_texture_ok read_texture done data _ t inv ht
    refine ⟨data1, by rw [if_pos h]; exact h1, ?_⟩
    simpa [List.filter, h] using inv1
  · refine ⟨data, by rw [if_neg h], ?_⟩
    simpa [List.filter, h] using inv

theorem material_paths_eq {P : Type} (join : String → P) (material : material_t) :
    material_paths join material =
      ([material.diffuse_texname].filter (fun n => n ≠ "")).map (fun n => join (fix_path n))
      ++ (([material.normal_texname].filter (fun n => n ≠ "")).map (fun n => join (fix_path n))
      ++ ([material.specular_texname].filter (fun n => n ≠ "")).map
        (fun n => join (fix_path n))) := by
  unfold material_paths
  rw [← List.map_append, ← List.map_append, ← List.filter_append, ← List.filter_append]
  rfl

theorem load_material_ok {P : Type} [DecidableEq P] (join : String → P)
    (read_texture : P → Except Fault Texture) (done : List P) (data : TextureMap P)
    (material : material_t) (inv : LoadInv read_texture done data)
    (hread : ∀ p ∈ material_paths join material, ∃ t, read_texture p = .ok t) :
    ∃ data1, load_material join read_texture data material = .ok data1 ∧
      LoadInv read_texture (done ++ material_paths join material) data1 := by
  have hname : ∀ name, name ∈ [material.diffuse_texname, material.normal_texname,
      material.specular_texname] → name ≠ "" →
      ∃ t, read_texture (join (fix_path name)) = .ok t := by
    intro name hmem hne
    apply hread
    unfold material_paths
    exact List.mem_map.2 ⟨name, List.mem_filter.2 ⟨hmem, by simpa using hne⟩, rfl⟩
  obtain ⟨d1, h1, inv1⟩ := load_named_ok join read_texture done data
    material.diffuse_texname inv (hname _ (by simp))
  obtain ⟨d2, h2, inv2⟩ := load_named_ok join read_texture _ d1
    material.normal_texname inv1 (hname _ (by simp))
  obtain ⟨d3, h3, inv3⟩ := load_named_ok join read_texture _ d2
    material.specular_texname inv2 (hname _ (by simp))
  refine ⟨d3, ?_, ?_⟩
  · simp only [load_material, h1, h2, h3]
  · rw [material_paths_eq, ← List.append_assoc, ← List.append_assoc]
    exact inv3

theorem load_materials_ok {P : Type} [DecidableEq P] (join : String → P)
    (read_texture : P → Except Fault Texture) (materials : List material_t) :
    ∀ (done : List P) (data : TextureMap P), LoadInv read_texture done data →
      (∀ p ∈ referenced_paths join materials, ∃ t, read_texture p = .ok t) →
      ∃ data1, load_materials join read_texture materials data = .ok data1 ∧
        LoadInv read_texture (done ++ referenced_paths join materials) data1 := by
  induction materials with
  | nil =>
    intro done data inv _
    exact ⟨data, rfl, by simpa [referenced_paths] using inv⟩
  | cons material rest ih =>
    intro done data inv hread
    have hread1 : ∀ p ∈ material_paths join material, ∃ t, read_texture p = .ok t :=
      fun p hp => hread p (List.mem_append.2 (Or.inl hp))
    have hread2 : ∀ p ∈ referenced_paths join rest, ∃ t, read_texture p = .ok t :=
      fun p hp => hread p (List.mem_append.2 (Or.inr hp))
    obtain ⟨d1, h1, inv1⟩ := load_material_ok join read_texture done data material inv hread1
    obtain ⟨d2, h2, inv2⟩ := ih _ d1 inv1 hread2
    refine ⟨d2, ?_, ?_⟩
    · simp only [load_materials, h1, h2]
    · show LoadInv read_texture (done ++ (material_paths join material
        ++ referenced_paths join rest)) d2
      rw [← List.append_assoc]
      exact inv2

theorem fix_path_eq (name : String) :
    fix_path name = String.mk (name.toList.map slash_of_backslash) := by
  unfold fix_path
  rw [String.map_eq]
  rfl

theorem fix_path_toList (name : String) :
    (fix_path name).toList = name.toList.map slash_of_backslash := by
  rw [fix_path_eq]
  rfl

theorem fix_path_no_backslash (name : String) : Char.ofNat 92 ∉ (fix_path name).toList := by
  rw [fix_path_toList]
  intro h
  obtain ⟨c, _, hc⟩ := List.mem_map.1 h
  unfold slash_of_backslash at hc
  split_ifs at hc with h92
  · exact absurd hc (by decide)
  · exact h92 hc

theorem referenced_paths_eq_names {P : Type} (join : String → P)
    (materials : List material_t) :
    referenced_paths join materials =
      (texture_names materials).map (fun name => join (fix_path name)) := by
  induction materials with
  | nil => rfl
  | cons material rest ih =>
    show material_paths join material ++ referenced_paths join rest = _
    rw [ih]
    simp only [texture_names, List.map_append]
    rfl

/-- C15: when every referenced texture file can be read, `load_textures` returns
a texture list with one entry per distinct referenced path, each entry read
from its path.  The referenced paths are the non-empty diffuse, normal and
specular names of all materials, each with every backslash replaced by a slash
and every other character kept, joined to the directory; so two names that
differ only in backslash against slash are one path, with one map entry and one
texture.  The keys of the map are those paths without repetition, the map is
injective with every value below the length of the texture list, and indices
follow the order of first reference. -/
theorem load_textures_deduplicates {P : Type} [DecidableEq P] (join : String → P)
    (read_texture : P → Except Fault Texture) (materials : List material_t)
    (hread : ∀ p ∈ referenced_paths join materials, ∃ t, read_texture p = .ok t) :
    ∃ data : TextureMap P, load_textures join read_texture materials = .ok data ∧
      data.textures.length = (referenced_paths join materials).dedup.length ∧
      (data.map.map Prod.fst).Nodup ∧
      (∀ p, p ∈ referenced_paths join materials ↔ ∃ i, path_find data.map p = some i) ∧
      (∀ p i, path_find data.map p = some i →
        ∃ t, data.textures[i]? = some t ∧ read_texture p = .ok t) ∧
      (∀ p q i, path_find data.map p = some i → path_find data.map q = some i → p = q) ∧
      (∀ p q i j, path_find data.map p = some i → path_find data.map q = some j →
        (i < j ↔ (referenced_paths join materials).indexOf p
          < (referenced_paths join materials).indexOf q)) ∧
      referenced_paths join materials =
        (texture_names materials).map
          (fun name => join (String.mk (name.toList.map slash_of_backslash))) ∧
      (∀ name : String, (fix_path name).toList = name.toList.map slash_of_backslash ∧
        Char.ofNat 92 ∉ (fix_path name).toList) ∧
      (∀ n1 ∈ texture_names materials, ∀ n2 ∈ texture_names materials,
        n1.toList.map slash_of_backslash = n2.toList.map slash_of_backslash →
        ∃ i t, path_find data.map (join (fix_path n1)) = some i ∧
          path_find data.map (join (fix_path n2)) = some i ∧
          data.textures[i]? = some t) := by
  have hinit : LoadInv read_texture ([] : List P) ⟨[], []⟩ :=
    ⟨rfl, List.nodup_nil, fun k => by simp, rfl, List.Pairwise.nil⟩
  obtain ⟨data, hrun, inv⟩ := load_materials_ok join read_texture materials [] ⟨[], []⟩
    hinit hread
  rw [List.nil_append] at inv
  have hpos : ∀ p i, path_find data.map p = some i → data.map[i]? = some (p, i) :=
    fun p i h => path_position data.map inv.snd p i (path_find_mem _ _ _ h)
  have hkey : ∀ p i, path_find data.map p = some i →
      ∃ h : i < (data.map.map Prod.fst).length, (data.map.map Prod.fst)[i] = p := by
    intro p i h
    have h1 := hpos p i h
    obtain ⟨hi, he⟩ := List.getElem?_eq_some.1 h1
    refine ⟨by simpa using hi, ?_⟩
    rw [List.getElem_map, he]
  have hmemref : ∀ p i, path_find data.map p = some i → p ∈ referenced_paths join materials :=
    fun p i h => (inv.mem p).1 (List.mem_map.2 ⟨(p, i), path_find_mem _ _ _ h, rfl⟩)
  have hlt : ∀ p q i j, path_find data.map p = some i → path_find data.map q = some j →
      i < j → (referenced_paths join materials).indexOf p
        < (referenced_paths join materials).indexOf q := by
    intro p q i j hp hq hij
    obtain ⟨hi, hpi⟩ := hkey p i hp
    obtain ⟨hj, hqj⟩ := hkey q j hq
    have := List.pairwise_iff_getElem.1 inv.order i j hi hj hij
    rw [hpi, hqj] at this
    exact this
  have hfound : ∀ p, p ∈ referenced_paths join materials →
      ∃ i, path_find data.map p = some i := by
    intro p hp
    cases hf : path_find data.map p with
    | some i => exact ⟨i, rfl⟩
    | none => exact absurd ((inv.mem p).2 hp) ((path_find_eq_none _ _).1 hf)
  have htex : ∀ p i, path_find data.map p = some i →
      ∃ t, data.textures[i]? = some t ∧ read_texture p = .ok t := by
    intro p i h
    have h1 := hpos p i h
    have hi : i < data.textures.length := by
      rw [inv.textures_length]; exact (List.getElem?_eq_some.1 h1).1
    refine ⟨data.textures[i], List.getElem?_eq_getElem hi, ?_⟩
    have hb := congrArg (fun l => l[i]?) inv.read
    simp only [List.getElem?_map, h1, List.getElem?_eq_getElem hi, Option.map_some',
      Option.some.injEq] at hb
    exact hb.symm
  refine ⟨data, hrun, ?_, inv.nodup, ?_, htex, ?_, ?_, ?_, ?_, ?_⟩
  rotate_left 4
  · rw [referenced_paths_eq_names]
    exact List.map_congr_left (fun name _ => by rw [fix_path_eq])
  · exact fun name => ⟨fix_path_toList name, fix_path_no_backslash name⟩
  · intro n1 h1 n2 h2 heq
    have hsame : fix_path n1 = fix_path n2 := by
      rw [fix_path_eq, fix_path_eq, heq]
    have hmem : join (fix_path n1) ∈ referenced_paths join materials := by
      rw [referenced_paths_eq_names]
      exact List.mem_map.2 ⟨n1, h1, rfl⟩
    obtain ⟨i, hi⟩ := hfound _ hmem
    obtain ⟨t, ht, _⟩ := htex _ i hi
    exact ⟨i, t, hi, hsame ▸ hi, ht⟩
  · have hset : (data.map.map Prod.fst).toFinset
        = (referenced_paths join materials).toFinset := by
      ext k
      rw [List.mem_toFinset, List.mem_toFinset, inv.mem]
    rw [inv.textures_length, ← List.card_toFinset, ← hset, List.toFinset_card_of_nodup inv.nodup,
      List.length_map]
  · intro p
    constructor
    · exact hfound p
    · rintro ⟨i, hi⟩
      exact hmemref p i hi
  · intro p q i hp hq
    have h1 := hpos p i hp
    have h2 := hpos q i hq
    rw [h1] at h2
    exact (Prod.mk.inj (Option.some.inj h2)).1
  · intro p q i j hp hq
    constructor
    · exact hlt p q i j hp hq
    · intro h
      by_contra hij
      rcases Nat.lt_or_eq_of_le (not_lt.1 hij) with hji | hji
      · have := hlt q p j i hq hp hji
        omega
      · subst hji
        have h1 := hpos p j hp
        have h2 := hpos q j hq
        rw [h1] at h2
        have hpq : p = q := (Prod.mk.inj (Option.some.inj h2)).1
        subst hpq
        omega

theorem load_textures_deduplicates_witness :
    ∃ data : TextureMap String,
      load_textures (fun name => name) (fun _ => .ok ⟨1⟩)
        [⟨String.mk ['t', Char.ofNat 92, 'a'], "", "t/a"⟩, ⟨"b", "t/a", ""⟩] = .ok data ∧
      data.textures.length = 2 ∧
      path_find data.map "t/a" = some 0 ∧ path_find data.map "b" = some 1 := by
  obtain ⟨data, h1, h2, h3, h4, h5, h6, h7, h8, h9, h10⟩ :=
    load_textures_deduplicates (fun name : String => name) (fun _ => .ok ⟨1⟩)
      [⟨String.mk ['t', Char.ofNat 92, 'a'], "", "t/a"⟩, ⟨"b", "t/a", ""⟩]
      (fun _ _ => ⟨⟨1⟩, rfl⟩)
  have hr : referenced_paths (fun name : String => name)
      [⟨String.mk ['t', Char.ofNat 92, 'a'], "", "t/a"⟩, ⟨"b", "t/a", ""⟩]
        = ["t/a", "t/a", "b", "t/a"] := by
    rw [h8]
    decide
  rw [hr] at h2 h4 h7
  obtain ⟨i, hi⟩ := (h4 "t/a").1 (by decide)
  obtain ⟨j, hj⟩ := (h4 "b").1 (by decide)
  have hij : i < j := (h7 "t/a" "b" i j hi hj).2 (by decide)
  obtain ⟨t, ht, _⟩ := h5 "b" j hj
  have hj2 : j < data.textures.length := (List.getElem?_eq_some.1 ht).1
  have hlen : data.textures.length = 2 := by rw [h2]; decide
  have hj1 : j = 1 := by omega
  have hi0 : i = 0 := by omega
  subst hj1 hi0
  exact ⟨data, h1, hlen, hi, hj⟩

/-! ## Tangents: the tangent of a face solves the UV system -/

theorem set_tangent_getElem? {F : Type} (V : List (Vertex F)) (i : Nat) (t : Vec3 F)
    (j : Nat) :
    (set_tangent V i t)[j]? =
      (V[j]?).map (fun v => if i = j then { v with tex_tangent := t } else v) := by
  unfold set_tangent
  rw [List.getElem?_modify]
  rfl

theorem generate_tangents_getElem? {F : Type} [LinearOrderedField F] (V V1 : List (Vertex F))
    (face : UVec3) (v0 v1 v2 : Vertex F) (h0 : V[face.x]? = some v0)
    (h1 : V[face.y]? = some v1) (h2 : V[face.z]? = some v2)
    (hrun : generate_tangents V face = .ok V1) (j : Nat) :
    V1[j]? = (V[j]?).map (fun v =>
      if face.x = j ∨ face.y = j ∨ face.z = j then
        { v with tex_tangent := face_tangent v0 v1 v2 }
      else v) := by
  unfold generate_tangents at hrun
  simp only [h0, h1, h2, Except.ok.injEq] at hrun
  subst hrun
  rw [set_tangent_getElem?, set_tangent_getElem?, set_tangent_getElem?]
  cases V[j]? with
  | none => rfl
  | some v =>
    simp only [Option.map_some', Option.some.injEq]
    by_cases hx : face.x = j <;> by_cases hy : face.y = j <;> by_cases hz : face.z = j <;>
      simp [hx, hy, hz]

theorem generate_tangents_run {F : Type} [LinearOrderedField F] (V : List (Vertex F))
    (face : UVec3) (v0 v1 v2 : Vertex F) (h0 : V[face.x]? = some v0)
    (h1 : V[face.y]? = some v1) (h2 : V[face.z]? = some v2) :
    ∃ V1, generate_tangents V face = .ok V1 := by
  unfold generate_tangents
  simp only [h0, h1, h2]
  exact ⟨_, rfl⟩

/-- C18: for a face whose three indices are in range and whose UV deltas have a
non-zero determinant, `generate_tangents` returns, the tangent `T` it computes
solves the system over exact arithmetic (there is a bitangent `B` with
`e1 = du1 * T + dv1 * B` and `e2 = du2 * T + dv2 * B`), and `T` is the tangent
stored in each of the three vertices of the face. -/
theorem generate_tangents_solves_system {F : Type} [LinearOrderedField F]
    (V : List (Vertex F)) (face : UVec3) (v0 v1 v2 : Vertex F)
    (h0 : V[face.x]? = some v0) (h1 : V[face.y]? = some v1) (h2 : V[face.z]? = some v2)
    (hdet : (v1.tex_coord.x - v0.tex_coord.x) * (v2.tex_coord.y - v0.tex_coord.y)
      - (v2.tex_coord.x - v0.tex_coord.x) * (v1.tex_coord.y - v0.tex_coord.y) ≠ 0) :
    ∃ (V1 : List (Vertex F)) (T B : Vec3 F) (w0 w1 w2 : Vertex F),
      generate_tangents V face = .ok V1 ∧ T = face_tangent v0 v1 v2 ∧
      v1.position.sub v0.position =
        (T.scale (v1.tex_coord.x - v0.tex_coord.x)).add
          (B.scale (v1.tex_coord.y - v0.tex_coord.y)) ∧
      v2.position.sub v0.position =
        (T.scale (v2.tex_coord.x - v0.tex_coord.x)).add
          (B.scale (v2.tex_coord.y - v0.tex_coord.y)) ∧
      V1[face.x]? = some w0 ∧ V1[face.y]? = some w1 ∧ V1[face.z]? = some w2 ∧
      w0.tex_tangent = T ∧ w1.tex_tangent = T ∧ w2.tex_tangent = T := by
  obtain ⟨V1, hrun⟩ := generate_tangents_run V face v0 v1 v2 h0 h1 h2
  have hget := generate_tangents_getElem? V V1 face v0 v1 v2 h0 h1 h2 hrun
  set f : F := 1 / ((v1.tex_coord.x - v0.tex_coord.x) * (v2.tex_coord.y - v0.tex_coord.y)
      - (v2.tex_coord.x - v0.tex_coord.x) * (v1.tex_coord.y - v0.tex_coord.y)) with hf
  refine ⟨V1, face_tangent v0 v1 v2,
    ⟨f * ((v1.tex_coord.x - v0.tex_coord.x) * (v2.position.x - v0.position.x)
        - (v2.tex_coord.x - v0.tex_coord.x) * (v1.position.x - v0.position.x)),
     f * ((v1.tex_coord.x - v0.tex_coord.x) * (v2.position.y - v0.position.y)
        - (v2.tex_coord.x - v0.tex_coord.x) * (v1.position.y - v0.position.y)),
     f * ((v1.tex_coord.x - v0.tex_coord.x) * (v2.position.z - v0.position.z)
        - (v2.tex_coord.x - v0.tex_coord.x) * (v1.position.z - v0.position.z))⟩,
    { v0 with tex_tangent := face_tangent v0 v1 v2 },
    { v1 with tex_tangent := face_tangent v0 v1 v2 },
    { v2 with tex_tangent := face_tangent v0 v1 v2 },
    hrun, rfl, ?_, ?_, ?_, ?_, ?_, rfl, rfl, rfl⟩
  · simp only [face_tangent, Vec3.sub, Vec2.sub, Vec3.scale, Vec3.add, Vec3.mk.injEq, hf]
    refine ⟨?_, ?_, ?_⟩ <;> field_simp <;> ring
  · simp only [face_tangent, Vec3.sub, Vec2.sub, Vec3.scale, Vec3.add, Vec3.mk.injEq, hf]
    refine ⟨?_, ?_, ?_⟩ <;> field_simp <;> ring
  · rw [hget, h0]; simp
  · rw [hget, h1]; simp
  · rw [hget, h2]; simp

theorem generate_tangents_solves_system_witness :
    ∃ (V1 : List (Vertex ℚ)) (T : Vec3 ℚ),
      generate_tangents
        [⟨⟨0, 0, 0⟩, ⟨0, 0, 1⟩, ⟨0, 0⟩, ⟨0, 0, 0⟩⟩, ⟨⟨2, 0, 0⟩, ⟨0, 0, 1⟩, ⟨1, 0⟩, ⟨0, 0, 0⟩⟩,
         ⟨⟨0, 3, 0⟩, ⟨0, 0, 1⟩, ⟨0, 1⟩, ⟨0, 0, 0⟩⟩] ⟨0, 1, 2⟩ = .ok V1 ∧
      T = face_tangent (⟨⟨0, 0, 0⟩, ⟨0, 0, 1⟩, ⟨0, 0⟩, ⟨0, 0, 0⟩⟩ : Vertex ℚ)
        ⟨⟨2, 0, 0⟩, ⟨0, 0, 1⟩, ⟨1, 0⟩, ⟨0, 0, 0⟩⟩ ⟨⟨0, 3, 0⟩, ⟨0, 0, 1⟩, ⟨0, 1⟩, ⟨0, 0, 0⟩⟩ := by
  obtain ⟨V1, T, _, _, _, _, hrun, hT, _⟩ :=
    generate_tangents_solves_system
      ([⟨⟨0, 0, 0⟩, ⟨0, 0, 1⟩, ⟨0, 0⟩, ⟨0, 0, 0⟩⟩, ⟨⟨2, 0, 0⟩, ⟨0, 0, 1⟩, ⟨1, 0⟩, ⟨0, 0, 0⟩⟩,
        ⟨⟨0, 3, 0⟩, ⟨0, 0, 1⟩, ⟨0, 1⟩, ⟨0, 0, 0⟩⟩] : List (Vertex ℚ)) ⟨0, 1, 2⟩
      ⟨⟨0, 0, 0⟩, ⟨0, 0, 1⟩, ⟨0, 0⟩, ⟨0, 0, 0⟩⟩ ⟨⟨2, 0, 0⟩, ⟨0, 0, 1⟩, ⟨1, 0⟩, ⟨0, 0, 0⟩⟩
      ⟨⟨0, 3, 0⟩, ⟨0, 0, 1⟩, ⟨0, 1⟩, ⟨0, 0, 0⟩⟩ rfl rfl rfl (by norm_num)
  exact ⟨V1, T, hrun, hT⟩

/-! ## Camera: the view basis is orthonormal -/

theorem Vec3.dot_self_nonneg {F : Type} [LinearOrderedField F] (v : Vec3 F) : 0 ≤ v.dot v :=
  add_nonneg (add_nonneg (mul_self_nonneg _) (mul_self_nonneg _)) (mul_self_nonneg _)

theorem Vec3.dot_scale_left {F : Type} [LinearOrderedField F] (a b : Vec3 F) (k : F) :
    (a.scale k).dot b = k * a.dot b := by
  simp only [Vec3.scale, Vec3.dot]
  ring

theorem Vec3.dot_comm {F : Type} [LinearOrderedField F] (a b : Vec3 F) : a.dot b = b.dot a := by
  simp only [Vec3.dot]
  ring

theorem Vec3.cross_dot_left {F : Type} [LinearOrderedField F] (a b : Vec3 F) :
    (a.cross b).dot a = 0 := by
  simp only [Vec3.cross, Vec3.dot]
  ring

theorem Vec3.cross_dot_right {F : Type} [LinearOrderedField F] (a b : Vec3 F) :
    (a.cross b).dot b = 0 := by
  simp only [Vec3.cross, Vec3.dot]
  ring

theorem Vec3.cross_dot_self {F : Type} [LinearOrderedField F] (a b : Vec3 F) :
    (a.cross b).dot (a.cross b) = a.dot a * b.dot b - a.dot b * a.dot b := by
  simp only [Vec3.cross, Vec3.dot]
  ring

theorem sqrt_one_eq {F : Type} [LinearOrderedField F] (m : Libm F)
    (hsqrt : ∀ x : F, 0 ≤ x → 0 ≤ m.sqrt x ∧ m.sqrt x * m.sqrt x = x) : m.sqrt 1 = 1 := by
  have := sqrt_mul_self m hsqrt 1 zero_le_one
  rwa [mul_one] at this

theorem Vec3.normalize_of_unit {F : Type} [LinearOrderedField F] (m : Libm F)
    (hsqrt : ∀ x : F, 0 ≤ x → 0 ≤ m.sqrt x ∧ m.sqrt x * m.sqrt x = x) (v : Vec3 F)
    (h : v.dot v = 1) : Vec3.normalize m v = v := by
  unfold Vec3.normalize
  rw [h, sqrt_one_eq m hsqrt]
  simp [Vec3.scale]

theorem Vec3.normalize_dot_self {F : Type} [LinearOrderedField F] (m : Libm F)
    (hsqrt : ∀ x : F, 0 ≤ x → 0 ≤ m.sqrt x ∧ m.sqrt x * m.sqrt x = x) (v : Vec3 F)
    (h : v.dot v ≠ 0) : (Vec3.normalize m v).dot (Vec3.normalize m v) = 1 := by
  obtain ⟨_, hs⟩ := hsqrt (v.dot v) v.dot_self_nonneg
  have hne : m.sqrt (v.dot v) ≠ 0 := by
    intro h0
    rw [h0, mul_zero] at hs
    exact h hs.symm
  unfold Vec3.normalize
  rw [Vec3.dot_scale_left, Vec3.dot_comm v (v.scale _), Vec3.dot_scale_left]
  generalize m.sqrt (v.dot v) = s at hs hne
  rw [← hs]
  field_simp

theorem Vec3.length_of_unit {F : Type} [LinearOrderedField F] (m : Libm F)
    (hsqrt : ∀ x : F, 0 ≤ x → 0 ≤ m.sqrt x ∧ m.sqrt x * m.sqrt x = x) (v : Vec3 F)
    (h : v.dot v = 1) : Vec3.length m v = 1 := by
  unfold Vec3.length
  rw [h, sqrt_one_eq m hsqrt]

theorem Camera.rotate_orthonormal {F : Type} [LinearOrderedField F] (m : Libm F)
    (hsqrt : ∀ x : F, 0 ≤ x → 0 ≤ m.sqrt x ∧ m.sqrt x * m.sqrt x = x)
    (htrig : ∀ x : F, m.cos x * m.cos x + m.sin x * m.sin x = 1)
    (c : Camera F) (pitch yaw : F)
    (hcos : m.cos (radians (clamp (c._pitch + pitch) (-89) 89)) ≠ 0) :
    (c.rotate m pitch yaw).orthonormal m ∧
    (c.rotate m pitch yaw)._view_dir.cross ⟨0, 1, 0⟩ ≠ ⟨0, 0, 0⟩ := by
  set p := clamp (c._pitch + pitch) (-89) 89 with hp
  set y := c._yaw + yaw with hy
  set look : Vec3 F := ⟨m.cos (radians y) * m.cos (radians p), m.sin (radians p),
    m.sin (radians y) * m.cos (radians p)⟩ with hlook
  have hlook1 : look.dot look = 1 := by
    have h1 := htrig (radians y)
    have h2 := htrig (radians p)
    simp only [Vec3.dot, hlook]
    calc m.cos (radians y) * m.cos (radians p) * (m.cos (radians y) * m.cos (radians p))
          + m.sin (radians p) * m.sin (radians p)
          + m.sin (radians y) * m.cos (radians p) * (m.sin (radians y) * m.cos (radians p))
        = (m.cos (radians y) * m.cos (radians y) + m.sin (radians y) * m.sin (radians y))
            * (m.cos (radians p) * m.cos (radians p))
          + m.sin (radians p) * m.sin (radians p) := by ring
      _ = 1 := by rw [h1, one_mul, h2]
  have hview : (c.rotate m pitch yaw)._view_dir = look :=
    Vec3.normalize_of_unit m hsqrt look hlook1
  have hright : (c.rotate m pitch yaw)._right_dir
      = Vec3.normalize m ((c.rotate m pitch yaw)._view_dir.cross ⟨0, 1, 0⟩) := rfl
  have hup : (c.rotate m pitch yaw)._up_dir
      = Vec3.normalize m ((c.rotate m pitch yaw)._right_dir.cross
          (c.rotate m pitch yaw)._view_dir) := rfl
  have hw : (look.cross ⟨0, 1, 0⟩).dot (look.cross ⟨0, 1, 0⟩)
      = m.cos (radians p) * m.cos (radians p) := by
    have h1 := htrig (radians y)
    simp only [Vec3.dot, Vec3.cross, hlook]
    calc _ = (m.cos (radians y) * m.cos (radians y) + m.sin (radians y) * m.sin (radians y))
            * (m.cos (radians p) * m.cos (radians p)) := by ring
      _ = _ := by rw [h1, one_mul]
  have hwne : (look.cross ⟨0, 1, 0⟩).dot (look.cross ⟨0, 1, 0⟩) ≠ 0 := by
    rw [hw]
    exact mul_ne_zero hcos hcos
  rw [hview] at hright
  have hrr : (c.rotate m pitch yaw)._right_dir.dot (c.rotate m pitch yaw)._right_dir = 1 := by
    rw [hright]
    exact Vec3.normalize_dot_self m hsqrt _ hwne
  have hrv : (c.rotate m pitch yaw)._right_dir.dot look = 0 := by
    rw [hright]
    unfold Vec3.normalize
    rw [Vec3.dot_scale_left, Vec3.cross_dot_left, mul_zero]
  rw [hview] at hup
  have huu : ((c.rotate m pitch yaw)._right_dir.cross look).dot
      ((c.rotate m pitch yaw)._right_dir.cross look) = 1 := by
    rw [Vec3.cross_dot_self, hrr, hlook1, hrv]
    ring
  have hup1 : (c.rotate m pitch yaw)._up_dir = (c.rotate m pitch yaw)._right_dir.cross look := by
    rw [hup]
    exact Vec3.normalize_of_unit m hsqrt _ huu
  refine ⟨⟨?_, ?_, ?_, ?_, ?_, ?_⟩, ?_⟩
  · rw [hview]; exact Vec3.length_of_unit m hsqrt _ hlook1
  · exact Vec3.length_of_unit m hsqrt _ hrr
  · rw [hup1]; exact Vec3.length_of_unit m hsqrt _ huu
  · rw [hview, Vec3.dot_comm]; exact hrv
  · rw [hview, hup1, Vec3.dot_comm]; exact Vec3.cross_dot_right _ _
  · rw [hup1, Vec3.dot_comm]; exact Vec3.cross_dot_left _ _
  · rw [hview]
    intro h0
    apply hwne
    rw [h0]
    simp [Vec3.dot]

theorem real_cos_radians_pos (p : ℝ) (hlo : -89 ≤ p) (hhi : p ≤ 89) :
    0 < Real.cos (radians p) := by
  apply Real.cos_pos_of_mem_Ioo
  have hpi := Real.pi_gt_d2
  have hc : (0 : ℝ) < 1745329251994329576923690768489 / 10 ^ 32 := by norm_num
  have h1 : p * (1745329251994329576923690768489 / 10 ^ 32)
      ≤ 89 * (1745329251994329576923690768489 / 10 ^ 32) :=
    mul_le_mul_of_nonneg_right hhi hc.le
  have h2 : -89 * (1745329251994329576923690768489 / 10 ^ 32)
      ≤ p * (1745329251994329576923690768489 / 10 ^ 32) :=
    mul_le_mul_of_nonneg_right hlo hc.le
  have h3 : (89 : ℝ) * (1745329251994329576923690768489 / 10 ^ 32) < 3.14 / 2 := by norm_num
  unfold radians
  constructor
  · linarith
  · linarith

/-- C17: over the real numbers, with the exact square root, cosine and sine,
the freshly constructed camera and the camera after any `rotate` call have view,
right and up vectors of length 1 that are pairwise orthogonal, where right is
`normalize(cross(view, (0, 1, 0)))` and up is `normalize(cross(right, view))`;
the cross product `cross(view, (0, 1, 0))` is not the zero vector. -/
theorem camera_basis_orthonormal (c : Camera ℝ) (pitch yaw : ℝ) :
    (Camera.new : Camera ℝ).orthonormal ⟨Real.sqrt, Real.cos, Real.sin⟩ ∧
    (c.rotate ⟨Real.sqrt, Real.cos, Real.sin⟩ pitch yaw).orthonormal
      ⟨Real.sqrt, Real.cos, Real.sin⟩ ∧
    (c.rotate ⟨Real.sqrt, Real.cos, Real.sin⟩ pitch yaw)._view_dir.cross ⟨0, 1, 0⟩
      ≠ ⟨0, 0, 0⟩ ∧
    (c.rotate ⟨Real.sqrt, Real.cos, Real.sin⟩ pitch yaw)._right_dir =
      Vec3.normalize ⟨Real.sqrt, Real.cos, Real.sin⟩
        ((c.rotate ⟨Real.sqrt, Real.cos, Real.sin⟩ pitch yaw)._view_dir.cross ⟨0, 1, 0⟩) ∧
    (c.rotate ⟨Real.sqrt, Real.cos, Real.sin⟩ pitch yaw)._up_dir =
      Vec3.normalize ⟨Real.sqrt, Real.cos, Real.sin⟩
        ((c.rotate ⟨Real.sqrt, Real.cos, Real.sin⟩ pitch yaw)._right_dir.cross
          (c.rotate ⟨Real.sqrt, Real.cos, Real.sin⟩ pitch yaw)._view_dir) := by
  have hsqrt : ∀ x : ℝ, 0 ≤ x →
      0 ≤ (⟨Real.sqrt, Real.cos, Real.sin⟩ : Libm ℝ).sqrt x ∧
      (⟨Real.sqrt, Real.cos, Real.sin⟩ : Libm ℝ).sqrt x
        * (⟨Real.sqrt, Real.cos, Real.sin⟩ : Libm ℝ).sqrt x = x :=
    fun x hx => ⟨Real.sqrt_nonneg x, Real.mul_self_sqrt hx⟩
  have htrig : ∀ x : ℝ, Real.cos x * Real.cos x + Real.sin x * Real.sin x = 1 := by
    intro x
    have := Real.cos_sq_add_sin_sq x
    rw [sq, sq] at this
    exact this
  have hclamp := clamp_mem (c._pitch + pitch) (-89 : ℝ) 89 (by norm_num)
  have hcos := real_cos_radians_pos _ hclamp.1 hclamp.2
  obtain ⟨horth, hcross⟩ := Camera.rotate_orthonormal ⟨Real.sqrt, Real.cos, Real.sin⟩ hsqrt
    htrig c pitch yaw hcos.ne'
  refine ⟨?_, horth, hcross, rfl, rfl⟩
  have h1 : ∀ v : Vec3 ℝ, v.dot v = 1 →
      Vec3.length ⟨Real.sqrt, Real.cos, Real.sin⟩ v = 1 :=
    fun v hv => Vec3.length_of_unit _ hsqrt v hv
  refine ⟨h1 _ ?_, h1 _ ?_, h1 _ ?_, ?_, ?_, ?_⟩ <;> simp [Camera.new, Vec3.dot]

/-! ## Mesh generation: a shared vertex keeps the tangent of its last face -/

theorem gen_mesh_corner_shape {F : Type} [LinearOrderedField F] (s : mesh_t)
    (attrib : attrib_t F) (offset v : Nat) (V V1 : List (Vertex F))
    (S S1 : List (index_t × Nat)) (face face1 : UVec3)
    (h : gen_mesh_corner s attrib offset (V, S, face) v = .ok (V1, S1, face1)) :
    ∃ (n : List (Vertex F)) (e : Nat), V1 = V ++ n ∧ face.set v e = .ok face1 ∧
      (n = [] ∨ (n.length = 1 ∧ e = V.length % 2 ^ 32)) := by
  unfold gen_mesh_corner at h
  cases hidx : s.indices[offset + v]? with
  | none => simp [hidx] at h
  | some idx =>
    simp only [hidx] at h
    cases hfind : seen_find S idx with
    | some e =>
      simp only [hfind, bind, Except.bind, pure, Except.pure] at h
      cases hset : face.set v e with
      | error err => simp [hset] at h
      | ok f1 =>
        simp only [hset, Except.ok.injEq, Prod.mk.injEq] at h
        obtain ⟨h1, _, h3⟩ := h
        subst h1 h3
        exact ⟨[], e, by simp, hset, Or.inl rfl⟩
    | none =>
      simp only [hfind, bind, Except.bind, pure, Except.pure] at h
      cases hg : gen_vertex attrib idx with
      | error err => simp [hg] at h
      | ok g =>
        have h232 : (2 : Nat) ^ 32 = 4294967296 := by norm_num
        simp only [hg, h232] at h
        cases hset : face.set v (V.length % 4294967296) with
        | error err => simp [hset] at h
        | ok f1 =>
          simp only [hset, Except.ok.injEq, Prod.mk.injEq] at h
          obtain ⟨h1, _, h3⟩ := h
          subst h1 h3
          exact ⟨[g], _, rfl, hset, Or.inr ⟨rfl, by norm_num⟩⟩

theorem gen_mesh_face_shape {F : Type} [LinearOrderedField F] (s : mesh_t)
    (attrib : attrib_t F) (st st1 : GenMeshState F)
    (h : gen_mesh_face s attrib st 3 = .ok st1) :
    ∃ (n0 n1 n2 : List (Vertex F)) (e0 e1 e2 : Nat),
      generate_tangents (st.vertices ++ n0 ++ n1 ++ n2) ⟨e0, e1, e2⟩ = .ok st1.vertices ∧
      st1.indices = st.indices ++ [⟨e0, e1, e2⟩] ∧
      (n0 = [] ∨ (n0.length = 1 ∧ e0 = st.vertices.length % 2 ^ 32)) ∧
      (n1 = [] ∨ (n1.length = 1 ∧ e1 = (st.vertices ++ n0).length % 2 ^ 32)) ∧
      (n2 = [] ∨ (n2.length = 1 ∧ e2 = (st.vertices ++ n0 ++ n1).length % 2 ^ 32)) := by
  have hrange3 : List.range 3 = [0, 1, 2] := rfl
  unfold gen_mesh_face at h
  rw [hrange3] at h
  simp only [gen_mesh_corners] at h
  cases hc0 : gen_mesh_corner s attrib st.offset (st.vertices, st.seen, ⟨0, 0, 0⟩) 0 with
  | error err => simp [hc0] at h
  | ok a1 =>
    obtain ⟨V1, S1, f1⟩ := a1
    simp only [hc0] at h
    cases hc1 : gen_mesh_corner s attrib st.offset (V1, S1, f1) 1 with
    | error err => simp [hc1] at h
    | ok a2 =>
      obtain ⟨V2, S2, f2⟩ := a2
      simp only [hc1] at h
      cases hc2 : gen_mesh_corner s attrib st.offset (V2, S2, f2) 2 with
      | error err => simp [hc2] at h
      | ok a3 =>
        obtain ⟨V3, S3, f3⟩ := a3
        simp only [hc2] at h
        cases ht : generate_tangents V3 f3 with
        | error err => simp [ht] at h
        | ok V4 =>
          simp only [ht, Except.ok.injEq] at h
          subst h
          obtain ⟨n0, e0, hV1, hs0, hn0⟩ := gen_mesh_corner_shape s attrib _ 0 _ _ _ _ _ _ hc0
          obtain ⟨n1, e1, hV2, hs1, hn1⟩ := gen_mesh_corner_shape s attrib _ 1 _ _ _ _ _ _ hc1
          obtain ⟨n2, e2, hV3, hs2, hn2⟩ := gen_mesh_corner_shape s attrib _ 2 _ _ _ _ _ _ hc2
          simp only [UVec3.set, if_true, Except.ok.injEq] at hs0
          subst hs0
          simp only [UVec3.set, if_true, Except.ok.injEq, one_ne_zero, if_false] at hs1
          subst hs1
          simp only [UVec3.set, if_true, Except.ok.injEq, OfNat.ofNat_ne_zero,
            OfNat.ofNat_ne_one, if_false] at hs2
          subst hs2
          subst hV1 hV2 hV3
          exact ⟨n0, n1, n2, e0, e1, e2, ht, rfl, hn0, hn1, hn2⟩

theorem generate_tangents_inv {F : Type} [LinearOrderedField F] (V V1 : List (Vertex F))
    (face : UVec3) (h : generate_tangents V face = .ok V1) :
    ∃ v0 v1 v2, V[face.x]? = some v0 ∧ V[face.y]? = some v1 ∧ V[face.z]? = some v2 := by
  unfold generate_tangents at h
  cases h0 : V[face.x]? with
  | none => simp [h0] at h
  | some v0 =>
    cases h1 : V[face.y]? with
    | none => simp [h0, h1] at h
    | some v1 =>
      cases h2 : V[face.z]? with
      | none => simp [h0, h1, h2] at h
      | some v2 => exact ⟨v0, v1, v2, rfl, rfl, rfl⟩

theorem face_tangent_congr {F : Type} [LinearOrderedField F] (a0 a1 a2 b0 b1 b2 : Vertex F)
    (h0 : a0.position = b0.position ∧ a0.tex_coord = b0.tex_coord)
    (h1 : a1.position = b1.position ∧ a1.tex_coord = b1.tex_coord)
    (h2 : a2.position = b2.position ∧ a2.tex_coord = b2.tex_coord) :
    face_tangent a0 a1 a2 = face_tangent b0 b1 b2 := by
  unfold face_tangent
  rw [h0.1, h0.2, h1.1, h1.2, h2.1, h2.2]

theorem getElem?_append_of_some {α : Type} (l1 l2 : List α) (j : Nat) (a : α)
    (h : l1[j]? = some a) : (l1 ++ l2)[j]? = some a := by
  rw [List.getElem?_append_left (List.getElem?_eq_some.1 h).1]
  exact h

theorem last_face_tangent_step {F : Type} [LinearOrderedField F] (V new V4 : List (Vertex F))
    (I : List UVec3) (face : UVec3) (hinv : last_face_tangent V I)
    (hrun : generate_tangents (V ++ new) face = .ok V4)
    (hcover : ∀ j, V.length ≤ j → j < (V ++ new).length →
      (face.x = j ∨ face.y = j ∨ face.z = j)) :
    last_face_tangent V4 (I ++ [face]) := by
  obtain ⟨v0, v1, v2, h0, h1, h2⟩ := generate_tangents_inv _ _ _ hrun
  have hget := generate_tangents_getElem? (V ++ new) V4 face v0 v1 v2 h0 h1 h2 hrun
  intro j vert hj
  rw [hget j] at hj
  cases hu : (V ++ new)[j]? with
  | none => simp [hu] at hj
  | some u =>
    simp only [hu, Option.map_some', Option.some.injEq] at hj
    by_cases hc : face.x = j ∨ face.y = j ∨ face.z = j
    · rw [if_pos hc] at hj
      refine ⟨I.length, face, { v0 with tex_tangent := face_tangent v0 v1 v2 },
        { v1 with tex_tangent := face_tangent v0 v1 v2 },
        { v2 with tex_tangent := face_tangent v0 v1 v2 }, ?_, hc, ?_, ?_, ?_, ?_, ?_⟩
      · rw [List.getElem?_append_right (le_refl _)]
        simp
      · intro k1 face1 hk1 hf1
        have hlen := (List.getElem?_eq_some.1 hf1).1
        rw [List.length_append, List.length_singleton] at hlen
        omega
      · rw [hget, h0]; simp
      · rw [hget, h1]; simp
      · rw [hget, h2]; simp
      · rw [← hj]
        exact face_tangent_congr _ _ _ _ _ _ ⟨rfl, rfl⟩ ⟨rfl, rfl⟩ ⟨rfl, rfl⟩
    · rw [if_neg hc] at hj
      subst hj
      have hjlt : j < V.length := by
        by_contra hge
        exact hc (hcover j (not_lt.1 hge) (List.getElem?_eq_some.1 hu).1)
      have hVj : V[j]? = some u := by
        rw [List.getElem?_append_left hjlt] at hu
        exact hu
      obtain ⟨k, face0, u0, u1, u2, hk, hjf, hlater, hx, hy, hz, htan⟩ := hinv j u hVj
      have hnew : ∀ (i : Nat) (w : Vertex F), V[i]? = some w →
          ∃ w1 : Vertex F, V4[i]? = some w1 ∧ w1.position = w.position ∧
            w1.tex_coord = w.tex_coord := by
        intro i w hw
        refine ⟨if face.x = i ∨ face.y = i ∨ face.z = i then
            { w with tex_tangent := face_tangent v0 v1 v2 } else w, ?_, ?_⟩
        · rw [hget, getElem?_append_of_some V new i w hw]
          rfl
        · split_ifs <;> exact ⟨rfl, rfl⟩
      obtain ⟨w0, hw0, hg0⟩ := hnew _ _ hx
      obtain ⟨w1, hw1, hg1⟩ := hnew _ _ hy
      obtain ⟨w2, hw2, hg2⟩ := hnew _ _ hz
      refine ⟨k, face0, w0, w1, w2, getElem?_append_of_some I [face] k face0 hk, hjf, ?_,
        hw0, hw1, hw2, ?_⟩
      · intro k1 face1 hk1 hf1
        by_cases hlt : k1 < I.length
        · rw [List.getElem?_append_left hlt] at hf1
          exact hlater k1 face1 hk1 hf1
        · have hlen := (List.getElem?_eq_some.1 hf1).1
          rw [List.length_append, List.length_singleton] at hlen
          have hk1eq : k1 = I.length := by omega
          subst hk1eq
          rw [List.getElem?_append_right (le_refl _)] at hf1
          simp only [Nat.sub_self, List.getElem?_cons_zero, Option.some.injEq] at hf1
          subst hf1
          exact hc
      · rw [htan]
        exact face_tangent_congr _ _ _ _ _ _ ⟨hg0.1.symm, hg0.2.symm⟩ ⟨hg1.1.symm, hg1.2.symm⟩
          ⟨hg2.1.symm, hg2.2.symm⟩

theorem generate_tangents_length {F : Type} [LinearOrderedField F] (V V1 : List (Vertex F))
    (face : UVec3) (h : generate_tangents V face = .ok V1) : V1.length = V.length := by
  unfold generate_tangents at h
  cases h0 : V[face.x]? with
  | none => simp [h0] at h
  | some v0 =>
    cases h1 : V[face.y]? with
    | none => simp [h0, h1] at h
    | some v1 =>
      cases h2 : V[face.z]? with
      | none => simp [h0, h1, h2] at h
      | some v2 =>
        simp only [h0, h1, h2, Except.ok.injEq] at h
        subst h
        rw [set_tangent_length, set_tangent_length, set_tangent_length]

theorem gen_mesh_face_tangent {F : Type} [LinearOrderedField F] (s : mesh_t)
    (attrib : attrib_t F) (st : GenMeshState F) (f : Nat) (hoff : st.offset = 3 * f)
    (inv : DedupInv attrib (s.indices.take (3 * f)) st.vertices st.seen
      (element_buffer st.indices))
    (htan : last_face_tangent st.vertices st.indices)
    (hlen : 3 * f + 3 ≤ s.indices.length)
    (hrange : ∀ idx ∈ s.indices, index_in_range attrib idx)
    (hsize : s.indices.length < 2 ^ 31) :
    ∃ st1, gen_mesh_face s attrib st 3 = .ok st1 ∧ st1.offset = 3 * (f + 1) ∧
      DedupInv attrib (s.indices.take (3 * (f + 1))) st1.vertices st1.seen
        (element_buffer st1.indices) ∧
      last_face_tangent st1.vertices st1.indices := by
  obtain ⟨st1, hface, hoff1, inv1, _⟩ :=
    gen_mesh_face_ok s attrib st f hoff inv hlen hrange hsize
  refine ⟨st1, hface, hoff1, inv1, ?_⟩
  obtain ⟨n0, n1, n2, e0, e1, e2, hrun, hidx, hn0, hn1, hn2⟩ :=
    gen_mesh_face_shape s attrib st st1 hface
  have hlen1 := generate_tangents_length _ _ _ hrun
  have hbound : st1.vertices.length < 2 ^ 32 := by
    have h1 := inv1.len
    have h2 := inv1.bound
    have h3 : (s.indices.take (3 * (f + 1))).length ≤ s.indices.length := by
      rw [List.length_take]
      exact Nat.min_le_right _ _
    omega
  rw [hidx]
  have happ : st.vertices ++ n0 ++ n1 ++ n2 = st.vertices ++ (n0 ++ n1 ++ n2) := by
    simp only [List.append_assoc]
  rw [happ] at hrun hlen1
  have htotal : st1.vertices.length
      = st.vertices.length + (n0.length + n1.length + n2.length) := by
    rw [hlen1]
    simp only [List.length_append]
  have hn0a : n0.length = 0 ∨ (n0.length = 1 ∧ e0 = st.vertices.length) := by
    rcases hn0 with h | ⟨h, k⟩
    · left; rw [h]; rfl
    · right
      exact ⟨h, by rw [k]; exact Nat.mod_eq_of_lt (by omega)⟩
  have hn1a : n1.length = 0 ∨ (n1.length = 1 ∧ e1 = st.vertices.length + n0.length) := by
    rcases hn1 with h | ⟨h, k⟩
    · left; rw [h]; rfl
    · right
      rw [List.length_append] at k
      exact ⟨h, by rw [k]; exact Nat.mod_eq_of_lt (by omega)⟩
  have hn2a : n2.length = 0 ∨
      (n2.length = 1 ∧ e2 = st.vertices.length + n0.length + n1.length) := by
    rcases hn2 with h | ⟨h, k⟩
    · left; rw [h]; rfl
    · right
      rw [List.length_append, List.length_append] at k
      exact ⟨h, by rw [k]; exact Nat.mod_eq_of_lt (by omega)⟩
  refine last_face_tangent_step st.vertices (n0 ++ n1 ++ n2) st1.vertices st.indices
    ⟨e0, e1, e2⟩ htan hrun ?_
  intro j hj1 hj2
  show e0 = j ∨ e1 = j ∨ e2 = j
  simp only [List.length_append] at hj2
  omega

theorem gen_mesh_faces_tangent {F : Type} [LinearOrderedField F] (s : mesh_t)
    (attrib : attrib_t F) (hrange : ∀ idx ∈ s.indices, index_in_range attrib idx)
    (hsize : s.indices.length < 2 ^ 31) (fvs : List Nat) :
    ∀ (st : GenMeshState F) (f : Nat), (∀ fv ∈ fvs, fv = 3) →
      3 * (f + fvs.length) ≤ s.indices.length → st.offset = 3 * f →
      DedupInv attrib (s.indices.take (3 * f)) st.vertices st.seen
        (element_buffer st.indices) →
      last_face_tangent st.vertices st.indices →
      ∃ st1, gen_mesh_faces s attrib fvs st = .ok st1 ∧
        DedupInv attrib (s.indices.take (3 * (f + fvs.length))) st1.vertices st1.seen
          (element_buffer st1.indices) ∧
        last_face_tangent st1.vertices st1.indices := by
  induction fvs with
  | nil =>
    intro st f _ _ _ inv htan
    exact ⟨st, rfl, inv, htan⟩
  | cons fv rest ih =>
    intro st f htri hlen hoff inv htan
    have hfv : fv = 3 := htri fv (List.mem_cons_self _ _)
    subst hfv
    rw [List.length_cons] at hlen
    obtain ⟨st1, hface, hoff1, inv1, htan1⟩ :=
      gen_mesh_face_tangent s attrib st f hoff inv htan (by omega) hrange hsize
    obtain ⟨st2, hrest, inv2, htan2⟩ := ih st1 (f + 1)
      (fun x hx => htri x (List.mem_cons_of_mem _ hx)) (by omega) hoff1 inv1 htan1
    refine ⟨st2, ?_, ?_, htan2⟩
    · simp only [gen_mesh_faces, hface, hrest]
    · have : f + (rest.length + 1) = f + 1 + rest.length := by ring
      rw [List.length_cons, this]
      exact inv2

theorem Manager.handle_event_scene_state (m : Manager) (event : SDL_Event) :
    (m.handle_event event).2._scenes = m._scenes ∧
    ((m.handle_event event).2._scene_idx = m._scene_idx ∨
      ∃ i, i < m._scenes.length ∧ (m.handle_event event).2._scene_idx = some i) := by
  unfold Manager.handle_event
  dsimp only
  split_ifs <;>
    first
    | exact ⟨rfl, Or.inl rfl⟩
    | exact ⟨rfl, Or.inr ⟨_, by assumption, rfl⟩⟩

theorem Manager.add_scene_scene_state (m : Manager) (s : Scene) :
    (m.add_scene s)._scenes = m._scenes ++ [s] ∧
    (m._scene_idx = none → (m.add_scene s)._scene_idx = some 0) ∧
    (m._scene_idx ≠ none → (m.add_scene s)._scene_idx = m._scene_idx) := by
  unfold Manager.add_scene
  cases h : m._scene_idx with
  | none => simp [h]
  | some i => simp [h]

theorem Manager.calls_scene_state (cs : List ManagerCall) :
    ∀ m : Manager, (m._scene_idx = none ↔ m._scenes = []) →
      (∀ i, m._scene_idx = some i → i < m._scenes.length) →
      (m.calls cs)._scenes = m._scenes ++ added_scenes cs ∧
      ((m.calls cs)._scene_idx = none ↔ (m.calls cs)._scenes = []) ∧
      (∀ i, (m.calls cs)._scene_idx = some i → i < (m.calls cs)._scenes.length) := by
  induction cs with
  | nil =>
    intro m h1 h2
    exact ⟨by simp [Manager.calls, added_scenes], h1, h2⟩
  | cons c rest ih =>
    intro m h1 h2
    cases c with
    | add_scene s =>
      obtain ⟨hs, hn, hk⟩ := Manager.add_scene_scene_state m s
      have ha1 : (m.add_scene s)._scene_idx = none ↔ (m.add_scene s)._scenes = [] := by
        rw [hs]
        constructor
        · intro h
          cases hm : m._scene_idx with
          | none => rw [hn hm] at h; cases h
          | some i =>
            have := hk (by rw [hm]; simp)
            rw [this, hm] at h
            cases h
        · intro h
          simp at h
      have ha2 : ∀ i, (m.add_scene s)._scene_idx = some i → i < (m.add_scene s)._scenes.length := by
        intro i hi
        rw [hs, List.length_append, List.length_singleton]
        cases hm : m._scene_idx with
        | none =>
          rw [hn hm] at hi
          have : i = 0 := (Option.some.inj hi).symm
          omega
        | some j =>
          have := hk (by rw [hm]; simp)
          rw [this] at hi
          have := h2 i hi
          omega
      obtain ⟨r1, r2, r3⟩ := ih (m.add_scene s) ha1 ha2
      refine ⟨?_, r2, r3⟩
      show ((m.add_scene s).calls rest)._scenes = _
      rw [r1, hs, List.append_assoc]
      rfl
    | handle_event event =>
      obtain ⟨hs, hi⟩ := Manager.handle_event_scene_state m event
      have hb1 : (m.handle_event event).2._scene_idx = none ↔
          (m.handle_event event).2._scenes = [] := by
        rw [hs]
        rcases hi with h | ⟨i, hlt, h⟩
        · rw [h]; exact h1
        · rw [h]
          constructor
          · intro hc; cases hc
          · intro hc
            rw [hc] at hlt
            simp at hlt
      have hb2 : ∀ i, (m.handle_event event).2._scene_idx = some i →
          i < (m.handle_event event).2._scenes.length := by
        intro i hsome
        rw [hs]
        rcases hi with h | ⟨j, hlt, h⟩
        · rw [h] at hsome; exact h2 i hsome
        · rw [h] at hsome
          have : j = i := Option.some.inj hsome
          omega
      obtain ⟨r1, r2, r3⟩ := ih (m.handle_event event).2 hb1 hb2
      refine ⟨?_, r2, r3⟩
      show ((m.handle_event event).2.calls rest)._scenes = _
      rw [r1, hs]
      rfl

/-- C21: in the manager reached from construction by any sequence of `add_scene`
and `handle_event` calls, the scene list is the list of scenes added, the
active index is empty exactly when no scene has been added, and otherwise it is
below the number of loaded scenes; an `add_scene` on a manager without scenes
makes index 0 active, and on a manager with scenes it leaves the active index
unchanged. -/
theorem scene_index_invariant (geometry ssao blur lighting : Shader)
    (framebuffer position normal diffuse render_buffer ssao_framebuffer ssao_texture
      blur_framebuffer blur_texture quad noise : Nat) (cs : List ManagerCall) (s : Scene) :
    ∃ m : Manager,
      m = (Manager.new geometry ssao blur lighting framebuffer position normal diffuse
        render_buffer ssao_framebuffer ssao_texture blur_framebuffer blur_texture quad
        noise).calls cs ∧
      m._scenes = added_scenes cs ∧
      (m._scene_idx = none ↔ added_scenes cs = []) ∧
      (∀ i, m._scene_idx = some i → i < m._scenes.length) ∧
      (added_scenes cs = [] → (m.add_scene s)._scene_idx = some 0) ∧
      (added_scenes cs ≠ [] → (m.add_scene s)._scene_idx = m._scene_idx) := by
  obtain ⟨r1, r2, r3⟩ := Manager.calls_scene_state cs
    (Manager.new geometry ssao blur lighting framebuffer position normal diffuse
      render_buffer ssao_framebuffer ssao_texture blur_framebuffer blur_texture quad noise)
    (by simp [Manager.new, Manager.construct_gbuffer, Manager.construct_ssao_buffers])
    (by simp [Manager.new, Manager.construct_gbuffer, Manager.construct_ssao_buffers])
  have hscenes : ((Manager.new geometry ssao blur lighting framebuffer position normal
      diffuse render_buffer ssao_framebuffer ssao_texture blur_framebuffer blur_texture quad
      noise).calls cs)._scenes = added_scenes cs := by
    rw [r1]
    simp [Manager.new, Manager.construct_gbuffer, Manager.construct_ssao_buffers]
  refine ⟨_, rfl, hscenes, ?_, r3, ?_, ?_⟩
  · rw [r2, hscenes]
  · intro h
    exact (Manager.add_scene_scene_state _ s).2.1 (r2.2 (by rw [hscenes]; exact h))
  · intro h
    refine (Manager.add_scene_scene_state _ s).2.2 ?_
    intro hnone
    exact h (by rw [← hscenes]; exact r2.1 hnone)

theorem scene_index_invariant_witness :
    ∃ m : Manager,
      m = (Manager.new ⟨1⟩ ⟨2⟩ ⟨3⟩ ⟨4⟩ 1 2 3 4 1 2 5 3 6 1 7).calls
        [ManagerCall.add_scene ⟨[], []⟩, ManagerCall.add_scene ⟨[⟨9⟩], []⟩,
         ManagerCall.handle_event (numeric_key 2), ManagerCall.handle_event (numeric_key 5)] ∧
      m._scene_idx = some 1 ∧ (m.add_scene ⟨[], []⟩)._scene_idx = m._scene_idx := by
  obtain ⟨m, hm, _, _, _, _, hlater⟩ :=
    scene_index_invariant ⟨1⟩ ⟨2⟩ ⟨3⟩ ⟨4⟩ 1 2 3 4 1 2 5 3 6 1 7
      [ManagerCall.add_scene ⟨[], []⟩, ManagerCall.add_scene ⟨[⟨9⟩], []⟩,
       ManagerCall.handle_event (numeric_key 2), ManagerCall.handle_event (numeric_key 5)]
      ⟨[], []⟩
  exact ⟨m, hm, by rw [hm]; decide, hlater (by decide)⟩

/-! ## The P3 reader: the first store is outside the buffer -/

theorem read_ppm_step_max_val (w h m : Int) (h0 : 0 ≤ w * h * 3) :
    read_ppm_step ⟨[], w, h, true, true, false, 0⟩ m =
      (if int_in_range (w * h) ∧ int_in_range (w * h * 3) then
        .ok ⟨List.replicate (w * h * 3).toNat 0, w, h, true, true, true, 0⟩
      else .error .undefined) := by
  unfold read_ppm_step
  simp only [Bool.not_true, Bool.false_eq_true, if_false, Bool.not_false, if_true]
  by_cases hr : int_in_range (w * h) ∧ int_in_range (w * h * 3)
  · rw [if_pos hr, if_pos hr, if_pos h0]
  · rw [if_neg hr, if_neg hr]

theorem read_ppm_step_store (data : List Nat) (w h index n : Int)
    (hi : ¬ (0 ≤ ppm_store_index w h index ∧
      (ppm_store_index w h index).toNat < data.length)) :
    read_ppm_step ⟨data, w, h, true, true, true, index⟩ n = .error .undefined := by
  unfold read_ppm_step
  simp only [Bool.not_true, Bool.false_eq_true, if_false]
  by_cases hw : w * 3 = 0
  · rw [if_pos hw]
  · rw [if_neg hw]
    rw [if_neg (fun hc => hi hc.2)]

/-- C22 fails on the code: for every header with width `w + 1` and height
`h + 1`, the subscript `read_ppm` computes for the first sample is
`(w + 1) * (h + 1) * 3`, the size of the buffer, not less; the store is
undefined behaviour, whatever the samples are. -/
theorem read_ppm_first_store_past_buffer (w h : Nat) (max_val n : Int) (rest : List Int) :
    ppm_store_index ((w : Int) + 1) ((h : Int) + 1) 0 = ((w : Int) + 1) * ((h : Int) + 1) * 3 ∧
    read_ppm (ppm_tokens ((w : Int) + 1) ((h : Int) + 1) max_val (n :: rest))
      = .error .undefined := by
  have key : ∀ W H : Int, 0 < W → 0 < H →
      ppm_store_index W H 0 = W * H * 3 ∧
      read_ppm (ppm_tokens W H max_val (n :: rest)) = .error .undefined := by
    intro W H hW hH
    have hidx : ppm_store_index W H 0 = W * H * 3 := by
      simp only [ppm_store_index, Int.zero_tmod, Int.zero_tdiv]
      ring
    refine ⟨hidx, ?_⟩
    have hsize : (0 : Int) ≤ W * H * 3 := by positivity
    have e1 : read_ppm_step ⟨[], 0, 0, false, false, false, 0⟩ W
        = .ok ⟨[], W, 0, true, false, false, 0⟩ := rfl
    have e2 : read_ppm_step ⟨[], W, 0, true, false, false, 0⟩ H
        = .ok ⟨[], W, H, true, true, false, 0⟩ := rfl
    have e3 := read_ppm_step_max_val W H max_val hsize
    have e4 := read_ppm_step_store (List.replicate (W * H * 3).toNat 0) W H 0 n
      (by rw [hidx, List.length_replicate]; exact fun hc => lt_irrefl _ hc.2)
    unfold read_ppm ppm_tokens
    simp only [List.map_cons, read_ppm_loop, e1, e2, e3]
    by_cases hr : int_in_range (W * H) ∧ int_in_range (W * H * 3)
    · rw [if_pos hr]
      simp only [e4]
    · rw [if_neg hr]
  exact key ((w : Int) + 1) ((h : Int) + 1) (by positivity) (by positivity)

/-! ## The noise texture: the upload reads more than was generated -/

theorem vec3_floats_length {F : Type} (l : List (Vec3 F)) :
    (vec3_floats l).length = 3 * l.length := by
  induction l with
  | nil => rfl
  | cons v rest ih =>
    show (v.x :: v.y :: v.z :: vec3_floats rest).length = 3 * (rest.length + 1)
    simp only [List.length_cons, ih]
    ring

/-- C23 fails on the code: whatever the random draws, `generate_noise` builds
16 three-component vectors, 48 floats, and hands them to a 4 x 4 upload
declared as `GL_RGBA`, which reads 4 x 4 x 4 = 64 floats; the data is 16 floats
shorter than what the upload consumes. -/
theorem generate_noise_upload_too_short {F : Type} [LinearOrderedField F] (draw : Nat → F) :
    (generate_noise draw).data.length = 48 ∧
    (generate_noise draw).floats_read = 64 ∧
    (generate_noise draw).format = PixelFormat.GL_RGBA ∧
    ¬ ((generate_noise draw).floats_read ≤ (generate_noise draw).data.length) := by
  have h1 : (generate_noise draw).data.length = 48 := by
    simp [generate_noise, vec3_floats_length]
  have h2 : (generate_noise draw).floats_read = 64 := rfl
  refine ⟨h1, h2, rfl, ?_⟩
  rw [h1, h2]
  decide

end SSAO
